import Mathlib

/-!
# cr2hdr (Dual ISO post-processing): a shallow embedding

Source: `modules/dual_iso/cr2hdr.c`.

Conventions of the embedding
* C `int` values are `Int`; array indices and image coordinates that the code
  keeps non-negative are `Nat` or `Int` as convenient.
* Image buffers are flat functions from the cell index `x + y*w` to the cell
  contents.
* C integer division and remainder truncate toward zero: `Int.tdiv`, `Int.tmod`.
* `double` arithmetic is taken exactly (in `ℚ`, or in an ordered field that is
  a parameter); a NaN that the code can produce by `0/0` is modelled explicitly.
* Functions that live outside this file of the repository (`wirth.h`,
  `dither.h`, libm) are parameters of the definitions that call them.
-/

namespace Cr2hdr

/-! ## Constants and macros -/

/-- `#define EV_RESOLUTION 65536` -/
def EV_RESOLUTION : Int := 65536

/-- `BRIGHT_ROW`, i.e. `is_bright[y % 4]`, as a truth value. -/
def BRIGHT_ROW (is_bright : List Int) (y : Nat) : Bool := is_bright.getD (y % 4) 0 != 0

/-- `raw_get_pixel16(x, y)`: the cell `x + y*width` of the 16-bit buffer. -/
def raw_get_pixel16 (buf : Nat → Nat) (w x y : Nat) : Nat := buf (x + y * w)

/-! ## identify_bright_and_dark_fields -/

/-- The four histograms: `hist[c][v]` counts the samples `raw_get_pixel16(x,y) & 16383 = v`
over the rows `y0 ≤ y < h/4*4` with `y % 4 = c` and the columns `0 ≤ x < w`. -/
def hist (buf : Nat → Nat) (w h y0 c v : Nat) : Nat :=
  (((List.range (h / 4 * 4)).filter (fun y => decide (y0 ≤ y) && decide (y % 4 = c))).map
    (fun y => ((List.range w).filter
      (fun x => decide (raw_get_pixel16 buf w x y &&& 16383 = v))).length)).sum

/-- `hist_total`: the sum of `hist[0][i]` for `i < 16384`. -/
def hist_total (buf : Nat → Nat) (w h y0 : Nat) : Nat :=
  ((List.range 16384).map (fun i => hist buf w h y0 0 i)).sum

/-- The inner `while (acc[i] < ref) { acc[i] += hist[i][raw[i]]; raw[i]++; }`,
on the pair `(acc[i], raw[i])`. The first argument bounds the number of
iterations by the length of the histogram that is left to read. -/
def advance (hst : Nat → Nat) (ref : Nat) : Nat → Nat × Nat → Nat × Nat
  | 0, s => s
  | fuel + 1, (acc, raw) =>
    if acc < ref then advance hst ref fuel (acc + hst raw, raw + 1) else (acc, raw)

/-- The loop `for (ref = 0; ref < hist_total - 10; ref++)` with its four `break`s.
`n` is the number of values of `ref` still to visit; the state is the list of
the four pairs `(acc[i], raw[i])`. -/
def percentile_loop (hst : Nat → Nat → Nat) (white : Nat) :
    Nat → Nat → List (Nat × Nat) → List (Nat × Nat)
  | 0, _, s => s
  | n + 1, ref, s =>
    let s1 : List (Nat × Nat) := (List.range 4).map (fun i =>
      advance (hst i) ref (16384 - (s.getD i (0, 0)).2) (s.getD i (0, 0)))
    if (s1.getD 0 (0, 0)).2 ≥ white then s1
    else if (s1.getD 1 (0, 0)).2 ≥ white then s1
    else if (s1.getD 2 (0, 0)).2 ≥ white then s1
    else if (s1.getD 3 (0, 0)).2 ≥ white then s1
    else percentile_loop hst white n (ref + 1) s1

/-- One step `if (sorted_bright[i] > sorted_bright[j]) swap` of the crude sort. -/
def sort_step (i j : Nat) (s : List Int) : List Int :=
  if s.getD i 0 > s.getD j 0 then (s.set i (s.getD j 0)).set j (s.getD i 0) else s

/-- The double loop `for i < 4, for j in i+1..3` of the crude sort, unrolled in
the order the code visits the pairs. -/
def sorted_bright (raw : List Int) : List Int :=
  sort_step 2 3 (sort_step 1 3 (sort_step 1 2
    (sort_step 0 3 (sort_step 0 2 (sort_step 0 1 raw)))))

/-- `median_bright = (sorted_bright[1] + sorted_bright[2]) / 2` (integer division). -/
def median_bright (raw : List Int) : Int :=
  Int.tdiv ((sorted_bright raw).getD 1 0 + (sorted_bright raw).getD 2 0) 2

/-- The row-class table computed from the four percentile values:
`for (i = 0; i < 4; i++) is_bright[i] = raw[i] > median_bright`. -/
def is_bright_of_raw (raw : List Int) : List Int :=
  (List.range 4).map (fun i => if raw.getD i 0 > median_bright raw then 1 else 0)

/-- The two final tests of `identify_bright_and_dark_fields` on the table. -/
def check_is_bright (is_bright : List Int) : Int :=
  if is_bright.getD 0 0 + is_bright.getD 1 0 + is_bright.getD 2 0 + is_bright.getD 3 0 ≠ 2
  then 0
  else if is_bright.getD 0 0 = is_bright.getD 2 0 ∨ is_bright.getD 1 0 = is_bright.getD 3 0
  then 0
  else 1

/-- The percentile values `raw[0..3]` that the histogram walk ends with. -/
def percentile_raw (buf : Nat → Nat) (w h y1 : Nat) : List Int :=
  let white := 10000
  let y0 := (y1 + 3) / 4 * 4
  let total := hist_total buf w h y0
  (percentile_loop (hist buf w h y0) white (total - 10) 0 (List.replicate 4 (0, 0))).map
    (fun s => (s.2 : Int))

/-- Result of `identify_bright_and_dark_fields`: the global table `is_bright[]`
it leaves behind (four entries), and its return value. -/
structure BrightDark where
  is_bright : List Int
  ret : Int

/-- `identify_bright_and_dark_fields` on the 14-bit mosaic `buf` of width `w`,
height `h`, with `raw_info.active_area.y1 = y1`. -/
def identify_bright_and_dark_fields (buf : Nat → Nat) (w h y1 : Nat) : BrightDark :=
  let t := is_bright_of_raw (percentile_raw buf w h y1)
  { is_bright := t, ret := check_is_bright t }

/-- Number of true (non-zero) entries of the table `is_bright[0..3]`. -/
def count_true (is_bright : List Int) : Nat :=
  (is_bright.filter (fun b => b != 0)).length

/-- `is_bright[i]` read from the table. -/
def is_bright_at (is_bright : List Int) (i : Nat) : Int := is_bright.getD i 0

/-! ## bin_search and match_exposures -/

/-- `bin_search(lo, hi, crit)`: `crit` returns negative if the tested value is
too high, positive if too low, 0 if perfect. -/
def bin_search (lo hi : Int) (crit : Int → Int) : Int :=
  if lo ≥ hi - 1 then lo
  else
    let m := Int.tdiv (lo + hi) 2
    let c := crit m
    if c = 0 then m
    else if c > 0 then bin_search m hi crit
    else bin_search lo m crit
termination_by (hi - lo).toNat
decreasing_by
  all_goals simp_wf
  all_goals
    have hm : 2 * Int.tdiv (lo + hi) 2 ≤ lo + hi + 1 ∧ lo + hi - 1 ≤ 2 * Int.tdiv (lo + hi) 2 := by
      rcases le_or_lt 0 (lo + hi) with h0 | h0
      · rw [Int.tdiv_eq_ediv h0 (by decide)]
        omega
      · have e : lo + hi = -(-(lo + hi)) := by omega
        rw [e, Int.neg_tdiv, Int.tdiv_eq_ediv (by omega) (by decide)]
        omega
    omega


/-- The argument of the last call of `crit` made by `bin_search(lo, hi, crit)`
(`prev` if it makes none): `match_test` leaves `avg_delta` behind as a side
effect, and `match_exposures` reads the value left by the last call. -/
def bin_search_probe (lo hi : Int) (crit : Int → Int) (prev : Option Int) : Option Int :=
  if lo ≥ hi - 1 then prev
  else
    let m := Int.tdiv (lo + hi) 2
    let c := crit m
    if c = 0 then some m
    else if c > 0 then bin_search_probe m hi crit (some m)
    else bin_search_probe lo m crit (some m)
termination_by (hi - lo).toNat
decreasing_by
  all_goals simp_wf
  all_goals
    have hm : 2 * Int.tdiv (lo + hi) 2 ≤ lo + hi + 1 ∧ lo + hi - 1 ≤ 2 * Int.tdiv (lo + hi) 2 := by
      rcases le_or_lt 0 (lo + hi) with h0 | h0
      · rw [Int.tdiv_eq_ediv h0 (by decide)]
        omega
      · have e : lo + hi = -(-(lo + hi)) := by omega
        rw [e, Int.neg_tdiv, Int.tdiv_eq_ediv (by omega) (by decide)]
        omega
    omega

/-- Conversion of a `double` to `int`: truncation toward zero. -/
def c_trunc (q : ℚ) : Int := if 0 ≤ q then ⌊q⌋ else ⌈q⌉

/-- `raw_get_pixel32(x, y)`: the cell `x + y*width` of the 32-bit buffer. -/
def raw_get_pixel32 (buf : Nat → Nat) (w x y : Nat) : Int := (buf (x + y * w) : Int)

/-- `raw_get_pixel_20to16(x, y) = (raw_get_pixel32(x,y) >> 4) & 0xFFFF`. -/
def raw_get_pixel_20to16 (buf : Nat → Nat) (w x y : Nat) : Int :=
  (((buf (x + y * w) >>> 4) &&& 0xFFFF : Nat) : Int)

/-- The locals `black`, `clip` of `match_exposures`:
`black = black20/16`, `white = white20/16`, `clip0 = white - black`,
`clip = clip0 * 0.9`. -/
def match_black (black20 : Int) : Int := Int.tdiv black20 16

/-- See `match_black`. -/
def match_clip (black20 white20 : Int) : Int :=
  c_trunc (((Int.tdiv white20 16 - Int.tdiv black20 16 : Int) : ℚ) * (9 / 10))

/-- The "quick interpolation for matching": the pair `(dark[x + y*w], bright[x + y*w])`
after the first loop of `match_exposures`. Rows outside `2 ≤ y < h-2` keep the
zeros of `memset`. -/
def quick_interp (buf : Nat → Nat) (w h : Nat) (is_bright : List Int) (black clip : Int)
    (x y : Nat) : Int × Int :=
  if 2 ≤ y ∧ y + 2 < h ∧ x < w then
    let pa := raw_get_pixel_20to16 buf w x (y - 2) - black
    let pb := raw_get_pixel_20to16 buf w x (y + 2) - black
    let pi := if pa ≥ clip ∨ pb ≥ clip then clip else Int.tdiv (pa + pb) 2
    let pn := raw_get_pixel_20to16 buf w x y - black
    if BRIGHT_ROW is_bright y then (pi, pn) else (pn, pi)
  else (0, 0)

/-- The native bright samples below `clip` that are averaged into `avg_bright`. -/
def avg_bright_samples (buf : Nat → Nat) (w h : Nat) (is_bright : List Int) (black clip : Int) :
    List Int :=
  ((List.range h).filter (fun y => decide (2 ≤ y) && decide (y + 2 < h))).flatMap (fun y =>
    ((List.range w).filter (fun x =>
      BRIGHT_ROW is_bright y && decide (raw_get_pixel_20to16 buf w x y - black < clip))).map
      (fun x => raw_get_pixel_20to16 buf w x y - black))

/-- `avg_bright /= avg_bright_num`; `none` is the NaN of `0.0/0`. -/
def avg_bright (buf : Nat → Nat) (w h : Nat) (is_bright : List Int) (black clip : Int) :
    Option ℚ :=
  let l := avg_bright_samples buf w h is_bright black clip
  if l.length = 0 then none else some ((l.sum : ℚ) / (l.length : ℚ))

/-- `b < avg_bright` with `b` an `int` and `avg_bright` a `double` (false on NaN). -/
def lt_avg (b : Int) (avg : Option ℚ) : Bool :=
  match avg with
  | none => false
  | some a => decide ((b : ℚ) < a)

/-- The downsampled pixels visited by `match_test`, in the order of the loops
`for (y = y0; y < h-2; y += 3) for (x = 0; x < w; x += 3)`. -/
def match_samples (w h y0 : Nat) : List (Nat × Nat) :=
  ((List.range h).filter (fun y => decide (y0 ≤ y) && decide (y + 2 < h) &&
      decide ((y - y0) % 3 = 0))).flatMap (fun y =>
    ((List.range w).filter (fun x => decide (x % 3 = 0))).map (fun x => (x, y)))

/-- The contents of `buf_left` (first component) and `buf_right` that
`match_test(gain)` collects. -/
def match_bufs (dark_bright : Nat → Nat → Int × Int) (avg : Option ℚ) (clip : Int)
    (w h y0 : Nat) (gain : Int) : List Int × List Int :=
  let used := (match_samples w h y0).filter (fun p => decide ((dark_bright p.1 p.2).2 < clip))
  let delta : Nat × Nat → Int := fun p =>
    Int.tdiv ((dark_bright p.1 p.2).2 * 100) gain - (dark_bright p.1 p.2).1
  ((used.filter (fun p => lt_avg (dark_bright p.1 p.2).2 avg)).map delta,
   (used.filter (fun p => !(lt_avg (dark_bright p.1 p.2).2 avg))).map delta)

/-- Return value of the nested function `match_test(gain)`:
`delta_right - delta_left`. -/
def match_test (median_int_wirth : List Int → Int) (dark_bright : Nat → Nat → Int × Int)
    (avg : Option ℚ) (clip : Int) (w h y0 : Nat) (gain : Int) : Int :=
  median_int_wirth (match_bufs dark_bright avg clip w h y0 gain).2 -
    median_int_wirth (match_bufs dark_bright avg clip w h y0 gain).1

/-- The value `match_test(gain)` stores in `avg_delta`:
`(delta_right + delta_left) / 2`. -/
def match_test_avg_delta (median_int_wirth : List Int → Int)
    (dark_bright : Nat → Nat → Int × Int) (avg : Option ℚ) (clip : Int) (w h y0 : Nat)
    (gain : Int) : Int :=
  Int.tdiv (median_int_wirth (match_bufs dark_bright avg clip w h y0 gain).2 +
    median_int_wirth (match_bufs dark_bright avg clip w h y0 gain).1) 2

/-- What `match_exposures` produces: its return value, the searched `gain`,
`off`, the factors `a = 100.0 / gain` and `factor = 1/a`, and the value it
stores in `*white_darkened`. -/
structure MatchResult where
  ret : Int
  gain : Int
  off : Int
  a : ℚ
  factor : ℚ
  white_darkened : Int

/-- `match_exposures` (without the rewrite of the pixel data, `match_apply`
below). `black_level`, `white_level` are `raw_info.black_level`,
`raw_info.white_level` (20-bit), `white_darkened` the value of `*white_darkened`
on entry, `y1` is `raw_info.active_area.y1`; `median_int_wirth` comes from
`wirth.h`. `isfinite(1/a)` is `a ≠ 0`.

The `double` operations (`100.0 / gain`, `1/a`, the expression stored in
`*white_darkened`) are evaluated in exact rational arithmetic, without the
rounding of IEEE doubles: `gain`, `off` and `ret` are the values of the source,
while the integer stored in `*white_darkened` can differ by one from the value
given here when the exact result is an integer (a rounded `a` pulls the product
just under it). -/
def match_exposures (median_int_wirth : List Int → Int) (buf : Nat → Nat) (w h y1 : Nat)
    (is_bright : List Int) (black_level white_level white_darkened : Int) : MatchResult :=
  let black20 := black_level
  let white20 := min white_level white_darkened
  let black := match_black black20
  let clip := match_clip black20 white20
  let dark_bright := quick_interp buf w h is_bright black clip
  let avg := avg_bright buf w h is_bright black clip
  let crit := match_test median_int_wirth dark_bright avg clip w h y1
  let gain := bin_search 100 9000 crit
  let avg_delta : Int :=
    match bin_search_probe 100 9000 crit none with
    | none => 0
    | some g => match_test_avg_delta median_int_wirth dark_bright avg clip w h y1 g
  let off := -avg_delta
  let a : ℚ := 100 / (gain : ℚ)
  let b : ℚ := (off : ℚ)
  let b20 : ℚ := b * 16
  let factor : ℚ := 1 / a
  { ret := if factor < 6 / 5 ∨ a = 0 then 0 else 1
    gain := gain
    off := off
    a := a
    factor := factor
    white_darkened := c_trunc (((white20 : ℚ) - (black20 : ℚ) + b20) * a + (black20 : ℚ)) }

/-- The "apply the correction" loop of `match_exposures` on one cell of a row
`y < h-1`: the new content of the cell holding `p`. The `double` expressions are
evaluated in exact rational arithmetic, without the rounding of IEEE doubles;
where the exact result is an integer the source can store an adjacent integer. -/
def match_apply (black20 : Int) (a b20 : ℚ) (bright_row : Bool) (p : Int) : Int :=
  if p = 0 then p
  else
    let q : Int := if bright_row then c_trunc (((p - black20 : Int) : ℚ) * a + (black20 : ℚ) + b20 * a)
      else c_trunc ((p : ℚ) - b20 + b20 * a)
    let q1 : Int := if q < 0 ∨ q > 0xFFFFF then 0 else q
    max (min q1 0xFFFFF) 0


/-! ## hdr_check and the branch of main that calls it -/

/-- The pixels `(x, y)` that `hdr_check` adds to its average: `2 ≤ y < h-2`,
`2 ≤ x < w-2`, with `p = raw_get_pixel16(x, y)`, `p2 = raw_get_pixel16(x, y+2)` and
`(p > black+32 || p2 > black+32) && p < white && p2 < white`. -/
def hdr_check_samples (buf : Nat → Nat) (w h : Nat) (black white : Int) : List (Nat × Nat) :=
  ((List.range h).filter (fun y => decide (2 ≤ y) && decide (y + 2 < h))).flatMap (fun y =>
    ((List.range w).filter (fun x => decide (2 ≤ x) && decide (x + 2 < w) &&
      ((decide ((raw_get_pixel16 buf w x y : Int) > black + 32) ||
          decide ((raw_get_pixel16 buf w x (y + 2) : Int) > black + 32)) &&
        decide ((raw_get_pixel16 buf w x y : Int) < white) &&
        decide ((raw_get_pixel16 buf w x (y + 2) : Int) < white)))).map (fun x => (x, y)))

/-- `hdr_check`: "quick check to see if this looks like a HDR frame".
`log2` is the libm function on the integers it is applied to, with values in an
ordered field `R`; `raw2ev[i] = log2(MAX(1, i - black))`. With `num = 0` the
quotient `avg_ev / num` is the NaN `0.0/0`, for which `avg_ev > 0.5` is false. -/
def hdr_check {R : Type} [LinearOrderedField R] (log2 : Int → R) (buf : Nat → Nat)
    (w h : Nat) (black white : Int) : Int :=
  let raw2ev : Int → R := fun i => log2 (max 1 (i - black))
  let samples := hdr_check_samples buf w h black white
  let avg_ev : R := (samples.map (fun p =>
    |raw2ev (raw_get_pixel16 buf w p.1 (p.2 + 2)) - raw2ev (raw_get_pixel16 buf w p.1 p.2)|)).sum
  let num := samples.length
  if num = 0 then 0
  else if avg_ev / (num : R) > 1 / 2 then 1
  else 0

/-- What `main` does with one input frame. -/
inductive MainOutcome where
  /-- `save_dng(out_filename)` was called. -/
  | output_written
  /-- "ISO blending didn't work": nothing is written. -/
  | blending_failed
  /-- "Doesn't look like interlaced ISO": nothing is written. -/
  | not_interlaced
  deriving DecidableEq, Repr

/-- The part of `main` that processes one decoded frame: `black_level = 2048`,
`white_level = 15000`, then `if (hdr_check()) { black_subtract; if (hdr_interpolate())
save_dng ... else "ISO blending didn't work" } else "Doesn't look like interlaced ISO"`.
`hdr_interpolate_ret` is the value `hdr_interpolate()` would return for the frame. -/
def main_frame {R : Type} [LinearOrderedField R] (log2 : Int → R) (buf : Nat → Nat)
    (w h : Nat) (hdr_interpolate_ret : Int) : MainOutcome :=
  if hdr_check log2 buf w h 2048 15000 ≠ 0 then
    if hdr_interpolate_ret ≠ 0 then MainOutcome.output_written
    else MainOutcome.blending_failed
  else MainOutcome.not_interlaced


/-! ## The ISO-overlap test of hdr_interpolate -/

/-- The value of `overlap` that `hdr_interpolate` tests:
`clipped_ev = corr_ev; overlap = lowiso_dr - clipped_ev; overlap -= MIN(3, overlap - 3);` -/
def iso_overlap {R : Type} [LinearOrderedField R] (lowiso_dr corr_ev : R) : R :=
  let clipped_ev := corr_ev
  let overlap := lowiso_dr - clipped_ev
  overlap - min 3 (overlap - 3)

/-- `if (overlap < 0.5) { printf("Overlap error\n"); goto err; }`: true when
`hdr_interpolate` takes the "Overlap error" exit (and returns 0). -/
def overlap_error {R : Type} [LinearOrderedField R] (lowiso_dr corr_ev : R) : Bool :=
  decide (iso_overlap lowiso_dr corr_ev < 1 / 2)

/-! ## The 20-bit to 16-bit emit step -/

/-- C `round`: to the nearest integer, halfway cases away from zero. -/
def c_round {R : Type} [LinearOrderedField R] [FloorRing R] (q : R) : Int :=
  if 0 ≤ q then ⌊q + 1 / 2⌋ else -⌊-q + 1 / 2⌋

/-- `raw_set_pixel16(x, y, value)`: the `int` is stored in a `uint16_t` cell,
i.e. reduced modulo 2^16. -/
def raw_set_pixel16 (buf : Nat → Nat) (w x y : Nat) (value : Int) : Nat → Nat :=
  Function.update buf (x + y * w) (value % 65536).toNat

/-- `raw_set_pixel_20to16_rand(x, y, value)`:
`raw_set_pixel16(x, y, round(value / 16.0 + fast_randn05()))`; `randn` is the
number `fast_randn05()` (`dither.h`) returns for this call. -/
def raw_set_pixel_20to16_rand (buf : Nat → Nat) (w x y : Nat) (value : Int) (randn : ℚ) :
    Nat → Nat :=
  raw_set_pixel16 buf w x y (c_round ((value : ℚ) / 16 + randn))


/-! ## Black and white levels through hdr_interpolate -/

/-- `COERCE(x,lo,hi) = MAX(MIN((x),(hi)),(lo))` on `int` operands. -/
def COERCE (x lo hi : Int) : Int := max (min x hi) lo

/-- `white_detect`: `k0`, `k1` are the two values `kth_smallest_int` (`wirth.h`)
returns for the dark and the bright pool; the result is
`(*white_dark, *white_bright)`, in 14-bit units. -/
def white_detect (k0 k1 : Int) : Int × Int :=
  let whites0 := -k0 - 100
  let whites1 := -k1 - 1500
  (COERCE whites0 5000 16383, COERCE whites1 5000 16383)

/-- The fields `raw_info.black_level` and `raw_info.white_level`. -/
structure Levels where
  black_level : Int
  white_level : Int
  deriving DecidableEq, Repr

/-- `black_subtract_simple(left_margin, top_margin)` on the levels; `new_black`
is the average `avg / num` of the left bar it computes. -/
def black_subtract_simple (left_margin top_margin new_black : Int) (lv : Levels) : Levels :=
  if left_margin < 10 then lv
  else if top_margin < 10 then lv
  else
    let black_delta := lv.black_level - new_black
    { black_level := lv.black_level - black_delta, white_level := lv.white_level - black_delta }

/-- What `hdr_interpolate` leaves in `raw_info` and in its locals `white`
(dark white level, 20-bit), `white_bright` and `white_darkened`. -/
structure InterpolateLevels where
  ret : Int
  levels : Levels
  white : Int
  white_bright : Int
  white_darkened : Int

/-- The handling of the black and white levels along `hdr_interpolate`.
* `ident_ret`: the value `identify_bright_and_dark_fields` returned;
* `lv`: `raw_info.black_level`, `raw_info.white_level` on entry (14-bit);
* `k0`, `k1`: see `white_detect`;
* `m`: `match_exposures` as a function of `raw_info.black_level`,
  `raw_info.white_level` and the initial `*white_darkened`;
* `lowiso_dr`, `corr_ev`: the two `double`s of the overlap test;
* `left_margin`, `top_margin`, `new_black`: see `black_subtract_simple`
  (called with `raw_info.active_area.x1`, `.y1`).
The steps between that do not touch these variables are left out. -/
def hdr_interpolate_levels (ident_ret : Int) (lv : Levels) (k0 k1 : Int)
    (m : Int → Int → Int → MatchResult) (lowiso_dr corr_ev : ℚ)
    (left_margin top_margin new_black : Int) : InterpolateLevels :=
  if ident_ret = 0 then
    { ret := 0, levels := lv, white := 0, white_bright := 0, white_darkened := 0 }
  else
    let lv1 : Levels := { black_level := lv.black_level * 64, white_level := lv.white_level * 64 }
    let white := (white_detect k0 k1).1 * 64
    let white_bright := (white_detect k0 k1).2 * 64
    let lv2 : Levels := { lv1 with white_level := white }
    let r := m lv2.black_level lv2.white_level white_bright
    if r.ret = 0 then
      { ret := 0, levels := lv2, white := white, white_bright := white_bright,
        white_darkened := r.white_darkened }
    else if overlap_error lowiso_dr corr_ev then
      { ret := 0, levels := lv2, white := white, white_bright := white_bright,
        white_darkened := r.white_darkened }
    else
      let lv3 := black_subtract_simple left_margin top_margin new_black lv2
      { ret := 1
        levels := { black_level := Int.tdiv lv3.black_level 16,
                    white_level := Int.tdiv lv3.white_level 16 }
        white := white, white_bright := white_bright, white_darkened := r.white_darkened }


/-! ## Helpers from wirth.h, and a small test frame -/

/-- Modelled from the spec: `median_int_wirth(a, n)` of `wirth.h`, which is not
under src/: the median of the `n` values, taken as the element of rank
`(n-1)/2` among the sorted values. -/
def median_int_wirth (l : List Int) : Int :=
  (l.insertionSort (fun a b => a ≤ b)).getD ((l.length - 1) / 2) 0

/-- A 76×12 test frame in the 20-bit format (black level 131072): the rows of
class 0 hold 131584 (= 64·2056 = 16·(8192+32)), the rows of class 1 hold 131264
(= 64·2051 = 16·(8192+12)), the rows of classes 2 and 3 hold 131072 (= 64·2048). -/
def frameA : Nat → Nat := fun i =>
  if (i / 76) % 4 = 0 then 131584 else if (i / 76) % 4 = 1 then 131264 else 131072

/-- The level handling of `hdr_interpolate` on `frameA`: 14-bit black level 2048,
no optical-black margins (so `black_subtract_simple` is a no-op), row classes 0
and 1 bright. `white_detect` finds `k0 = -2048` (dark pool) and `k1 = -2051`
(bright pool) on the 14-bit frame; the two `double`s of the overlap test are
set to 10 and 5.5. -/
def runA : InterpolateLevels :=
  hdr_interpolate_levels 1 ⟨2048, 15000⟩ (-2048) (-2051)
    (match_exposures median_int_wirth frameA 76 12 0 [1, 1, 0, 0]) 10 (11 / 2) 0 0 0

/-! ## find_and_fix_bad_pixels -/

/-- `FC(row, col)`: 0 red, 1 green, 2 blue. -/
def FC (row col : Nat) : Int :=
  if row % 2 = 0 ∧ col % 2 = 0 then 0
  else if row % 2 = 1 ∧ col % 2 = 1 then 2
  else 1

/-- `raw_get_pixel20(x, y)`: the cell of the 32-bit buffer, masked with `0xFFFFF`. -/
def raw_get_pixel20 (buf : Nat → Nat) (w x y : Nat) : Int :=
  ((buf (x + y * w) &&& 0xFFFFF : Nat) : Int)

/-- `raw_set_pixel20(x, y, value)`: stores `COERCE(value, 0, 0xFFFFF)`. -/
def raw_set_pixel20 (buf : Nat → Nat) (w x y : Nat) (value : Int) : Nat → Nat :=
  Function.update buf (x + y * w) (COERCE value 0 0xFFFFF).toNat

/-- Conversion of an `int` to `uint32_t`. -/
def to_uint32 (v : Int) : Nat := (v % 4294967296).toNat

/-- Conversion of a `uint32_t` to `int`. -/
def to_int32 (n : Nat) : Int := if n < 2147483648 then (n : Int) else (n : Int) - 4294967296

/-- The array `neighbours[0..k-1]` collected around `(x, y)`: minus the value of
every pixel of the 9×9 window (center excluded) with the row brightness and the
colour of `(x, y)`, in the order of the loops `i = -4..4`, `j = -4..4`
(`ii = i + 4`, `jj = j + 4`). Used for `4 ≤ x`, `4 ≤ y` only. -/
def neighbours (buf : Nat → Nat) (w : Nat) (is_bright : List Int) (x y : Nat) : List Int :=
  (List.range 9).flatMap (fun ii => (List.range 9).filterMap (fun jj =>
    if ii = 4 ∧ jj = 4 then none
    else if is_bright.getD ((y + ii - 4) % 4) 0 ≠ is_bright.getD (y % 4) 0 then none
    else if FC (x + jj - 4) (y + ii - 4) ≠ FC x y then none
    else some (-(raw_get_pixel20 buf w (x + jj - 4) (y + ii - 4)))))

/-- What the scan loop of `find_and_fix_bad_pixels` decides for one pixel: the
flags `is_hot`, `is_cold` and the entry `hotpixel[x + y*w]`. -/
structure BadPixel where
  is_hot : Bool
  is_cold : Bool
  hotpixel : Nat
  deriving DecidableEq, Repr

/-- The body of the scan loop at `(x, y)`; outside `6 ≤ y < h-6`, `6 ≤ x < w-6`
the loop does not run and `hotpixel[]` keeps the 0 of `memset`.
`kth_smallest_int a k` and `median_int_wirth a` are the functions of `wirth.h`
on the first `k` collected neighbours; `raw2ev` is the lookup table;
`fix_bad_pixels` is the global option (2 = aggressive). -/
def bad_pixel_scan (kth_smallest_int : List Int → Int → Int)
    (median_int_wirth : List Int → Int) (raw2ev : Int → Int) (fix_bad_pixels : Int)
    (buf : Nat → Nat) (w h : Nat) (is_bright : List Int) (black dark_noise : Int)
    (x y : Nat) : BadPixel :=
  if 6 ≤ y ∧ y + 6 < h ∧ 6 ≤ x ∧ x + 6 < w then
    let p := raw_get_pixel20 buf w x y
    let is_cold : Bool := decide (p < black - dark_noise * 8)
    if !(BRIGHT_ROW is_bright y) || is_cold then
      let nb := neighbours buf w is_bright x y
      let max := -kth_smallest_int nb 1
      let is_hot0 : Bool :=
        decide (raw2ev p - raw2ev max > EV_RESOLUTION) && decide (max > black + 8 * dark_noise)
      let is_hot : Bool :=
        if fix_bad_pixels = 2 then
          let second_max := -kth_smallest_int nb 2
          (decide (raw2ev p - raw2ev max > Int.tdiv EV_RESOLUTION 4) &&
              decide (max > black + 8 * dark_noise)) ||
            decide (raw2ev p - raw2ev second_max > Int.tdiv EV_RESOLUTION 2)
        else is_hot0
      let hp1 : Nat := if is_hot then to_uint32 (-kth_smallest_int nb 2) else 0
      let hp2 : Nat := if is_cold then to_uint32 (-median_int_wirth nb) else hp1
      { is_hot := is_hot, is_cold := is_cold, hotpixel := hp2 }
    else { is_hot := false, is_cold := is_cold, hotpixel := 0 }
  else { is_hot := false, is_cold := false, hotpixel := 0 }

/-- `find_and_fix_bad_pixels`: the 32-bit buffer after the call. The cell `i`
holds the pixel `(i % w, i / w)`; the "apply the correction" loop rewrites
exactly the pixels of the frame whose `hotpixel[]` entry is non-zero, with
`raw_set_pixel20(x, y, debug_bad_pixels ? black : hotpixel[x + y*w])`. -/
def find_and_fix_bad_pixels (kth_smallest_int : List Int → Int → Int)
    (median_int_wirth : List Int → Int) (raw2ev : Int → Int)
    (fix_bad_pixels debug_bad_pixels : Int)
    (buf : Nat → Nat) (w h : Nat) (is_bright : List Int) (black dark_noise : Int) :
    Nat → Nat :=
  fun i =>
    if w = 0 ∨ h ≤ i / w then buf i
    else
      let hp := (bad_pixel_scan kth_smallest_int median_int_wirth raw2ev fix_bad_pixels
        buf w h is_bright black dark_noise (i % w) (i / w)).hotpixel
      if hp ≠ 0 then
        (COERCE (to_int32 (if debug_bad_pixels ≠ 0 then to_uint32 black else hp)) 0 0xFFFFF).toNat
      else buf i

/-! ## Horizontal stripe fix -/

/-- The array `delta[0..delta_num-1]` of row `y`: `b - d` for the columns with
`b < white_darkened && d < white`, where `b = bright[x + y*w]`, `d = dark[x + y*w]`. -/
def stripe_deltas (dark bright : Nat → Nat) (w : Nat) (white_darkened white : Int) (y : Nat) :
    List Int :=
  ((List.range w).filter (fun x =>
      decide (to_int32 (bright (x + y * w)) < white_darkened) &&
      decide (to_int32 (dark (x + y * w)) < white))).map
    (fun x => to_int32 (bright (x + y * w)) - to_int32 (dark (x + y * w)))

/-- `COERCE(dark[x + y*w] + med_delta, 0, 0xFFFFF)` as the compiler types it:
`dark[]` is `uint32_t`, so the sum is computed in `unsigned int` (modulo 2^32)
and `MIN`, `MAX` compare unsigned values. -/
def stripe_shift (d : Nat) (med_delta : Int) : Nat :=
  max (min (to_uint32 ((d : Int) + med_delta)) 0xFFFFF) 0

/-- The stripe fix of one row `y`: the buffer `dark[]` after the body of the
loop over `y`. -/
def stripe_fix_row (median_int_wirth : List Int → Int) (bright : Nat → Nat) (w : Nat)
    (white_darkened white : Int) (dark : Nat → Nat) (y : Nat) : Nat → Nat :=
  let med_delta := median_int_wirth (stripe_deltas dark bright w white_darkened white y)
  if |med_delta| > 200 * 16 then dark
  else fun i => if i / w = y ∧ w ≠ 0 then stripe_shift (dark i) med_delta else dark i

/-- The stripe fix (`use_stripe_fix` on): rows `0 ≤ y < h` in turn. Only `dark[]`
is written. -/
def stripe_fix (median_int_wirth : List Int → Int) (bright : Nat → Nat) (w h : Nat)
    (white_darkened white : Int) (dark : Nat → Nat) : Nat → Nat :=
  (List.range h).foldl (stripe_fix_row median_int_wirth bright w white_darkened white) dark

/-- A test row of width 2 (20-bit format, black level 131072):
`dark = [0, 131272]` (column 0 carries the bad-pixel mark 0) and
`bright = [600000, 131072]`. -/
def darkB : Nat → Nat := fun i => if i = 0 then 0 else 131272

/-- See `darkB`. -/
def brightB : Nat → Nat := fun i => if i = 0 then 600000 else 131072

/-- Modelled from the spec: `kth_smallest_int(a, n, k)` of `wirth.h`, which is
not under src/. The spec calls `-kth_smallest_int(neighbours, k, 1)` the maximum
and `-kth_smallest_int(neighbours, k, 2)` the second maximum of the neighbours,
so the result is taken as the element of rank `k`, counted from 1, among the
sorted values. -/
def kth_smallest_int (l : List Int) (k : Int) : Int :=
  (l.insertionSort (fun a b => a ≤ b)).getD (k.toNat - 1) 0

/-- Integer binary logarithm `⌊log2 n⌋` (0 for `n < 2`), by repeated halving;
the first argument bounds the number of halvings. -/
def ilog2 : Nat → Nat → Nat
  | 0, _ => 0
  | fuel + 1, n => if n < 2 then 0 else 1 + ilog2 fuel (n / 2)

/-- A coarse integer stand-in for the table `raw2ev` with black level 131072,
used to run the bad-pixel scan on a test frame:
`EV_RESOLUTION · ⌊log2 (i − 131072)⌋` above black, 0 otherwise. -/
def raw2ev_test (i : Int) : Int := 65536 * (ilog2 32 (i - 131072).toNat : Int)

/-- A 17×17 test frame in the 20-bit format: all samples 200000 except the
sample 1000000 at `(8, 8)`. -/
def frameC : Nat → Nat := fun i => if i = 8 + 8 * 17 then 1000000 else 200000


/-! ## The lookup tables raw2ev and ev2raw of hdr_interpolate

`log2` and `pow2` stand for the libm functions `log2` and `pow(2, ·)`, with
values in an ordered field `R`; the claims about the tables are proved for the
exact real functions. -/

/-- The entry `raw2ev[i]` as the first loop computes it:
`signal = MAX(i/64.0 - black/64.0, -1023)`, then
`(int)round(log2(1+signal) * EV_RESOLUTION)` if `signal > 0`, else
`-(int)round(log2(1-signal) * EV_RESOLUTION)`. -/
def raw2ev_entry {R : Type} [LinearOrderedField R] [FloorRing R] (log2 : R → R)
    (black i : Int) : Int :=
  let signal : R := max ((i : R) / 64 - (black : R) / 64) (-1023)
  if signal > 0 then c_round (log2 (1 + signal) * (EV_RESOLUTION : R))
  else -(c_round (log2 (1 - signal) * (EV_RESOLUTION : R)))

/-- The table `static int raw2ev[1<<20]`: defined on `0 ≤ i < 2^20`. -/
def raw2ev {R : Type} [LinearOrderedField R] [FloorRing R] (log2 : R → R)
    (black i : Int) : Option Int :=
  if 0 ≤ i ∧ i < 1048576 then some (raw2ev_entry log2 black i) else none

/-- The entry `ev2raw[i]` as the second and third loop compute it:
for `i < 0`, `COERCE(black+64 - round(64*pow(2, (double)-i/EV_RESOLUTION)), 0, black)`;
for `i ≥ 0`, `COERCE(black-64 + round(64*pow(2, (double)i/EV_RESOLUTION)), black, (1<<20)-1)`,
raised to `MAX(ev2raw[i], white)` when `i >= raw2ev[white]`. -/
def ev2raw_fill {R : Type} [LinearOrderedField R] [FloorRing R] (log2 pow2 : R → R)
    (black white i : Int) : Int :=
  if i < 0 then
    COERCE (black + 64 - c_round (64 * pow2 (((-i : Int) : R) / (EV_RESOLUTION : R)))) 0 black
  else
    let v := COERCE (black - 64 + c_round (64 * pow2 ((i : R) / (EV_RESOLUTION : R))))
      black (1048576 - 1)
    if i ≥ raw2ev_entry log2 black white then max v white else v

/-- The table `ev2raw = ev2raw_0 + 10*EV_RESOLUTION` once it is built: defined on
`-10*EV_RESOLUTION ≤ i < 14*EV_RESOLUTION`; the last statement
`ev2raw[raw2ev[0]] = 0` ("keep bad pixels") overwrites one entry. -/
def ev2raw {R : Type} [LinearOrderedField R] [FloorRing R] (log2 pow2 : R → R)
    (black white i : Int) : Option Int :=
  if -10 * EV_RESOLUTION ≤ i ∧ i < 14 * EV_RESOLUTION then
    if i = raw2ev_entry log2 black 0 then some 0
    else some (ev2raw_fill log2 pow2 black white i)
  else none

/-- The composition `raw2ev[ev2raw[e]]`, defined when both reads are inside
their tables. -/
def raw2ev_ev2raw {R : Type} [LinearOrderedField R] [FloorRing R] (log2 pow2 : R → R)
    (black white e : Int) : Option Int :=
  (ev2raw log2 pow2 black white e).bind (raw2ev log2 black)

/-- The composition `ev2raw[raw2ev[v]]`, defined when both reads are inside
their tables. -/
def ev2raw_raw2ev {R : Type} [LinearOrderedField R] [FloorRing R] (log2 pow2 : R → R)
    (black white v : Int) : Option Int :=
  (raw2ev log2 black v).bind (ev2raw log2 pow2 black white)

/-- The properties of the exact functions `log2` and `pow(2, ·)` that the
proofs about the tables use. -/
structure ExactLog2Pow {R : Type} [LinearOrderedField R] (log2 pow2 : R → R) : Prop where
  log2_mono : ∀ x y : R, 1 ≤ x → x ≤ y → log2 x ≤ log2 y
  log2_one : log2 1 = 0
  log2_1024 : log2 1024 = 10
  log2_16384 : log2 16384 = 14
  pow2_mono : ∀ x y : R, x ≤ y → pow2 x ≤ pow2 y
  pow2_log2 : ∀ x : R, 1 ≤ x → pow2 (log2 x) = x
  pow2_small : pow2 (1 / 131072) < 65 / 64
  pow2_near14 : 16131 < pow2 (14 - 1 / 131072)


/-! ## mean2, mean3 and the row offset of the mean23 interpolation -/

/-- `mean2(a, b, white, err)`: the value returned. -/
def mean2 (a b white : Int) : Int :=
  if a ≥ white ∨ b ≥ white then white else Int.tdiv (a + b) 2

/-- `mean2(a, b, white, err)`: the value stored in `*err` when `err` is not null. -/
def mean2_err (a b white : Int) : Int :=
  if a ≥ white ∨ b ≥ white then 10000000 else |a - b|

/-- `mean3(a, b, c, white, err)`: the value returned. -/
def mean3 (a b c white : Int) : Int :=
  let m := Int.tdiv (a + b + c) 3
  if a ≥ white ∨ b ≥ white ∨ c ≥ white then max m white else m

/-- `mean3(a, b, c, white, err)`: the value stored in `*err` when `err` is not null. -/
def mean3_err (a b c : Int) : Int :=
  let m := Int.tdiv (a + b + c) 3
  max (max |a - m| |b - m|) |c - m|

/-- The row offset `s = (is_bright[y%4] == is_bright[(y+1)%4]) ? -1 : 1` of the
interpolation loops ("points to the closest row having different exposure"). -/
def interp_s (is_bright : List Int) (y : Nat) : Int :=
  if is_bright_at is_bright (y % 4) = is_bright_at is_bright ((y + 1) % 4) then -1 else 1

/-- `is_bright[r % 4]` for a row number `r` given as an `int`. -/
def row_bright (is_bright : List Int) (r : Int) : Int :=
  is_bright_at is_bright (Int.tmod r 4).toNat

/-- Invariant I3 of the row-class table: exactly two true entries,
`is_bright[0] ≠ is_bright[2]` and `is_bright[1] ≠ is_bright[3]`. -/
def I3 (is_bright : List Int) : Prop :=
  count_true is_bright = 2 ∧ is_bright_at is_bright 0 ≠ is_bright_at is_bright 2 ∧
    is_bright_at is_bright 1 ≠ is_bright_at is_bright 3

/-! ## Full-resolution reconstruction -/

/-- The buffer `fullres[]` after the block `if (use_fullres) { ... }`: for the
cell `i = x + y*w` of the frame, `bright[i]` read into `int f`, then
`f < white_darkened ? f : MAX(f, dark[i])` on a bright row (the `MAX` of an `int`
and a `uint32_t` is taken on unsigned values) and `dark[i]` on a dark row.
Without `use_fullres` the buffer keeps the zeros of `memset`. -/
def fullres_build (use_fullres : Int) (is_bright : List Int) (dark bright : Nat → Nat)
    (w h : Nat) (white_darkened : Int) : Nat → Nat :=
  fun i =>
    if use_fullres ≠ 0 ∧ w ≠ 0 ∧ i / w < h then
      if BRIGHT_ROW is_bright (i / w) then
        let f := to_int32 (bright i)
        if f < white_darkened then to_uint32 f else max (to_uint32 f) (dark i)
      else dark i
    else 0


instance I3_decidable (is_bright : List Int) : Decidable (I3 is_bright) := by
  unfold I3
  infer_instance


/-- The 32-bit buffer after `match_exposures`: the "apply the correction" loop
runs over the rows `0 ≤ y < h-1` and all columns, with `a` and `b20 = b * 16`
as found by the search (see `match_apply` for one cell). -/
def match_exposures_frame (median_int_wirth : List Int → Int) (buf : Nat → Nat) (w h y1 : Nat)
    (is_bright : List Int) (black_level white_level white_darkened : Int) : Nat → Nat :=
  let r := match_exposures median_int_wirth buf w h y1 is_bright black_level white_level
    white_darkened
  fun i =>
    if w ≠ 0 ∧ i / w + 1 < h then
      (match_apply black_level r.a ((r.off : ℚ) * 16) (BRIGHT_ROW is_bright (i / w))
        (raw_get_pixel32 buf w (i % w) (i / w))).toNat
    else buf i


/-! ## black_subtract

The debug option `debug_black` (default 0) is taken as 0: the dumps it enables
go through `save_dng`, which is outside this file. -/

/-- `ymin = (top_margin-8-3) & ~3` (two's complement): the argument rounded
down to a multiple of 4. -/
def black_ymin (top_margin : Int) : Int := (top_margin - 8 - 3) - (top_margin - 8 - 3) % 4

/-- The first estimate `vblack[y] = avg / num`: the mean of the samples
`x ∈ [2, left_margin - 8)` of row `y` (`num = left_margin - 10` samples). -/
def vblack_raw (buf : Nat → Nat) (w : Nat) (left_margin : Int) (y : Nat) : Int :=
  Int.tdiv (((List.range (left_margin - 10).toNat).map
    (fun k => (raw_get_pixel16 buf w (2 + k) y : Int))).sum) (left_margin - 10)

/-- The filtered estimate `aux[y]`, copied back into `vblack[y]`: the mean of
`vblack[y2]` over `y2 = y-40, y-36, ..., y+36` inside `[ymin, h)`. -/
def vblack (buf : Nat → Nat) (w h : Nat) (left_margin ymin : Int) (y : Nat) : Int :=
  let rows := (List.range 20).filter (fun j =>
    decide (ymin ≤ (y : Int) - 40 + 4 * (j : Int)) && decide ((y : Int) - 40 + 4 * (j : Int) < h))
  Int.tdiv ((rows.map (fun j =>
    vblack_raw buf w left_margin ((y : Int) - 40 + 4 * (j : Int)).toNat)).sum) rows.length

/-- The sum `avg_black` divided by `h - ymin`: the average black level. -/
def avg_black (buf : Nat → Nat) (w h : Nat) (left_margin ymin : Int) : ℚ :=
  let rows : List Nat := (List.range h).filter (fun y => decide (ymin ≤ (y : Int)))
  let total : Int := (rows.map (fun y => vblack buf w h left_margin ymin y)).sum
  (total : ℚ) / (((h : Int) - ymin : Int) : ℚ)

/-- Conversion of an `int` to `uint16_t`. -/
def to_uint16 (v : Int) : Int := v % 65536

/-- `offset` of channel `k`: the mean of `blackframe[y*w]` over the rows
`y = ymin+k, ymin+k+4` (`< ymax = ymin + 8`), read before the horizontal
correction of these rows. -/
def hblack_offset (buf : Nat → Nat) (w h : Nat) (left_margin ymin : Int) (k : Nat) : Int :=
  Int.tdiv (to_uint16 (vblack buf w h left_margin ymin (ymin + k).toNat) +
    to_uint16 (vblack buf w h left_margin ymin (ymin + k + 4).toNat)) 2

/-- `hblack[x]` of channel `k` before filtering: the mean over the rows
`y = ymin+k, ymin+k+4` of `raw_get_pixel16(x, y) - offset`. -/
def hblack_raw (buf : Nat → Nat) (w h : Nat) (left_margin ymin : Int) (k x : Nat) : Int :=
  Int.tdiv (((raw_get_pixel16 buf w x (ymin + k).toNat : Int)
      - hblack_offset buf w h left_margin ymin k) +
    ((raw_get_pixel16 buf w x (ymin + k + 4).toNat : Int)
      - hblack_offset buf w h left_margin ymin k)) 2

/-- `hblack[x]` of channel `k` after filtering: the mean of `hblack[x2]` over
`x2 = x-1024, x-1016, ..., x+1016` inside `[0, w)`. -/
def hblack (buf : Nat → Nat) (w h : Nat) (left_margin ymin : Int) (k x : Nat) : Int :=
  let cols := (List.range 256).filter (fun j =>
    decide (0 ≤ (x : Int) - 1024 + 8 * (j : Int)) && decide ((x : Int) - 1024 + 8 * (j : Int) < w))
  Int.tdiv ((cols.map (fun j =>
    hblack_raw buf w h left_margin ymin k ((x : Int) - 1024 + 8 * (j : Int)).toNat)).sum)
    cols.length

/-- The dark frame `blackframe[x + y*w]` (a `uint16_t`) for a row `y ≥ ymin`:
`vblack[y]`, to which the pass of channel `k = (y - ymin) % 4` adds `hblack[x]`. -/
def blackframe (buf : Nat → Nat) (w h : Nat) (left_margin ymin : Int) (x y : Nat) : Int :=
  to_uint16 (to_uint16 (vblack buf w h left_margin ymin y) +
    hblack buf w h left_margin ymin (((y : Int) - ymin) % 4).toNat x)

/-- What `black_subtract` returns and leaves behind: the return value, the
16-bit buffer and `raw_info.black_level`. -/
structure BlackSubtract where
  ret : Int
  buf : Nat → Nat
  black_level : Int

/-- `black_subtract(left_margin, top_margin)` on the 16-bit buffer `buf` of a
`w × h` frame. The result is `none` where the code divides by zero
(`left_margin = 10`: the strip `[2, left_margin - 8)` is empty) or reads rows
outside the buffer (`ymin < 0` or `ymin + 8 > h`). -/
def black_subtract (left_margin top_margin : Int) (buf : Nat → Nat) (w h : Nat)
    (black_level : Int) : Option BlackSubtract :=
  if left_margin < 10 ∨ top_margin < 10 then
    some { ret := 1, buf := buf, black_level := black_level }
  else
    let ymin := black_ymin top_margin
    if left_margin - 10 ≤ 0 ∨ ymin < 0 ∨ (h : Int) < ymin + 8 then none
    else
      let avg := avg_black buf w h left_margin ymin
      some
        { ret := 1
          buf := fun i =>
            if w ≠ 0 ∧ ymin ≤ ((i / w : Nat) : Int) ∧ i / w < h then
              (to_uint16 (COERCE ((raw_get_pixel16 buf w (i % w) (i / w) : Int) +
                c_trunc (avg - ((blackframe buf w h left_margin ymin (i % w) (i / w) : Int) : ℚ)))
                0 16383)).toNat
            else buf i
          black_level := c_round avg }

/-- A 24×24 test frame (14-bit samples): optical-black borders of 12 columns
and 12 rows around 2048 with a slight row pattern, and an image area at 3000. -/
def frameD : Nat → Nat := fun i =>
  if i % 24 < 12 ∨ i / 24 < 12 then 2048 + (i / 24) % 4 else 3000


/-! ## mean23 interpolation and border fill

The two loops write into `dark[]` and `bright[]` through the row-dependent
pointers `native` and `interp`. A write is a triple: the target buffer (`true`
for `bright[]`), the cell index and the `uint32_t` value stored. -/

/-- The write `native[x + y*w] = v` (`native = BRIGHT_ROW ? bright : dark`). -/
def native_write (is_bright : List Int) (w x y : Nat) (v : Int) : Bool × Nat × Nat :=
  (BRIGHT_ROW is_bright y, x + y * w, to_uint32 v)

/-- The write `interp[x + y*w] = v` (`interp = BRIGHT_ROW ? dark : bright`). -/
def interp_write (is_bright : List Int) (w x y : Nat) (v : Int) : Bool × Nat × Nat :=
  (!(BRIGHT_ROW is_bright y), x + y * w, to_uint32 v)

/-- The buffers `(dark, bright)` after a sequence of writes. -/
def run_writes (ws : List (Bool × Nat × Nat)) (s : (Nat → Nat) × (Nat → Nat)) :
    (Nat → Nat) × (Nat → Nat) :=
  ws.foldl (fun s wr =>
    if wr.1 then (s.1, Function.update s.2 wr.2.1 wr.2.2)
    else (Function.update s.1 wr.2.1 wr.2.2, s.2)) s

/-- The cell `i` of `bright[]` (`b = true`) or `dark[]` in a pair of buffers. -/
def buf_get (s : (Nat → Nat) × (Nat → Nat)) (b : Bool) (i : Nat) : Nat :=
  if b then s.2 i else s.1 i

/-- The body of the mean23 loop for the row `y` and the even column `x`: the
four writes `interp[x]`, `interp[x+1]`, `native[x]`, `native[x+1]`, in this order.
`white` is `white_darkened` on a dark row and `raw_info.white_level` on a bright
row; `raw2ev`, `ev2raw` are the lookup tables. -/
def mean23_cell (raw2ev ev2raw : Int → Int) (buf : Nat → Nat) (w : Nat) (is_bright : List Int)
    (white_darkened white_level : Int) (x y : Nat) : List (Bool × Nat × Nat) :=
  let white := if !(BRIGHT_ROW is_bright y) then white_darkened else white_level
  let s := interp_s is_bright y
  let ys := ((y : Int) + s).toNat
  let y2s := ((y : Int) - 2 * s).toNat
  if y % 2 = 0 then
    let ra := raw_get_pixel32 buf w x (y - 2)
    let rb := raw_get_pixel32 buf w x (y + 2)
    let ri := mean2 (raw2ev ra) (raw2ev rb) (raw2ev white)
    let ga := raw_get_pixel32 buf w (x + 1 + 1) ys
    let gb := raw_get_pixel32 buf w (x + 1 - 1) ys
    let gc := raw_get_pixel32 buf w (x + 1) y2s
    let gi := mean3 (raw2ev ga) (raw2ev gb) (raw2ev gc) (raw2ev white)
    [interp_write is_bright w x y (ev2raw ri), interp_write is_bright w (x + 1) y (ev2raw gi),
     native_write is_bright w x y (raw_get_pixel32 buf w x y),
     native_write is_bright w (x + 1) y (raw_get_pixel32 buf w (x + 1) y)]
  else
    let ba := raw_get_pixel32 buf w (x + 1) (y - 2)
    let bb := raw_get_pixel32 buf w (x + 1) (y + 2)
    let bi := mean2 (raw2ev ba) (raw2ev bb) (raw2ev white)
    let ga := raw_get_pixel32 buf w (x + 1) ys
    let gb := raw_get_pixel32 buf w (x - 1) ys
    let gc := raw_get_pixel32 buf w x y2s
    let gi := mean3 (raw2ev ga) (raw2ev gb) (raw2ev gc) (raw2ev white)
    [interp_write is_bright w x y (ev2raw gi), interp_write is_bright w (x + 1) y (ev2raw bi),
     native_write is_bright w x y (raw_get_pixel32 buf w x y),
     native_write is_bright w (x + 1) y (raw_get_pixel32 buf w (x + 1) y)]

/-- The writes of the mean23 loop: `for (y = 2; y < h-2; y++)`,
`for (x = 2; x < w-3; x += 2)`. -/
def mean23_writes (raw2ev ev2raw : Int → Int) (buf : Nat → Nat) (w h : Nat)
    (is_bright : List Int) (white_darkened white_level : Int) : List (Bool × Nat × Nat) :=
  ((List.range h).filter (fun y => decide (2 ≤ y) && decide (y + 2 < h))).flatMap (fun y =>
    ((List.range w).filter (fun x => decide (2 ≤ x) && decide (x + 3 < w) &&
        decide (x % 2 = 0))).flatMap
      (fun x => mean23_cell raw2ev ev2raw buf w is_bright white_darkened white_level x y))

/-- The first two loops of the border interpolation: the rows `y < 3` with
`interp = raw(x, y+2)`, then the rows `h-2 ≤ y < h` with `interp = raw(x, y-2)`;
in both, `native = raw(x, y)`. -/
def border_rows_writes (buf : Nat → Nat) (w h : Nat) (is_bright : List Int) :
    List (Bool × Nat × Nat) :=
  (List.range 3).flatMap (fun y => (List.range w).flatMap (fun x =>
    [interp_write is_bright w x y (raw_get_pixel32 buf w x (y + 2)),
     native_write is_bright w x y (raw_get_pixel32 buf w x y)])) ++
  ((List.range h).filter (fun y => decide (h ≤ y + 2))).flatMap (fun y =>
    (List.range w).flatMap (fun x =>
    [interp_write is_bright w x y (raw_get_pixel32 buf w x (y - 2)),
     native_write is_bright w x y (raw_get_pixel32 buf w x y)]))

/-- The last loop of the border interpolation, over the rows `2 ≤ y < h`: the
columns `x < 2` with `interp = raw(x, y-2)`, `native = raw(x, y)`, then the
columns `w-3 ≤ x < w` with `interp = raw(x-2, y-2)`, `native = raw(x-2, y)`. -/
def border_cols_writes (buf : Nat → Nat) (w h : Nat) (is_bright : List Int) :
    List (Bool × Nat × Nat) :=
  ((List.range h).filter (fun y => decide (2 ≤ y))).flatMap (fun y =>
    (List.range 2).flatMap (fun x =>
      [interp_write is_bright w x y (raw_get_pixel32 buf w x (y - 2)),
       native_write is_bright w x y (raw_get_pixel32 buf w x y)]) ++
    ((List.range w).filter (fun x => decide (w ≤ x + 3))).flatMap (fun x =>
      [interp_write is_bright w x y (raw_get_pixel32 buf w (x - 2) (y - 2)),
       native_write is_bright w x y (raw_get_pixel32 buf w (x - 2) y)]))

/-- The buffers `(dark[], bright[])` after the mean23 interpolation and the
border interpolation, starting from the zeros of `memset`. Meant for frames with
`w ≥ 5` and `h ≥ 5`, where every cell read lies inside the frame. -/
def mean23_interpolate (raw2ev ev2raw : Int → Int) (buf : Nat → Nat) (w h : Nat)
    (is_bright : List Int) (white_darkened white_level : Int) :
    (Nat → Nat) × (Nat → Nat) :=
  run_writes (border_cols_writes buf w h is_bright)
    (run_writes (border_rows_writes buf w h is_bright)
      (run_writes (mean23_writes raw2ev ev2raw buf w h is_bright white_darkened white_level)
        (fun _ => 0, fun _ => 0)))

/-- An 8×8 test frame in the 20-bit format: the sample at `(x, y)` is
`200000 + 1000·y + x`. -/
def frameE : Nat → Nat := fun i => 200000 + 1000 * (i / 8) + i % 8


/-- A test row of width 5 for the stripe fix (20-bit format, white level 960000):
`dark = [959990, 959990, 200000, 200000, 200000]`; the first two samples are hot
pixels just below the white level. -/
def darkF : Nat → Nat := fun i => if i < 2 then 959990 else 200000

/-- See `darkF`: `bright = [200000, 200000, 200050, 200100, 200200]`. -/
def brightF : Nat → Nat := fun i =>
  if i = 2 then 200050 else if i = 3 then 200100 else if i = 4 then 200200 else 200000

/-- A test row of width 3 for the stripe fix: `dark = [200000, 200000, 200000]`. -/
def darkG : Nat → Nat := fun _ => 200000

/-- See `darkG`: `bright = [200050, 200100, 200150]`. -/
def brightG : Nat → Nat := fun i => 200050 + 50 * (i % 3)


/-! ## Alias map: dilation and blur

`alias_map` and `alias_aux` are `uint16_t` buffers. `skip i` stands for the test
`fullres_curve[bright[i]] > fullres_thr` of the three passes, which depends on the
bright image only. -/

/-- The cell `a[x+dx + (y+dy) * w]` of a `uint16_t` buffer, promoted to `int`. -/
def alias_at (a : Nat → Nat) (w x y : Nat) (dx dy : Int) : Int :=
  (a (((x : Int) + dx).toNat + ((y : Int) + dy).toNat * w) : Int)

/-- The array `neighbours[]` of the dilation at `(x, y)`: minus the 37 cells of
`alias_map` on the step-2 diamond around `(x, y)`, in the order of the source. -/
def alias_neighbours (alias_map : Nat → Nat) (w x y : Nat) : List Int :=
  [(-2, -6), (0, -6), (2, -6),
   (-4, -4), (-2, -4), (0, -4), (2, -4), (4, -4),
   (-6, -2), (-4, -2), (-2, -2), (0, -2), (2, -2), (4, -2), (6, -2),
   (-6, 0), (-4, 0), (-2, 0), (0, 0), (2, 0), (4, 0), (6, 0),
   (-6, 2), (-4, 2), (-2, 2), (0, 2), (2, 2), (4, 2), (6, 2),
   (-4, 4), (-2, 4), (0, 4), (2, 4), (4, 4),
   (-2, 6), (0, 6), (2, 6)].map (fun d : Int × Int => -alias_at alias_map w x y d.1 d.2)

/-- The buffer `alias_aux` after `memcpy(alias_aux, alias_map, …)` and the
dilation loop `for (y = 6; y < h-6; y++) for (x = 6; x < w-6; x++)`, which
stores `-kth_smallest_int(neighbours, 37, 5)` in the `uint16_t` cell unless the
pixel is skipped. -/
def alias_dilate (kth_smallest_int : List Int → Int → Int) (skip : Nat → Bool)
    (alias_map : Nat → Nat) (w h : Nat) : Nat → Nat := fun i =>
  if w ≠ 0 ∧ 6 ≤ i % w ∧ i % w + 6 < w ∧ 6 ≤ i / w ∧ i / w + 6 < h ∧ skip i = false then
    (to_uint16 (-kth_smallest_int (alias_neighbours alias_map w (i % w) (i / w)) 5)).toNat
  else alias_map i

/-- The `int c` of the blur loop at `(x, y)`, term by term as in the source. -/
def alias_blur_c (alias_aux : Nat → Nat) (w x y : Nat) : Int :=
  let a := alias_at alias_aux w x y
  (a 0 0) +
  Int.tdiv ((a 0 (-2) + a (-2) 0 + a 2 0 + a 0 2) * 820) 1024 +
  Int.tdiv ((a (-2) (-2) + a 2 (-2) + a (-2) 2 + a 2 2) * 657) 1024 +
  Int.tdiv ((a 0 (-2) + a (-2) 0 + a 2 0 + a 0 2) * 421) 1024 +
  Int.tdiv ((a (-2) (-2) + a 2 (-2) + a (-2) (-2) + a 2 (-2) +
    a (-2) 2 + a 2 2 + a (-2) 2 + a 2 2) * 337) 1024 +
  Int.tdiv ((a (-2) (-2) + a 2 (-2) + a (-2) 2 + a 2 2) * 173) 1024 +
  Int.tdiv ((a 0 (-6) + a (-6) 0 + a 6 0 + a 0 6) * 139) 1024 +
  Int.tdiv ((a (-2) (-6) + a 2 (-6) + a (-6) (-2) + a 6 (-2) +
    a (-6) 2 + a 6 2 + a (-2) 6 + a 2 6) * 111) 1024 +
  Int.tdiv ((a (-2) (-6) + a 2 (-6) + a (-6) (-2) + a 6 (-2) +
    a (-6) 2 + a 6 2 + a (-2) 6 + a 2 6) * 57) 1024

/-- The buffer `alias_map` after the blur loop (same bounds and skip test as
the dilation): `alias_map[x + y*w] = c`, a store into a `uint16_t` cell. -/
def alias_blur (skip : Nat → Bool) (alias_aux alias_map : Nat → Nat) (w h : Nat) :
    Nat → Nat := fun i =>
  if w ≠ 0 ∧ 6 ≤ i % w ∧ i % w + 6 < w ∧ 6 ≤ i / w ∧ i / w + 6 < h ∧ skip i = false then
    (to_uint16 (alias_blur_c alias_aux w (i % w) (i / w))).toNat
  else alias_map i

/-- The dilation followed by the blur, from the `alias_map` of the first pass. -/
def alias_filter (kth_smallest_int : List Int → Int → Int) (skip : Nat → Bool)
    (alias_map : Nat → Nat) (w h : Nat) : Nat → Nat :=
  alias_blur skip (alias_dilate kth_smallest_int skip alias_map w h) alias_map w h

/-- The matrix `blur[4][4]` of the code-generation comment of the blur. -/
def blur (i j : Nat) : Int :=
  ([[1024, 820, 421, 139], [820, 657, 337, 111], [421, 337, 173, 57],
    [139, 111, 57, 0]].getD i []).getD j 0

/-- The array `blur_unique[]` of the code-generation comment. -/
def blur_unique : List Int := [1024, 820, 657, 421, 337, 173, 139, 111, 57]

/-- The 7×7 stencil on the step-2 grid, as the specification words it: for each
weight of `blur_unique`, the taps `alias_aux[x + 2·dx, y + 2·dy]`
(`dx, dy ∈ {-3..3}`) with `blur[|dx|][|dy|]` equal to that weight are summed,
multiplied by the weight and divided by 1024 (truncating). -/
def alias_blur_stencil (alias_aux : Nat → Nat) (w x y : Nat) : Int :=
  (blur_unique.map (fun k =>
    Int.tdiv
      ((([-3, -2, -1, 0, 1, 2, 3] : List Int).flatMap (fun dy =>
          ([-3, -2, -1, 0, 1, 2, 3] : List Int).map (fun dx =>
            if blur dx.natAbs dy.natAbs = k then alias_at alias_aux w x y (2 * dx) (2 * dy)
            else 0))).sum * k) 1024)).sum

/-- A 13×13 test buffer: 1024 at `(10, 6)`, 0 elsewhere. -/
def auxH : Nat → Nat := fun i => if i = 10 + 6 * 13 then 1024 else 0

/-- A first-pass alias map with the value 4000 in every cell. -/
def aliasLo : Nat → Nat := fun _ => 4000

/-- A first-pass alias map with the value 5000 in every cell. -/
def aliasHi : Nat → Nat := fun _ => 5000

/-! ## The overexposed map -/

/-- The map `overexposed[]` before the blur: 100 where
`bright[x + y*w] >= white_darkened || dark[x + y*w] >= white`, else 0. The
buffers are `uint32_t` and the levels `int`, so both comparisons are unsigned. -/
def overexposed_map (dark bright : Nat → Nat) (w h : Nat) (white_darkened white : Int) :
    Nat → Nat := fun i =>
  if w ≠ 0 ∧ i / w < h ∧ (to_uint32 white_darkened ≤ bright i ∨ to_uint32 white ≤ dark i)
  then 100 else 0

/-- The value the blur of the overexposed map computes at `(x, y)`: the centre
plus the four direct neighbours times 820/1024 plus the four diagonal neighbours
times 657/1024 (the wider terms are commented out in the source). -/
def overexposed_blur_c (over_aux : Nat → Nat) (w x y : Nat) : Int :=
  let a := alias_at over_aux w x y
  (a 0 0) +
  Int.tdiv ((a 0 (-1) + a (-1) 0 + a 1 0 + a 0 1) * 820) 1024 +
  Int.tdiv ((a (-1) (-1) + a 1 (-1) + a (-1) 1 + a 1 1) * 657) 1024 +
  0

/-- The map `overexposed[]` after the blur loop
`for (y = 3; y < h-3; y++) for (x = 3; x < w-3; x++)`, from the copy `over_aux`;
the cells are `uint16_t`. -/
def overexposed_blur (over_aux : Nat → Nat) (w h : Nat) : Nat → Nat := fun i =>
  if w ≠ 0 ∧ 3 ≤ i % w ∧ i % w + 3 < w ∧ 3 ≤ i / w ∧ i / w + 3 < h then
    (to_uint16 (overexposed_blur_c over_aux w (i % w) (i / w))).toNat
  else over_aux i

/-- The map `overexposed[]` that the final blending reads. -/
def overexposed (dark bright : Nat → Nat) (w h : Nat) (white_darkened white : Int) :
    Nat → Nat :=
  overexposed_blur (overexposed_map dark bright w h white_darkened white) w h

/-- A 24×24 test frame for the overexposed map: `bright[]` holds 500000 in the
16×16 patch `4 ≤ x, y < 20` and 200000 elsewhere. -/
def brightP : Nat → Nat := fun i =>
  if 4 ≤ i % 24 ∧ i % 24 < 20 ∧ 4 ≤ i / 24 ∧ i / 24 < 20 then 500000 else 200000

/-- See `brightP`: `dark[]` holds 150000 everywhere. -/
def darkP : Nat → Nat := fun _ => 150000


/-! ## bin_search on machine integers -/

/-- Arithmetic on `int`: the value modulo 2^32, in `[-2^31, 2^31)`. -/
def int_wrap (v : Int) : Int := (v + 2147483648) % 4294967296 - 2147483648

/-- `bin_search(lo, hi, crit)` with the sum `lo+hi` computed in `int` and with
at most `n` nested calls: `none` if the `n`-th call still recurses. -/
def bin_search_fuel : Nat → Int → Int → (Int → Int) → Option Int
  | 0, _, _, _ => none
  | n + 1, lo, hi, crit =>
    if lo ≥ hi - 1 then some lo
    else
      let m := Int.tdiv (int_wrap (lo + hi)) 2
      let c := crit m
      if c = 0 then some m
      else if c > 0 then bin_search_fuel n m hi crit
      else bin_search_fuel n lo m crit

/-- A criterion with its zero at `t`: positive below `t`, negative above. -/
def crit_sign (t : Int) (g : Int) : Int := if g < t then 1 else if g = t then 0 else -1


/-- A 6×14 test frame in the 20-bit format (black level 131072 = 16·8192), row
classes 0 and 1 bright: in the columns 0..2 the dark rows hold 16·(8192+100) and
the bright rows 16·(8192+1600); in the columns 3..5 the dark rows hold
16·(8192+1995) and the bright rows 16·(8192+32000). -/
def frameM : Nat → Nat := fun i =>
  if (i / 6) % 4 < 2 then (if i % 6 < 3 then 156672 else 643072)
  else (if i % 6 < 3 then 132672 else 162992)


/-! ## black_subtract_simple on the frame -/

/-- The samples `black_subtract_simple` averages: `p = raw_get_pixel20(x, y)` for
`y ∈ [top_margin + 20, h - 20)`, `x ∈ [16, left_margin - 16)`, kept when `p > 0`. -/
def black_strip (buf : Nat → Nat) (w h : Nat) (left_margin top_margin : Int) : List Int :=
  let rows : List Nat := (List.range h).filter (fun y : Nat =>
    decide (top_margin + 20 ≤ (y : Int)) && decide ((y : Int) < (h : Int) - 20))
  let cols : List Nat := (List.range left_margin.toNat).filter (fun x : Nat =>
    decide (16 ≤ (x : Int)) && decide ((x : Int) < left_margin - 16))
  (rows.flatMap (fun y : Nat => cols.map (fun x : Nat => raw_get_pixel20 buf w x y))).filter
    (fun p => decide (p > 0))

/-- What `black_subtract_simple` returns and leaves behind: the return value,
the levels of `raw_info` and the pixel buffer (which it never writes). -/
structure BlackSimple where
  ret : Int
  levels : Levels
  buf : Nat → Nat

/-- `black_subtract_simple(left_margin, top_margin)` on the 20-bit buffer `buf`
of a frame of height `h`. The result is `none` where the code divides by zero
(`num = 0`: no positive sample in the strip). -/
def black_subtract_simple_frame (left_margin top_margin : Int) (buf : Nat → Nat) (w h : Nat)
    (lv : Levels) : Option BlackSimple :=
  if left_margin < 10 then some { ret := 0, levels := lv, buf := buf }
  else if top_margin < 10 then some { ret := 0, levels := lv, buf := buf }
  else
    let s := black_strip buf w h left_margin top_margin
    if s.length = 0 then none
    else
      let new_black := Int.tdiv s.sum s.length
      let black_delta := lv.black_level - new_black
      some { ret := 1
             levels := { black_level := lv.black_level - black_delta,
                         white_level := lv.white_level - black_delta }
             buf := buf }

/-- A 60×80 test frame in the 20-bit format: 131000 in the columns below 40,
300000 elsewhere. -/
def frameS : Nat → Nat := fun i => if i % 60 < 40 then 131000 else 300000


/-! ## The squeeze map of the edge-directed interpolation -/

/-- One iteration of the loop that squeezes the dark rows, on the state
`(yh, squeezed[])`. -/
def squeeze_dark_step (is_bright : List Int) (s : Int × (Nat → Int)) (y : Nat) :
    Int × (Nat → Int) :=
  if BRIGHT_ROW is_bright y then s
  else
    let yh := if s.1 < 0 then (y : Int) else s.1
    (yh + 1, Function.update s.2 y yh)

/-- One iteration of the loop that squeezes the bright rows, on the state
`(left the loop by break, yh, squeezed[])`. -/
def squeeze_bright_step (is_bright : List Int) (h : Nat) (s : Bool × Int × (Nat → Int))
    (y : Nat) : Bool × Int × (Nat → Int) :=
  if s.1 then s
  else if !(BRIGHT_ROW is_bright y) then s
  else
    let yh := if s.2.1 < 0 then ((h / 4 * 2 + y : Nat) : Int) else s.2.1
    (decide (yh + 1 ≥ (h : Int)), yh + 1, Function.update s.2.2 y yh)

/-- The array `squeezed[]` after both loops (`memset` to 0 before them). -/
def squeezed (is_bright : List Int) (h : Nat) : Nat → Int :=
  ((List.range h).foldl (squeeze_bright_step is_bright h)
    (false, -1, ((List.range h).foldl (squeeze_dark_step is_bright) (-1, fun _ => 0)).2)).2.2


/-! ## The sample pools of white_detect -/

/-- The pixels visited by `white_detect`:
`for (y = y1; y < y2; y += 3) for (x = x1; x < x2; x += 3)` over the active area. -/
def white_detect_samples (x1 x2 y1 y2 : Nat) : List (Nat × Nat) :=
  ((List.range y2).filter (fun y => decide (y1 ≤ y) && decide ((y - y1) % 3 = 0))).flatMap
    (fun y => ((List.range x2).filter (fun x => decide (x1 ≤ x) &&
      decide ((x - x1) % 3 = 0))).map (fun x => (x, y)))

/-- The counter `counts[i]` after the loop: the number of visited pixels with
`BIN_IDX = is_bright[y%4]` equal to `i`. -/
def white_detect_counts (is_bright : List Int) (x1 x2 y1 y2 : Nat) (i : Int) : Nat :=
  ((white_detect_samples x1 x2 y1 y2).filter
    (fun p => decide (is_bright_at is_bright (p.2 % 4) = i))).length

/-- The size of each pool: `max_pix = raw_info.width * raw_info.height / 2 / 9`. -/
def max_pix (w h : Nat) : Int := Int.tdiv (Int.tdiv ((w : Int) * (h : Int)) 2) 9

/-- The slot `MIN(counts[BIN_IDX], max_pix-1)` that receives a sample when the
counter of its pool stands at `n`. -/
def white_detect_slot (n : Nat) (max_pix : Int) : Int := min (n : Int) (max_pix - 1)


/-! ## The direction search of the edge-directed interpolation -/

/-- The catalogue `edge_directions[]`: for each direction the offsets `(x, y)` of
`ack`, `a`, `b` and `bck`, in this order (all `y` are multiplied by `s`). -/
def edge_directions : List (List (Int × Int)) :=
  [[(-4, 2), (-2, 1), (4, -2), (6, -3)],
   [(-3, 2), (-1, 1), (3, -2), (4, -3)],
   [(-2, 2), (-1, 1), (2, -2), (3, -3)],
   [(-1, 2), (-1, 1), (1, -2), (2, -3)],
   [(-1, 2), (0, 1), (1, -2), (1, -3)],
   [(0, 2), (0, 1), (0, -2), (0, -3)],
   [(1, 2), (0, 1), (-1, -2), (-1, -3)],
   [(1, 2), (1, 1), (-1, -2), (-2, -3)],
   [(2, 2), (1, 1), (-2, -2), (-3, -3)],
   [(3, 2), (1, 1), (-3, -2), (-4, -3)],
   [(4, 2), (2, 1), (-4, -2), (-6, -3)]]

/-- The column `x + dx` and the row `y + dy` of a sample of the search, with
`dx = edge_directions[d].e.x + j` and `dy = edge_directions[d].e.y * s`. -/
def edge_sample (x y : Nat) (s j : Int) (e : Int × Int) : Int × Int :=
  ((x : Int) + (e.1 + j), (y : Int) + e.2 * s)

/-- The index `x+dx + (y+dy)*w` of the cell of `gray[]` read for a sample. -/
def edge_sample_index (w x y : Nat) (s j : Int) (e : Int × Int) : Int :=
  (edge_sample x y s j e).1 + (edge_sample x y s j e).2 * (w : Int)


/-- The frame `frameE` with every sample of the dark rows (classes 2 and 3 of
the table `[1, 1, 0, 0]`) replaced by 0. -/
def frameE_bright_only : Nat → Nat := fun i => if 2 ≤ (i / 8) % 4 then 0 else frameE i


/-! ## Theorems -/

theorem is_bright_of_raw_cases (raw : List Int) :
    ∃ a b c d : Int, is_bright_of_raw raw = [a, b, c, d] ∧ (a = 0 ∨ a = 1) ∧
      (b = 0 ∨ b = 1) ∧ (c = 0 ∨ c = 1) ∧ (d = 0 ∨ d = 1) := by
  have e : List.range 4 = [0, 1, 2, 3] := by decide
  unfold is_bright_of_raw
  rw [e]
  simp only [List.map]
  exact ⟨_, _, _, _, rfl, by split <;> simp, by split <;> simp, by split <;> simp,
    by split <;> simp⟩

theorem check_is_bright_iff (a b c d : Int) (ha : a = 0 ∨ a = 1) (hb : b = 0 ∨ b = 1)
    (hc : c = 0 ∨ c = 1) (hd : d = 0 ∨ d = 1) :
    (check_is_bright [a, b, c, d] = 1 ↔
      (count_true [a, b, c, d] = 2 ∧
        is_bright_at [a, b, c, d] 0 ≠ is_bright_at [a, b, c, d] 2 ∧
        is_bright_at [a, b, c, d] 1 ≠ is_bright_at [a, b, c, d] 3)) ∧
    (check_is_bright [a, b, c, d] = 1 ∨ check_is_bright [a, b, c, d] = 0) := by
  unfold check_is_bright count_true is_bright_at
  rcases ha with h0 | h0 <;> rcases hb with h1 | h1 <;> rcases hc with h2 | h2 <;>
    rcases hd with h3 | h3 <;> simp [h0, h1, h2, h3, List.filter]

theorem hdr_interpolate_levels_ident_zero (lv : Levels) (k0 k1 : Int)
    (m : Int → Int → Int → MatchResult) (lowiso_dr corr_ev : ℚ)
    (left_margin top_margin new_black : Int) :
    (hdr_interpolate_levels 0 lv k0 k1 m lowiso_dr corr_ev left_margin top_margin
      new_black).ret = 0 := by
  unfold hdr_interpolate_levels
  rw [if_pos rfl]

/-- C1: `identify_bright_and_dark_fields` returns 1 if and only if the table
`is_bright[]` it computed has exactly two true entries, `is_bright[0] ≠ is_bright[2]`
and `is_bright[1] ≠ is_bright[3]`; for every other table it returns 0, and then
`hdr_interpolate` returns 0 at once, so the pipeline does not continue with
such a table. -/
theorem identify_bright_and_dark_fields_ret (buf : Nat → Nat) (w h y1 : Nat) :
    ((identify_bright_and_dark_fields buf w h y1).ret = 1 ↔
      (count_true (identify_bright_and_dark_fields buf w h y1).is_bright = 2 ∧
        is_bright_at (identify_bright_and_dark_fields buf w h y1).is_bright 0 ≠
          is_bright_at (identify_bright_and_dark_fields buf w h y1).is_bright 2 ∧
        is_bright_at (identify_bright_and_dark_fields buf w h y1).is_bright 1 ≠
          is_bright_at (identify_bright_and_dark_fields buf w h y1).is_bright 3)) ∧
    ((identify_bright_and_dark_fields buf w h y1).ret = 1 ∨
      ((identify_bright_and_dark_fields buf w h y1).ret = 0 ∧
        ∀ (lv : Levels) (k0 k1 : Int) (m : Int → Int → Int → MatchResult)
          (lowiso_dr corr_ev : ℚ) (left_margin top_margin new_black : Int),
          (hdr_interpolate_levels (identify_bright_and_dark_fields buf w h y1).ret lv k0 k1 m
            lowiso_dr corr_ev left_margin top_margin new_black).ret = 0)) := by
  simp only [identify_bright_and_dark_fields]
  obtain ⟨a, b, c, d, e, ha, hb, hc, hd⟩ := is_bright_of_raw_cases (percentile_raw buf w h y1)
  rw [e]
  refine ⟨(check_is_bright_iff a b c d ha hb hc hd).1, ?_⟩
  rcases (check_is_bright_iff a b c d ha hb hc hd).2 with h1 | h0
  · exact Or.inl h1
  · refine Or.inr ⟨h0, ?_⟩
    intro lv k0 k1 m lo ce lm tm nb
    rw [h0]
    exact hdr_interpolate_levels_ident_zero lv k0 k1 m lo ce lm tm nb

theorem tdiv_two_bounds (a : Int) :
    2 * Int.tdiv a 2 ≤ a + 1 ∧ a - 1 ≤ 2 * Int.tdiv a 2 ∧ (0 ≤ a → 2 * Int.tdiv a 2 ≤ a) := by
  rcases le_or_lt 0 a with h0 | h0
  · rw [Int.tdiv_eq_ediv h0 (by decide)]
    omega
  · have e : a = -(-a) := by omega
    rw [e, Int.neg_tdiv, Int.tdiv_eq_ediv (by omega) (by decide)]
    omega

theorem bin_search_bounds (crit : Int → Int) :
    ∀ (n : Nat) (lo hi : Int), (hi - lo).toNat ≤ n →
      lo ≤ bin_search lo hi crit ∧ bin_search lo hi crit ≤ max lo (hi - 1) := by
  intro n
  induction n with
  | zero =>
    intro lo hi h
    rw [bin_search]
    have : lo ≥ hi - 1 := by omega
    simp [this]
  | succ n ih =>
    intro lo hi h
    rw [bin_search]
    by_cases h1 : lo ≥ hi - 1
    · simp [h1]
    · have hm := tdiv_two_bounds (lo + hi)
      simp only [h1, if_false]
      by_cases hc0 : crit (Int.tdiv (lo + hi) 2) = 0
      · simp only [hc0, if_true]
        refine ⟨by omega, ?_⟩
        rw [le_max_iff]
        right
        omega
      · simp only [hc0, if_false]
        by_cases hc1 : crit (Int.tdiv (lo + hi) 2) > 0
        · simp only [hc1, if_true]
          have := ih (Int.tdiv (lo + hi) 2) hi (by omega)
          rw [le_max_iff] at this ⊢
          omega
        · simp only [hc1, if_false]
          have := ih lo (Int.tdiv (lo + hi) 2) (by omega)
          rw [le_max_iff] at this ⊢
          omega

/-- C2: `match_exposures` returns 0 exactly when `1/a < 1.2` with `a = 100/gain`,
which in exact arithmetic is exactly when the searched integer gain is below
120; the search result always satisfies `100 ≤ gain` (and `gain < 9000`), so
`a` is non-zero and the factor `1/a` is finite and positive; the return value
is 0 or 1, and whenever it is 1, `a < 1`. -/
theorem match_exposures_reject (median_int_wirth : List Int → Int) (buf : Nat → Nat)
    (w h y1 : Nat) (is_bright : List Int) (black_level white_level white_darkened : Int) :
    let r := match_exposures median_int_wirth buf w h y1 is_bright black_level white_level
      white_darkened
    r.a = 100 / (r.gain : ℚ) ∧ r.factor = 1 / r.a ∧
    (r.ret = 0 ↔ r.factor < 6 / 5) ∧ (r.ret = 0 ↔ r.gain < 120) ∧
    100 ≤ r.gain ∧ r.gain < 9000 ∧ r.a ≠ 0 ∧ 0 < r.factor ∧
    (r.ret = 0 ∨ r.ret = 1) ∧ (r.ret = 1 → r.a < 1) := by
  intro r
  obtain ⟨hg1, hg2⟩ := bin_search_bounds
    (match_test median_int_wirth
      (quick_interp buf w h is_bright (match_black black_level)
        (match_clip black_level (min white_level white_darkened)))
      (avg_bright buf w h is_bright (match_black black_level)
        (match_clip black_level (min white_level white_darkened)))
      (match_clip black_level (min white_level white_darkened)) w h y1)
    _ 100 9000 le_rfl
  have hgain : 100 ≤ r.gain ∧ r.gain < 9000 := by
    refine ⟨hg1, ?_⟩
    rw [le_max_iff] at hg2
    show bin_search 100 9000 _ < 9000
    omega
  have hq : (100 : ℚ) ≤ (r.gain : ℚ) := by exact_mod_cast hgain.1
  have ha : r.a = 100 / (r.gain : ℚ) := rfl
  have hf : r.factor = 1 / r.a := rfl
  have hf2 : r.factor = (r.gain : ℚ) / 100 := by
    rw [hf, ha]
    field_simp
  have hapos : 0 < r.a := by
    rw [ha]
    positivity
  have hret : r.ret = if r.factor < 6 / 5 ∨ r.a = 0 then 0 else 1 := rfl
  have hlt : r.factor < 6 / 5 ↔ r.gain < 120 := by
    rw [hf2, div_lt_iff₀ (by norm_num)]
    constructor
    · intro h1
      have : (r.gain : ℚ) < 120 := by linarith
      exact_mod_cast this
    · intro h1
      have : (r.gain : ℚ) < 120 := by exact_mod_cast h1
      linarith
  refine ⟨ha, hf, ?_, ?_, hgain.1, hgain.2, hapos.ne', ?_, ?_, ?_⟩
  · rw [hret]
    by_cases h1 : r.factor < 6 / 5
    · simp [h1]
    · simp [h1, hapos.ne']
  · rw [hret, ← hlt]
    by_cases h1 : r.factor < 6 / 5
    · simp [h1]
    · simp [h1, hapos.ne']
  · rw [hf2]
    positivity
  · rw [hret]
    by_cases h1 : r.factor < 6 / 5 ∨ r.a = 0
    · simp [h1]
    · simp [h1]
  · rw [hret]
    by_cases h1 : r.factor < 6 / 5
    · simp [h1]
    · intro _
      rw [hlt] at h1
      rw [ha, div_lt_one (by linarith)]
      have : (120 : ℚ) ≤ (r.gain : ℚ) := by exact_mod_cast (not_lt.mp h1)
      linarith

theorem hdr_check_samples_mem (buf : Nat → Nat) (w h : Nat) (black white : Int)
    (p : Nat × Nat) (hp : p ∈ hdr_check_samples buf w h black white) :
    2 ≤ p.1 ∧ p.1 + 2 < w ∧ 2 ≤ p.2 ∧ p.2 + 2 < h := by
  unfold hdr_check_samples at hp
  simp only [List.mem_flatMap, List.mem_filter, List.mem_map, List.mem_range, Bool.and_eq_true,
    decide_eq_true_eq] at hp
  obtain ⟨y, ⟨_, hy1, hy2⟩, x, ⟨_, ⟨⟨hx1, hx2⟩, _⟩⟩, rfl⟩ := hp
  exact ⟨hx1, hx2, hy1, hy2⟩

/-- C3: `hdr_check` returns 0 for every frame in which each sample of the
scanned range equals the sample two rows below it (whatever `log2` computes),
and `main` then reports "Doesn't look like interlaced ISO" and writes no output. -/
theorem hdr_check_no_variation {R : Type} [LinearOrderedField R] (log2 : Int → R)
    (buf : Nat → Nat) (w h : Nat) (black white : Int)
    (hsame : ∀ x y, 2 ≤ x → x + 2 < w → 2 ≤ y → y + 2 < h →
      raw_get_pixel16 buf w x y = raw_get_pixel16 buf w x (y + 2)) :
    hdr_check log2 buf w h black white = 0 ∧
    (black = 2048 → white = 15000 →
      ∀ r : Int, main_frame log2 buf w h r = MainOutcome.not_interlaced) := by
  have key : hdr_check log2 buf w h black white = 0 := by
    unfold hdr_check
    simp only
    split
    · rfl
    · have hz : (List.map (fun p : Nat × Nat =>
          |log2 (max 1 ((raw_get_pixel16 buf w p.1 (p.2 + 2) : Int) - black)) -
            log2 (max 1 ((raw_get_pixel16 buf w p.1 p.2 : Int) - black))|)
          (hdr_check_samples buf w h black white)).sum = 0 := by
        apply List.sum_eq_zero
        intro v hv
        rw [List.mem_map] at hv
        obtain ⟨p, hp, rfl⟩ := hv
        obtain ⟨h1, h2, h3, h4⟩ := hdr_check_samples_mem buf w h black white p hp
        rw [hsame p.1 p.2 h1 h2 h3 h4]
        simp
      rw [hz]
      simp
  refine ⟨key, ?_⟩
  intro hb hw r
  subst hb hw
  unfold main_frame
  simp [key]

/-- C3, witness: the constant-grey 64×64 frame (all samples 8000, black 2048,
white 15000). -/
theorem hdr_check_no_variation_witness :
    hdr_check (fun i => ((Nat.log2 i.toNat : Nat) : ℚ)) (fun _ => 8000) 64 64 2048 15000 = 0 ∧
    (∀ r : Int, main_frame (fun i => ((Nat.log2 i.toNat : Nat) : ℚ)) (fun _ => 8000) 64 64 r
      = MainOutcome.not_interlaced) :=
  ⟨(hdr_check_no_variation (fun i => ((Nat.log2 i.toNat : Nat) : ℚ)) (fun _ => 8000) 64 64
      2048 15000 (fun _ _ _ _ _ _ => rfl)).1,
   (hdr_check_no_variation (fun i => ((Nat.log2 i.toNat : Nat) : ℚ)) (fun _ => 8000) 64 64
      2048 15000 (fun _ _ _ _ _ _ => rfl)).2 rfl rfl⟩

theorem iso_overlap_ge_three {R : Type} [LinearOrderedField R] (lowiso_dr corr_ev : R) :
    3 ≤ iso_overlap lowiso_dr corr_ev := by
  unfold iso_overlap
  simp only
  rcases le_total 3 (lowiso_dr - corr_ev - 3) with h | h
  · rw [min_eq_left h]
    linarith
  · rw [min_eq_right h]
    linarith

/-- C4 (the code at the failing input): with `lowiso_dr = 5.5` and `corr_ev = 5.3`
the ISO overlap `lowiso_dr − corr_ev` is 0.2 EV, below 0.5 EV, yet the value
`hdr_interpolate` tests is 3 and the "Overlap error" exit is not taken; in
fact the tested value is at least 3 for all inputs, so the exit is never taken. -/
theorem overlap_error_not_taken :
    ((11 / 2 : ℚ) - 53 / 10 < 1 / 2 ∧ iso_overlap (11 / 2 : ℚ) (53 / 10) = 3 ∧
      overlap_error (11 / 2 : ℚ) (53 / 10) = false) ∧
    (∀ lowiso_dr corr_ev : ℚ, overlap_error lowiso_dr corr_ev = false) := by
  have hall : ∀ lowiso_dr corr_ev : ℚ, overlap_error lowiso_dr corr_ev = false := by
    intro a b
    unfold overlap_error
    have := iso_overlap_ge_three a b
    simp only [decide_eq_false_iff_not, not_lt]
    linarith
  refine ⟨⟨by norm_num, ?_, hall _ _⟩, hall⟩
  unfold iso_overlap
  norm_num

theorem c_round_neg_three_quarters : c_round (((0 : Int) : ℚ) / 16 + (-3 / 4)) = -1 := by
  unfold c_round
  norm_num [Int.floor_eq_iff]

theorem c_round_top : c_round (((1048575 : Int) : ℚ) / 16 + 0) = 65536 := by
  unfold c_round
  norm_num [Int.floor_eq_iff]

/-- C7 (the code at the failing inputs): the 20-bit sample 0 with dither −0.75
is stored as the 16-bit value 65535 (`round(-0.75) = -1` wraps around), and the
20-bit sample 2^20−1 with dither 0 is stored as 0 (`round(65535.9375) = 65536`
wraps around). -/
theorem raw_set_pixel_20to16_rand_wraps (buf : Nat → Nat) (w x y : Nat) :
    raw_set_pixel_20to16_rand buf w x y 0 (-3 / 4) (x + y * w) = 65535 ∧
    raw_set_pixel_20to16_rand buf w x y 1048575 0 (x + y * w) = 0 := by
  unfold raw_set_pixel_20to16_rand raw_set_pixel16
  constructor
  · rw [Function.update_same, c_round_neg_three_quarters]
    decide
  · rw [Function.update_same, c_round_top]
    decide

theorem match_clip_frameA : match_clip 131072 320000 = 10627 := by
  have h1 : Int.tdiv 131072 16 = 8192 := by decide
  have h2 : Int.tdiv 320000 16 = 20000 := by decide
  unfold match_clip c_trunc
  rw [h1, h2]
  norm_num [Int.floor_eq_iff]

set_option maxRecDepth 1000000 in
theorem avg_bright_frameA :
    avg_bright frameA 76 12 [1, 1, 0, 0] 8192 10627 = some ((22 : Int) : ℚ) := by
  have hs : (avg_bright_samples frameA 76 12 [1, 1, 0, 0] 8192 10627).sum = 6688 := by
    decide
  have hl : (avg_bright_samples frameA 76 12 [1, 1, 0, 0] 8192 10627).length = 304 := by
    decide
  unfold avg_bright
  simp only [hs, hl]
  norm_num

theorem lt_avg_int (b n : Int) : lt_avg b (some (n : ℚ)) = decide (b < n) := by
  unfold lt_avg
  simp

set_option maxRecDepth 1000000 in
theorem match_bufs_frameA :
    match_bufs (quick_interp frameA 76 12 [1, 1, 0, 0] 8192 10627) (some ((22 : Int) : ℚ))
      10627 76 12 0 4550 = (List.replicate 78 0, List.replicate 26 0) := by
  unfold match_bufs
  simp only [lt_avg_int]
  decide

set_option maxRecDepth 1000000 in
/-- The matcher on `frameA` with black level 131072 and both white levels
320000: the first probe `gain = 4550` has criterion 0 (all residuals are 0 in
both groups), so the search stops there; `off = 0`, and the darkened bright
white level is 135224. -/
theorem match_exposures_frameA :
    (match_exposures median_int_wirth frameA 76 12 0 [1, 1, 0, 0] 131072 320000 320000).ret
      = 1 ∧
    (match_exposures median_int_wirth frameA 76 12 0 [1, 1, 0, 0] 131072 320000 320000).gain
      = 4550 ∧
    (match_exposures median_int_wirth frameA 76 12 0 [1, 1, 0, 0] 131072 320000 320000).off
      = 0 ∧
    (match_exposures median_int_wirth frameA 76 12 0 [1, 1, 0, 0] 131072 320000
      320000).white_darkened = 135224 := by
  have hb : match_black 131072 = 8192 := by decide
  have hmin : min (320000 : Int) 320000 = 320000 := by decide
  have hm : Int.tdiv (100 + 9000) 2 = 4550 := by decide
  have hc : match_test median_int_wirth (quick_interp frameA 76 12 [1, 1, 0, 0] 8192 10627)
      (some ((22 : Int) : ℚ)) 10627 76 12 0 4550 = 0 := by
    unfold match_test
    rw [match_bufs_frameA]
    decide
  have hd : match_test_avg_delta median_int_wirth
      (quick_interp frameA 76 12 [1, 1, 0, 0] 8192 10627)
      (some ((22 : Int) : ℚ)) 10627 76 12 0 4550 = 0 := by
    unfold match_test_avg_delta
    rw [match_bufs_frameA]
    decide
  have hg : bin_search 100 9000 (match_test median_int_wirth
      (quick_interp frameA 76 12 [1, 1, 0, 0] 8192 10627)
      (some ((22 : Int) : ℚ)) 10627 76 12 0) = 4550 := by
    rw [bin_search]
    simp only [hm, hc]
    decide
  have hp : bin_search_probe 100 9000 (match_test median_int_wirth
      (quick_interp frameA 76 12 [1, 1, 0, 0] 8192 10627)
      (some ((22 : Int) : ℚ)) 10627 76 12 0) none = some 4550 := by
    rw [bin_search_probe]
    simp only [hm, hc]
    decide
  unfold match_exposures
  simp only [hmin, hb, match_clip_frameA, avg_bright_frameA, hg, hp, hd]
  refine ⟨?_, trivial, ?_, ?_⟩
  · norm_num
  · norm_num
  · unfold c_trunc
    norm_num [Int.floor_eq_iff]

/-- The run `runA`: success, output levels 8192 and 20000, `Wd = Wb = 320000`,
`Wb' = 135224`. -/
theorem runA_eq :
    runA = { ret := 1, levels := ⟨8192, 20000⟩, white := 320000, white_bright := 320000,
             white_darkened := 135224 } := by
  obtain ⟨h1, -, -, h4⟩ := match_exposures_frameA
  have hw : white_detect (-2048) (-2051) = (5000, 5000) := by decide
  have ho : overlap_error (10 : ℚ) (11 / 2) = false := by
    unfold overlap_error
    have := iso_overlap_ge_three (10 : ℚ) (11 / 2)
    simp only [decide_eq_false_iff_not, not_lt]
    linarith
  unfold runA hdr_interpolate_levels
  simp [hw, h1, h4, ho, black_subtract_simple]
  decide

/-- C8 (counterexample): on `frameA` (dark and bright white level both 320000,
black level 131072, no black adjustment) `hdr_interpolate` succeeds with
`Wd = 320000` and `Wb' = 135224`; the white level it leaves for the writer is
20000 = Wd/16, whereas `min(Wd, Wb')/16 = 8451`. -/
theorem hdr_interpolate_white_level_not_min :
    runA.ret = 1 ∧ runA.white = 320000 ∧ runA.white_darkened = 135224 ∧
    runA.levels.white_level = 20000 ∧
    Int.tdiv (min runA.white runA.white_darkened) 16 = 8451 ∧
    ¬ (runA.levels.white_level = Int.tdiv (min runA.white runA.white_darkened) 16) := by
  rw [runA_eq]
  decide

/-- C8 (as amended): on every successful run of `hdr_interpolate` in which the
second black-subtract pass makes no adjustment, the white level left for the
output writer is `Wd / 16` (integer division), where `Wd` is the dark white
level in 20-bit units, i.e. 64 times the dark white level of `white_detect`. -/
theorem hdr_interpolate_white_level (ident_ret : Int) (lv : Levels) (k0 k1 : Int)
    (m : Int → Int → Int → MatchResult) (lowiso_dr corr_ev : ℚ)
    (left_margin top_margin new_black : Int)
    (hret : (hdr_interpolate_levels ident_ret lv k0 k1 m lowiso_dr corr_ev left_margin
      top_margin new_black).ret = 1)
    (hadj : black_subtract_simple left_margin top_margin new_black
      ⟨lv.black_level * 64, (white_detect k0 k1).1 * 64⟩ =
      ⟨lv.black_level * 64, (white_detect k0 k1).1 * 64⟩) :
    (hdr_interpolate_levels ident_ret lv k0 k1 m lowiso_dr corr_ev left_margin
      top_margin new_black).white = (white_detect k0 k1).1 * 64 ∧
    (hdr_interpolate_levels ident_ret lv k0 k1 m lowiso_dr corr_ev left_margin
      top_margin new_black).levels.white_level =
      Int.tdiv (hdr_interpolate_levels ident_ret lv k0 k1 m lowiso_dr corr_ev left_margin
        top_margin new_black).white 16 := by
  unfold hdr_interpolate_levels at hret ⊢
  by_cases h0 : ident_ret = 0
  · simp [h0] at hret
  · by_cases h1 : (m (lv.black_level * 64) ((white_detect k0 k1).1 * 64)
        ((white_detect k0 k1).2 * 64)).ret = 0
    · simp [h0, h1] at hret
    · by_cases h2 : overlap_error lowiso_dr corr_ev = true
      · simp [h0, h1, h2] at hret
      · rw [Bool.not_eq_true] at h2
        simp only [h0, h1, h2, if_false, hadj, Bool.false_eq_true]
        exact ⟨trivial, trivial⟩

/-- C8, witness: the run on `frameA`. -/
theorem hdr_interpolate_white_level_witness :
    runA.white = (white_detect (-2048) (-2051)).1 * 64 ∧
    runA.levels.white_level = Int.tdiv runA.white 16 :=
  hdr_interpolate_white_level 1 ⟨2048, 15000⟩ (-2048) (-2051)
    (match_exposures median_int_wirth frameA 76 12 0 [1, 1, 0, 0]) 10 (11 / 2) 0 0 0
    (by rw [show hdr_interpolate_levels 1 ⟨2048, 15000⟩ (-2048) (-2051)
      (match_exposures median_int_wirth frameA 76 12 0 [1, 1, 0, 0]) 10 (11 / 2) 0 0 0 = runA
      from rfl, runA_eq]) (by decide)

theorem bad_pixel_scan_hotpixel_zero (kth_smallest_int : List Int → Int → Int)
    (median_int_wirth : List Int → Int) (raw2ev : Int → Int) (fix_bad_pixels : Int)
    (buf : Nat → Nat) (w h : Nat) (is_bright : List Int) (black dark_noise : Int) (x y : Nat)
    (hhot : (bad_pixel_scan kth_smallest_int median_int_wirth raw2ev fix_bad_pixels
      buf w h is_bright black dark_noise x y).is_hot = false)
    (hcold : (bad_pixel_scan kth_smallest_int median_int_wirth raw2ev fix_bad_pixels
      buf w h is_bright black dark_noise x y).is_cold = false) :
    (bad_pixel_scan kth_smallest_int median_int_wirth raw2ev fix_bad_pixels
      buf w h is_bright black dark_noise x y).hotpixel = 0 := by
  unfold bad_pixel_scan at hhot hcold ⊢
  by_cases h1 : 6 ≤ y ∧ y + 6 < h ∧ 6 ≤ x ∧ x + 6 < w
  · simp only [h1, and_self, if_true] at hhot hcold ⊢
    by_cases h2 : (!(BRIGHT_ROW is_bright y) ||
        decide (raw_get_pixel20 buf w x y < black - dark_noise * 8)) = true
    · simp only [h2, if_true] at hhot hcold ⊢
      rw [hhot, hcold]
      rfl
    · simp only [h2] at hhot hcold ⊢
      rfl
  · simp only [h1, if_false]

theorem bad_pixel_scan_border (kth_smallest_int : List Int → Int → Int)
    (median_int_wirth : List Int → Int) (raw2ev : Int → Int) (fix_bad_pixels : Int)
    (buf : Nat → Nat) (w h : Nat) (is_bright : List Int) (black dark_noise : Int) (x y : Nat)
    (hb : x < 6 ∨ w ≤ x + 6 ∨ y < 6 ∨ h ≤ y + 6) :
    bad_pixel_scan kth_smallest_int median_int_wirth raw2ev fix_bad_pixels
      buf w h is_bright black dark_noise x y =
      { is_hot := false, is_cold := false, hotpixel := 0 } := by
  unfold bad_pixel_scan
  have h1 : ¬ (6 ≤ y ∧ y + 6 < h ∧ 6 ≤ x ∧ x + 6 < w) := by omega
  simp only [h1, if_false]

theorem find_and_fix_bad_pixels_of_zero (kth_smallest_int : List Int → Int → Int)
    (median_int_wirth : List Int → Int) (raw2ev : Int → Int)
    (fix_bad_pixels debug_bad_pixels : Int)
    (buf : Nat → Nat) (w h : Nat) (is_bright : List Int) (black dark_noise : Int) (x y : Nat)
    (hx : x < w)
    (hz : (bad_pixel_scan kth_smallest_int median_int_wirth raw2ev fix_bad_pixels
      buf w h is_bright black dark_noise x y).hotpixel = 0) :
    find_and_fix_bad_pixels kth_smallest_int median_int_wirth raw2ev fix_bad_pixels
      debug_bad_pixels buf w h is_bright black dark_noise (x + y * w) = buf (x + y * w) := by
  have hw : 0 < w := by omega
  have e1 : (x + y * w) / w = y := by
    rw [Nat.add_mul_div_right _ _ hw, Nat.div_eq_of_lt hx, Nat.zero_add]
  have e2 : (x + y * w) % w = x := by
    rw [Nat.add_mul_mod_self_right, Nat.mod_eq_of_lt hx]
  unfold find_and_fix_bad_pixels
  simp only [e1, e2, hz]
  simp

/-- C9: `find_and_fix_bad_pixels` leaves every pixel `(x, y)` of the frame that
is neither flagged hot nor flagged cold with the cell content it had before the
call; in particular every pixel within 6 of the frame border is not flagged
and keeps its content. -/
theorem find_and_fix_bad_pixels_unflagged (kth_smallest_int : List Int → Int → Int)
    (median_int_wirth : List Int → Int) (raw2ev : Int → Int)
    (fix_bad_pixels debug_bad_pixels : Int)
    (buf : Nat → Nat) (w h : Nat) (is_bright : List Int) (black dark_noise : Int) :
    (∀ x y : Nat, x < w →
      (bad_pixel_scan kth_smallest_int median_int_wirth raw2ev fix_bad_pixels
        buf w h is_bright black dark_noise x y).is_hot = false →
      (bad_pixel_scan kth_smallest_int median_int_wirth raw2ev fix_bad_pixels
        buf w h is_bright black dark_noise x y).is_cold = false →
      find_and_fix_bad_pixels kth_smallest_int median_int_wirth raw2ev fix_bad_pixels
        debug_bad_pixels buf w h is_bright black dark_noise (x + y * w) = buf (x + y * w)) ∧
    (∀ x y : Nat, x < w → (x < 6 ∨ w ≤ x + 6 ∨ y < 6 ∨ h ≤ y + 6) →
      (bad_pixel_scan kth_smallest_int median_int_wirth raw2ev fix_bad_pixels
        buf w h is_bright black dark_noise x y).is_hot = false ∧
      (bad_pixel_scan kth_smallest_int median_int_wirth raw2ev fix_bad_pixels
        buf w h is_bright black dark_noise x y).is_cold = false ∧
      find_and_fix_bad_pixels kth_smallest_int median_int_wirth raw2ev fix_bad_pixels
        debug_bad_pixels buf w h is_bright black dark_noise (x + y * w) = buf (x + y * w)) := by
  constructor
  · intro x y hx hhot hcold
    exact find_and_fix_bad_pixels_of_zero _ _ _ _ _ _ _ _ _ _ _ _ _ hx
      (bad_pixel_scan_hotpixel_zero _ _ _ _ _ _ _ _ _ _ _ _ hhot hcold)
  · intro x y hx hb
    have e := bad_pixel_scan_border kth_smallest_int median_int_wirth raw2ev fix_bad_pixels
      buf w h is_bright black dark_noise x y hb
    refine ⟨by rw [e], by rw [e], ?_⟩
    exact find_and_fix_bad_pixels_of_zero _ _ _ _ _ _ _ _ _ _ _ _ _ hx (by rw [e])

/-- C9, witness: on `frameC` (rows of classes 2 and 3 bright, black 131072,
dark noise 512) the interior pixel `(8, 9)` is neither hot nor cold and the
border pixel `(3, 8)` is within 6 of the border; both keep their content,
while the pixel `(8, 8)` is flagged hot. -/
theorem find_and_fix_bad_pixels_unflagged_witness :
    (bad_pixel_scan kth_smallest_int median_int_wirth raw2ev_test 1 frameC 17 17 [0, 0, 1, 1]
      131072 512 8 8).is_hot = true ∧
    find_and_fix_bad_pixels kth_smallest_int median_int_wirth raw2ev_test 1 0 frameC 17 17
      [0, 0, 1, 1] 131072 512 (8 + 9 * 17) = frameC (8 + 9 * 17) ∧
    find_and_fix_bad_pixels kth_smallest_int median_int_wirth raw2ev_test 1 0 frameC 17 17
      [0, 0, 1, 1] 131072 512 (3 + 8 * 17) = frameC (3 + 8 * 17) :=
  ⟨by decide,
   (find_and_fix_bad_pixels_unflagged kth_smallest_int median_int_wirth raw2ev_test 1 0 frameC
      17 17 [0, 0, 1, 1] 131072 512).1 8 9 (by decide) (by decide) (by decide),
   ((find_and_fix_bad_pixels_unflagged kth_smallest_int median_int_wirth raw2ev_test 1 0 frameC
      17 17 [0, 0, 1, 1] 131072 512).2 3 8 (by decide) (by decide)).2.2⟩

/-- C10 (the code at the failing input): on the row `dark = [0, 131272]`,
`bright = [600000, 131072]` with `Wb' = 500000`, `Wd = 960000`, only column 1 is
unclipped, the median of `bright − dark` is −200 (within ±200·16), and the
stripe fix turns `dark[0] = 0` into `0xFFFFF = 1048575`, not into
`COERCE(0 − 200, 0, 0xFFFFF) = 0`: the sum is computed in `uint32_t`. Column 1
becomes `131272 − 200 = 131072`. -/
theorem stripe_fix_negative_sum_wraps :
    stripe_deltas darkB brightB 2 500000 960000 0 = [-200] ∧
    median_int_wirth (stripe_deltas darkB brightB 2 500000 960000 0) = -200 ∧
    stripe_fix median_int_wirth brightB 2 1 500000 960000 darkB 0 = 1048575 ∧
    stripe_fix median_int_wirth brightB 2 1 500000 960000 darkB 1 = 131072 ∧
    COERCE ((darkB 0 : Int) + (-200)) 0 0xFFFFF = 0 := by
  refine ⟨by decide, by decide, by decide, by decide, by decide⟩

/-! ### Rounding and clamping -/

theorem EV_RESOLUTION_cast {R : Type} [LinearOrderedField R] :
    ((EV_RESOLUTION : Int) : R) = 65536 := by
  unfold EV_RESOLUTION
  norm_num

theorem c_round_mono {R : Type} [LinearOrderedField R] [FloorRing R] {x y : R} (h : x ≤ y) :
    c_round x ≤ c_round y := by
  unfold c_round
  by_cases hx : 0 ≤ x
  · have hy : 0 ≤ y := le_trans hx h
    rw [if_pos hx, if_pos hy]
    exact Int.floor_mono (by linarith)
  · rw [if_neg hx]
    push_neg at hx
    by_cases hy : 0 ≤ y
    · rw [if_pos hy]
      have h1 : 0 ≤ ⌊-x + 1 / 2⌋ := Int.floor_nonneg.mpr (by linarith)
      have h2 : 0 ≤ ⌊y + 1 / 2⌋ := Int.floor_nonneg.mpr (by linarith)
      omega
    · rw [if_neg hy]
      have h3 : ⌊-y + 1 / 2⌋ ≤ ⌊-x + 1 / 2⌋ := Int.floor_mono (by linarith)
      omega

theorem floor_half {R : Type} [LinearOrderedField R] [FloorRing R] : ⌊(1 / 2 : R)⌋ = 0 := by
  rw [Int.floor_eq_iff]
  norm_num

theorem c_round_intCast {R : Type} [LinearOrderedField R] [FloorRing R] (k : Int) :
    c_round (k : R) = k := by
  unfold c_round
  by_cases hk : (0 : R) ≤ (k : R)
  · rw [if_pos hk, Int.floor_int_add, floor_half]
    omega
  · rw [if_neg hk, ← Int.cast_neg, Int.floor_int_add, floor_half]
    omega

theorem c_round_nonneg {R : Type} [LinearOrderedField R] [FloorRing R] {x : R} (h : 0 ≤ x) :
    0 ≤ c_round x := by
  have := c_round_mono h
  rw [← Int.cast_zero, c_round_intCast] at this
  exact this

theorem le_c_round {R : Type} [LinearOrderedField R] [FloorRing R] (k : Int) {x : R}
    (h : (k : R) ≤ x) : k ≤ c_round x := by
  have := c_round_mono h
  rwa [c_round_intCast] at this

theorem c_round_le {R : Type} [LinearOrderedField R] [FloorRing R] (k : Int) {x : R}
    (h : x ≤ (k : R)) : c_round x ≤ k := by
  have := c_round_mono h
  rwa [c_round_intCast] at this

theorem lt_c_round_add_half {R : Type} [LinearOrderedField R] [FloorRing R] {x : R}
    (h : 0 ≤ x) : x < (c_round x : R) + 1 / 2 := by
  unfold c_round
  rw [if_pos h]
  have := Int.lt_floor_add_one (x + 1 / 2)
  linarith

theorem c_round_sub_half_le {R : Type} [LinearOrderedField R] [FloorRing R] {x : R}
    (h : 0 ≤ x) : (c_round x : R) - 1 / 2 ≤ x := by
  unfold c_round
  rw [if_pos h]
  have := Int.floor_le (x + 1 / 2)
  linarith

theorem COERCE_mono {x y : Int} (lo hi : Int) (h : x ≤ y) : COERCE x lo hi ≤ COERCE y lo hi := by
  unfold COERCE
  exact max_le_max (min_le_min h le_rfl) le_rfl

theorem COERCE_bounds (x : Int) {lo hi : Int} (h : lo ≤ hi) :
    lo ≤ COERCE x lo hi ∧ COERCE x lo hi ≤ hi := by
  unfold COERCE
  exact ⟨le_max_right _ _, max_le (min_le_right _ _) h⟩

theorem COERCE_of_le_lo {x lo hi : Int} (h : x ≤ lo) (hlh : lo ≤ hi) : COERCE x lo hi = lo := by
  unfold COERCE
  rw [min_eq_left (le_trans h hlh), max_eq_right h]

/-! ### Monotonicity of the tables -/

theorem raw2ev_entry_mono {R : Type} [LinearOrderedField R] [FloorRing R] {log2 pow2 : R → R}
    (H : ExactLog2Pow log2 pow2) (black : Int) {i1 i2 : Int} (h : i1 ≤ i2) :
    raw2ev_entry log2 black i1 ≤ raw2ev_entry log2 black i2 := by
  have hc : (i1 : R) ≤ (i2 : R) := by exact_mod_cast h
  have hs : max ((i1 : R) / 64 - (black : R) / 64) (-1023) ≤
      max ((i2 : R) / 64 - (black : R) / 64) (-1023) :=
    max_le_max (by linarith) le_rfl
  have hev : (0 : R) ≤ (EV_RESOLUTION : R) := by
    rw [EV_RESOLUTION_cast]
    norm_num
  unfold raw2ev_entry
  simp only
  by_cases h1 : max ((i1 : R) / 64 - (black : R) / 64) (-1023) > 0
  · have h2 : max ((i2 : R) / 64 - (black : R) / 64) (-1023) > 0 := lt_of_lt_of_le h1 hs
    rw [if_pos h1, if_pos h2]
    apply c_round_mono
    apply mul_le_mul_of_nonneg_right _ hev
    exact H.log2_mono _ _ (by linarith) (by linarith)
  · rw [if_neg h1]
    push_neg at h1
    have hn1 : 0 ≤ c_round (log2 (1 - max ((i1 : R) / 64 - (black : R) / 64) (-1023)) *
        (EV_RESOLUTION : R)) := by
      apply c_round_nonneg
      apply mul_nonneg _ hev
      rw [← H.log2_one]
      exact H.log2_mono _ _ le_rfl (by linarith)
    by_cases h2 : max ((i2 : R) / 64 - (black : R) / 64) (-1023) > 0
    · rw [if_pos h2]
      have hn2 : 0 ≤ c_round (log2 (1 + max ((i2 : R) / 64 - (black : R) / 64) (-1023)) *
          (EV_RESOLUTION : R)) := by
        apply c_round_nonneg
        apply mul_nonneg _ hev
        rw [← H.log2_one]
        exact H.log2_mono _ _ le_rfl (by linarith)
      omega
    · rw [if_neg h2]
      push_neg at h2
      have : c_round (log2 (1 - max ((i2 : R) / 64 - (black : R) / 64) (-1023)) *
          (EV_RESOLUTION : R)) ≤
          c_round (log2 (1 - max ((i1 : R) / 64 - (black : R) / 64) (-1023)) *
          (EV_RESOLUTION : R)) := by
        apply c_round_mono
        apply mul_le_mul_of_nonneg_right _ hev
        exact H.log2_mono _ _ (by linarith) (by linarith)
      omega

theorem ev2raw_fill_bounds {R : Type} [LinearOrderedField R] [FloorRing R] (log2 pow2 : R → R)
    {black white : Int} (hb0 : 0 ≤ black) (hb1 : black ≤ 1048575) (hw1 : white ≤ 1048575)
    (i : Int) :
    0 ≤ ev2raw_fill log2 pow2 black white i ∧ ev2raw_fill log2 pow2 black white i ≤ 1048575 ∧
    (i < 0 → ev2raw_fill log2 pow2 black white i ≤ black) ∧
    (0 ≤ i → black ≤ ev2raw_fill log2 pow2 black white i) := by
  have e20 : (1048576 : Int) - 1 = 1048575 := by decide
  unfold ev2raw_fill
  simp only [e20]
  by_cases hi : i < 0
  · rw [if_pos hi]
    have := COERCE_bounds (black + 64 - c_round (64 * pow2 (((-i : Int) : R) /
      (EV_RESOLUTION : R)))) hb0
    refine ⟨this.1, by omega, fun _ => this.2, fun h => by omega⟩
  · rw [if_neg hi]
    have := COERCE_bounds (black - 64 + c_round (64 * pow2 ((i : R) /
      (EV_RESOLUTION : R)))) hb1
    split
    · refine ⟨?_, ?_, fun h => by omega, fun _ => ?_⟩
      · exact le_trans (le_trans hb0 this.1) (le_max_left _ _)
      · exact max_le this.2 hw1
      · exact le_trans this.1 (le_max_left _ _)
    · refine ⟨by omega, this.2, fun h => by omega, fun _ => this.1⟩

theorem ev2raw_fill_mono {R : Type} [LinearOrderedField R] [FloorRing R] {log2 pow2 : R → R}
    (H : ExactLog2Pow log2 pow2) {black white : Int} (hb0 : 0 ≤ black) (hb1 : black ≤ 1048575)
    (hw1 : white ≤ 1048575) {i1 i2 : Int} (h : i1 ≤ i2) :
    ev2raw_fill log2 pow2 black white i1 ≤ ev2raw_fill log2 pow2 black white i2 := by
  have hev : (0 : R) < (EV_RESOLUTION : R) := by
    rw [EV_RESOLUTION_cast]
    norm_num
  by_cases h2 : i2 < 0
  · have h1 : i1 < 0 := by omega
    unfold ev2raw_fill
    rw [if_pos h1, if_pos h2]
    apply COERCE_mono
    have hc : ((-i2 : Int) : R) ≤ ((-i1 : Int) : R) := by exact_mod_cast (by omega : -i2 ≤ -i1)
    have : c_round (64 * pow2 (((-i2 : Int) : R) / (EV_RESOLUTION : R))) ≤
        c_round (64 * pow2 (((-i1 : Int) : R) / (EV_RESOLUTION : R))) := by
      apply c_round_mono
      apply mul_le_mul_of_nonneg_left _ (by norm_num)
      apply H.pow2_mono
      exact div_le_div_of_nonneg_right hc hev.le
    omega
  · by_cases h1 : i1 < 0
    · have b1 := (ev2raw_fill_bounds log2 pow2 hb0 hb1 hw1 i1).2.2.1 h1
      have b2 := (ev2raw_fill_bounds log2 pow2 hb0 hb1 hw1 i2).2.2.2 (by omega)
      omega
    · unfold ev2raw_fill
      rw [if_neg h1, if_neg h2]
      simp only
      have hc : (i1 : R) ≤ (i2 : R) := by exact_mod_cast h
      have hv : COERCE (black - 64 + c_round (64 * pow2 ((i1 : R) / (EV_RESOLUTION : R))))
          black (1048576 - 1) ≤
          COERCE (black - 64 + c_round (64 * pow2 ((i2 : R) / (EV_RESOLUTION : R))))
          black (1048576 - 1) := by
        apply COERCE_mono
        have : c_round (64 * pow2 ((i1 : R) / (EV_RESOLUTION : R))) ≤
            c_round (64 * pow2 ((i2 : R) / (EV_RESOLUTION : R))) := by
          apply c_round_mono
          apply mul_le_mul_of_nonneg_left _ (by norm_num)
          apply H.pow2_mono
          exact div_le_div_of_nonneg_right hc hev.le
        omega
      by_cases hr1 : i1 ≥ raw2ev_entry log2 black white
      · have hr2 : i2 ≥ raw2ev_entry log2 black white := by omega
        rw [if_pos hr1, if_pos hr2]
        exact max_le_max hv le_rfl
      · rw [if_neg hr1]
        split
        · exact le_trans hv (le_max_left _ _)
        · exact hv

/-! ### The reserved entry `ev2raw[raw2ev[0]]` -/

theorem raw2ev_entry_zero_bounds {R : Type} [LinearOrderedField R] [FloorRing R]
    {log2 pow2 : R → R} (H : ExactLog2Pow log2 pow2) {black : Int} (hb0 : 0 ≤ black) :
    -10 * EV_RESOLUTION ≤ raw2ev_entry log2 black 0 ∧ raw2ev_entry log2 black 0 ≤ 0 := by
  have hbc : (0 : R) ≤ (black : R) := by exact_mod_cast hb0
  have hev : (0 : R) ≤ (EV_RESOLUTION : R) := by
    rw [EV_RESOLUTION_cast]
    norm_num
  have hs : max (((0 : Int) : R) / 64 - (black : R) / 64) (-1023) ≤ 0 := by
    apply max_le
    · rw [Int.cast_zero]
      linarith
    · norm_num
  have hs2 : -1023 ≤ max (((0 : Int) : R) / 64 - (black : R) / 64) (-1023) := le_max_right _ _
  unfold raw2ev_entry
  simp only
  rw [if_neg (not_lt.mpr hs)]
  have h1 : 0 ≤ c_round (log2 (1 - max (((0 : Int) : R) / 64 - (black : R) / 64) (-1023)) *
      (EV_RESOLUTION : R)) := by
    apply c_round_nonneg
    apply mul_nonneg _ hev
    rw [← H.log2_one]
    exact H.log2_mono _ _ le_rfl (by linarith)
  have h2 : c_round (log2 (1 - max (((0 : Int) : R) / 64 - (black : R) / 64) (-1023)) *
      (EV_RESOLUTION : R)) ≤ 10 * EV_RESOLUTION := by
    apply c_round_le
    have hl : log2 (1 - max (((0 : Int) : R) / 64 - (black : R) / 64) (-1023)) ≤ 10 := by
      rw [← H.log2_1024]
      exact H.log2_mono _ _ (by linarith) (by linarith)
    have : ((10 * EV_RESOLUTION : Int) : R) = 10 * (EV_RESOLUTION : R) := by push_cast; ring
    rw [this]
    exact mul_le_mul_of_nonneg_right hl hev
  omega

theorem ev2raw_fill_below_reserved {R : Type} [LinearOrderedField R] [FloorRing R]
    {log2 pow2 : R → R} (H : ExactLog2Pow log2 pow2) {black : Int} (white : Int)
    (hb0 : 0 ≤ black) {j : Int} (hj0 : -10 * EV_RESOLUTION ≤ j)
    (hj : j < raw2ev_entry log2 black 0) :
    ev2raw_fill log2 pow2 black white j = 0 := by
  have hbc : (0 : R) ≤ (black : R) := by exact_mod_cast hb0
  have hevp : (0 : R) < (EV_RESOLUTION : R) := by
    rw [EV_RESOLUTION_cast]
    norm_num
  have hev : (0 : R) ≤ (EV_RESOLUTION : R) := hevp.le
  have hz := raw2ev_entry_zero_bounds H hb0
  have hjneg : j < 0 := by omega
  have hs : max (((0 : Int) : R) / 64 - (black : R) / 64) (-1023) ≤ 0 := by
    apply max_le
    · rw [Int.cast_zero]
      linarith
    · norm_num
  -- name the pieces
  obtain ⟨s, hsdef⟩ : ∃ s : R, s = max (((0 : Int) : R) / 64 - (black : R) / 64) (-1023) :=
    ⟨_, rfl⟩
  have hentry : raw2ev_entry log2 black 0 = -(c_round (log2 (1 - s) * (EV_RESOLUTION : R))) := by
    unfold raw2ev_entry
    simp only
    rw [← hsdef, if_neg (not_lt.mpr (hsdef ▸ hs))]
  have hs0 : s ≤ 0 := hsdef ▸ hs
  have hL : 0 ≤ log2 (1 - s) := by
    rw [← H.log2_one]
    exact H.log2_mono _ _ le_rfl (by linarith)
  have hy : 0 ≤ log2 (1 - s) * (EV_RESOLUTION : R) := mul_nonneg hL hev
  have hlt := lt_c_round_add_half hy
  -- the index −j lies above log2(1 − s)·EV_RESOLUTION
  have hjn : c_round (log2 (1 - s) * (EV_RESOLUTION : R)) + 1 ≤ -j := by omega
  have hjc : ((c_round (log2 (1 - s) * (EV_RESOLUTION : R)) : Int) : R) + 1 ≤ ((-j : Int) : R) := by
    exact_mod_cast hjn
  have hexp : log2 (1 - s) ≤ ((-j : Int) : R) / (EV_RESOLUTION : R) := by
    rw [le_div_iff₀ hevp]
    linarith
  have hpow : 1 - s ≤ pow2 (((-j : Int) : R) / (EV_RESOLUTION : R)) := by
    rw [← H.pow2_log2 (1 - s) (by linarith)]
    exact H.pow2_mono _ _ hexp
  -- black/64 ≤ 1023, for otherwise the reserved entry is the first one
  have hsb : s = -((black : R) / 64) := by
    rcases le_total (((0 : Int) : R) / 64 - (black : R) / 64) (-1023) with hle | hle
    · exfalso
      have hs' : s = -1023 := by rw [hsdef, max_eq_right hle]
      have h10 : log2 (1 - s) * (EV_RESOLUTION : R) = ((10 * EV_RESOLUTION : Int) : R) := by
        have e1 : (1 : R) - s = 1024 := by rw [hs']; norm_num
        rw [e1, H.log2_1024]
        push_cast
        ring
      rw [h10, c_round_intCast] at hentry
      omega
    · rw [hsdef, max_eq_left hle, Int.cast_zero]
      ring
  have hround : black + 64 ≤ c_round (64 * pow2 (((-j : Int) : R) / (EV_RESOLUTION : R))) := by
    apply le_c_round
    have hcast : ((black + 64 : Int) : R) = 64 * (1 - s) := by
      rw [hsb]
      push_cast
      ring
    rw [hcast]
    exact mul_le_mul_of_nonneg_left hpow (by norm_num)
  unfold ev2raw_fill
  rw [if_pos hjneg]
  exact COERCE_of_le_lo (by omega) hb0

/-- The table `ev2raw`, as a total function on its index range. -/
theorem ev2raw_eq {R : Type} [LinearOrderedField R] [FloorRing R] (log2 pow2 : R → R)
    (black white : Int) {i : Int} (h0 : -10 * EV_RESOLUTION ≤ i) (h1 : i < 14 * EV_RESOLUTION) :
    ev2raw log2 pow2 black white i =
      some (if i = raw2ev_entry log2 black 0 then 0 else ev2raw_fill log2 pow2 black white i) := by
  unfold ev2raw
  rw [if_pos ⟨h0, h1⟩]
  split <;> rfl

theorem ev2raw_mono {R : Type} [LinearOrderedField R] [FloorRing R] {log2 pow2 : R → R}
    (H : ExactLog2Pow log2 pow2) {black white : Int} (hb0 : 0 ≤ black) (hb1 : black ≤ 1048575)
    (hw1 : white ≤ 1048575) {i1 i2 : Int} (h0 : -10 * EV_RESOLUTION ≤ i1) (h : i1 ≤ i2) :
    (if i1 = raw2ev_entry log2 black 0 then 0 else ev2raw_fill log2 pow2 black white i1) ≤
    (if i2 = raw2ev_entry log2 black 0 then 0 else ev2raw_fill log2 pow2 black white i2) := by
  by_cases e1 : i1 = raw2ev_entry log2 black 0
  · rw [if_pos e1]
    split
    · exact le_rfl
    · exact (ev2raw_fill_bounds log2 pow2 hb0 hb1 hw1 i2).1
  · rw [if_neg e1]
    by_cases e2 : i2 = raw2ev_entry log2 black 0
    · rw [if_pos e2]
      have hlt : i1 < raw2ev_entry log2 black 0 := by omega
      rw [ev2raw_fill_below_reserved H white hb0 h0 hlt]
    · rw [if_neg e2]
      exact ev2raw_fill_mono H hb0 hb1 hw1 h

/-- Monotonicity of `raw2ev ∘ ev2raw` for any pair of functions with the
properties of the exact `log2` and `pow(2, ·)`. -/
theorem raw2ev_ev2raw_mono {R : Type} [LinearOrderedField R] [FloorRing R] {log2 pow2 : R → R}
    (H : ExactLog2Pow log2 pow2) {black white : Int} (hb0 : 0 ≤ black) (hb1 : black ≤ 1048575)
    (hw1 : white ≤ 1048575) {e1 e2 : Int} (h0 : -10 * EV_RESOLUTION ≤ e1) (h : e1 ≤ e2)
    (h1 : e2 ≤ 14 * EV_RESOLUTION - 1) :
    ∃ v1 v2 : Int, raw2ev_ev2raw log2 pow2 black white e1 = some v1 ∧
      raw2ev_ev2raw log2 pow2 black white e2 = some v2 ∧ v1 ≤ v2 := by
  have key : ∀ e : Int, -10 * EV_RESOLUTION ≤ e → e ≤ 14 * EV_RESOLUTION - 1 →
      raw2ev_ev2raw log2 pow2 black white e = some (raw2ev_entry log2 black
        (if e = raw2ev_entry log2 black 0 then 0 else ev2raw_fill log2 pow2 black white e)) := by
    intro e he0 he1
    unfold raw2ev_ev2raw
    rw [ev2raw_eq log2 pow2 black white he0 (by omega), Option.some_bind]
    unfold raw2ev
    have hb := ev2raw_fill_bounds log2 pow2 hb0 hb1 hw1 e
    rw [if_pos]
    split
    · omega
    · omega
  refine ⟨_, _, key e1 h0 (by omega), key e2 (by omega) h1, ?_⟩
  exact raw2ev_entry_mono H black (ev2raw_mono H hb0 hb1 hw1 h0 h)

/-! ### The exact real functions -/

theorem two_rpow_small : (2 : ℝ) ^ ((1 : ℝ) / 131072) < 65 / 64 := by
  by_contra hcon
  push_neg at hcon
  have h1 : ((65 : ℝ) / 64) ^ (131072 : ℕ) ≤ ((2 : ℝ) ^ ((1 : ℝ) / 131072)) ^ (131072 : ℕ) :=
    pow_le_pow_left₀ (by norm_num) hcon _
  have h2 : ((2 : ℝ) ^ ((1 : ℝ) / 131072)) ^ (131072 : ℕ) = 2 := by
    rw [← Real.rpow_natCast, ← Real.rpow_mul (by norm_num)]
    norm_num
  have h3 : (1 : ℝ) + (131072 : ℕ) * (1 / 64) ≤ (1 + 1 / 64) ^ (131072 : ℕ) :=
    one_add_mul_le_pow (by norm_num) _
  have h4 : (1 : ℝ) + 1 / 64 = 65 / 64 := by norm_num
  rw [h4] at h3
  rw [h2] at h1
  have h5 : (1 : ℝ) + (131072 : ℕ) * (1 / 64) = 2049 := by norm_num
  linarith

theorem exactLog2Pow_real : ExactLog2Pow (Real.logb 2) (fun x : ℝ => (2 : ℝ) ^ x) where
  log2_mono := by
    intro x y hx hxy
    exact (Real.logb_le_logb (by norm_num) (by linarith) (by linarith)).mpr hxy
  log2_one := Real.logb_one
  log2_1024 := by
    have : (1024 : ℝ) = (2 : ℝ) ^ (10 : ℝ) := by
      rw [show (10 : ℝ) = ((10 : ℕ) : ℝ) by norm_num, Real.rpow_natCast]
      norm_num
    rw [this, Real.logb_rpow (by norm_num) (by norm_num)]
  log2_16384 := by
    have : (16384 : ℝ) = (2 : ℝ) ^ (14 : ℝ) := by
      rw [show (14 : ℝ) = ((14 : ℕ) : ℝ) by norm_num, Real.rpow_natCast]
      norm_num
    rw [this, Real.logb_rpow (by norm_num) (by norm_num)]
  pow2_mono := by
    intro x y hxy
    exact Real.rpow_le_rpow_of_exponent_le (by norm_num) hxy
  pow2_log2 := by
    intro x hx
    exact Real.rpow_logb (by norm_num) (by norm_num) (by linarith)
  pow2_small := two_rpow_small
  pow2_near14 := by
    show (16131 : ℝ) < (2 : ℝ) ^ ((14 : ℝ) - 1 / 131072)
    rw [Real.rpow_sub (by norm_num)]
    have h14 : (2 : ℝ) ^ (14 : ℝ) = 16384 := by
      rw [show (14 : ℝ) = ((14 : ℕ) : ℝ) by norm_num, Real.rpow_natCast]
      norm_num
    rw [h14, lt_div_iff₀ (Real.rpow_pos_of_pos (by norm_num) _)]
    have := two_rpow_small
    linarith

/-! ### The white point -/

theorem raw2ev_entry_above_black {R : Type} [LinearOrderedField R] [FloorRing R]
    {log2 pow2 : R → R} (H : ExactLog2Pow log2 pow2) {black white : Int} (hbw : black < white) :
    raw2ev_entry log2 black white =
      c_round (log2 (1 + ((white : R) / 64 - (black : R) / 64)) * (EV_RESOLUTION : R)) ∧
    1 ≤ raw2ev_entry log2 black white := by
  have hevp : (0 : R) < (EV_RESOLUTION : R) := by
    rw [EV_RESOLUTION_cast]
    norm_num
  have hc : (black : R) + 1 ≤ (white : R) := by exact_mod_cast hbw
  have hs : (1 : R) / 64 ≤ (white : R) / 64 - (black : R) / 64 := by linarith
  have hmax : max ((white : R) / 64 - (black : R) / 64) (-1023) =
      (white : R) / 64 - (black : R) / 64 := max_eq_left (by linarith)
  have e : raw2ev_entry log2 black white =
      c_round (log2 (1 + ((white : R) / 64 - (black : R) / 64)) * (EV_RESOLUTION : R)) := by
    unfold raw2ev_entry
    simp only
    rw [hmax, if_pos (by linarith)]
  refine ⟨e, ?_⟩
  rw [e]
  by_contra hcon
  push_neg at hcon
  have hL : 0 ≤ log2 (1 + ((white : R) / 64 - (black : R) / 64)) := by
    rw [← H.log2_one]
    exact H.log2_mono _ _ le_rfl (by linarith)
  have hlt := lt_c_round_add_half (mul_nonneg hL hevp.le)
  have hci : ((c_round (log2 (1 + ((white : R) / 64 - (black : R) / 64)) *
      (EV_RESOLUTION : R)) : Int) : R) ≤ 0 := by exact_mod_cast (by omega :
        c_round (log2 (1 + ((white : R) / 64 - (black : R) / 64)) * (EV_RESOLUTION : R)) ≤ 0)
  have hle : log2 (1 + ((white : R) / 64 - (black : R) / 64)) ≤ 1 / 131072 := by
    rw [EV_RESOLUTION_cast] at hlt hci
    linarith
  have hp := H.pow2_mono _ _ hle
  rw [H.pow2_log2 _ (by linarith)] at hp
  have := H.pow2_small
  linarith

theorem raw2ev_entry_lt_top {R : Type} [LinearOrderedField R] [FloorRing R]
    {log2 pow2 : R → R} (H : ExactLog2Pow log2 pow2) {black white : Int} (hbw : black < white)
    (hd : white - black ≤ 1032320) :
    raw2ev_entry log2 black white < 14 * EV_RESOLUTION := by
  have hevp : (0 : R) < (EV_RESOLUTION : R) := by
    rw [EV_RESOLUTION_cast]
    norm_num
  have hc : (black : R) + 1 ≤ (white : R) := by exact_mod_cast hbw
  have hdc : (white : R) - (black : R) ≤ 1032320 := by exact_mod_cast hd
  rw [(raw2ev_entry_above_black H hbw).1]
  by_contra hcon
  push_neg at hcon
  have hL : 0 ≤ log2 (1 + ((white : R) / 64 - (black : R) / 64)) := by
    rw [← H.log2_one]
    exact H.log2_mono _ _ le_rfl (by linarith)
  have hle := c_round_sub_half_le (mul_nonneg hL hevp.le)
  have hci : ((14 * EV_RESOLUTION : Int) : R) ≤ ((c_round (log2 (1 + ((white : R) / 64 -
      (black : R) / 64)) * (EV_RESOLUTION : R)) : Int) : R) := by exact_mod_cast hcon
  have hge : 14 - 1 / 131072 ≤ log2 (1 + ((white : R) / 64 - (black : R) / 64)) := by
    push_cast at hci
    rw [EV_RESOLUTION_cast] at hle hci
    linarith
  have hp := H.pow2_mono _ _ hge
  rw [H.pow2_log2 _ (by linarith)] at hp
  have := H.pow2_near14
  linarith

theorem ev2raw_raw2ev_white {R : Type} [LinearOrderedField R] [FloorRing R]
    {log2 pow2 : R → R} (H : ExactLog2Pow log2 pow2) {black white : Int} (hb0 : 0 ≤ black)
    (hbw : black < white) (hw1 : white ≤ 1048575)
    (hin : raw2ev_entry log2 black white < 14 * EV_RESOLUTION) :
    ∃ v : Int, ev2raw_raw2ev log2 pow2 black white white = some v ∧ white ≤ v := by
  have h1 := (raw2ev_entry_above_black H hbw).2
  have hz := raw2ev_entry_zero_bounds H hb0
  have hev : EV_RESOLUTION = 65536 := rfl
  unfold ev2raw_raw2ev raw2ev
  rw [if_pos ⟨by omega, by omega⟩, Option.some_bind,
    ev2raw_eq log2 pow2 black white (by omega) hin, if_neg (by omega)]
  refine ⟨_, rfl, ?_⟩
  unfold ev2raw_fill
  rw [if_neg (by omega)]
  simp only [ge_iff_le, le_refl, if_true]
  exact le_max_right _ _

theorem ev2raw_raw2ev_white_top {R : Type} [LinearOrderedField R] [FloorRing R]
    {log2 pow2 : R → R} (H : ExactLog2Pow log2 pow2) :
    14 * EV_RESOLUTION ≤ raw2ev_entry log2 0 1048575 ∧
    raw2ev log2 0 1048575 = some (raw2ev_entry log2 0 1048575) ∧
    ev2raw log2 pow2 0 1048575 (raw2ev_entry log2 0 1048575) = none ∧
    ev2raw_raw2ev log2 pow2 0 1048575 1048575 = none := by
  have hevp : (0 : R) < (EV_RESOLUTION : R) := by
    rw [EV_RESOLUTION_cast]
    norm_num
  have hge : 14 * EV_RESOLUTION ≤ raw2ev_entry log2 0 1048575 := by
    rw [(raw2ev_entry_above_black H (by decide : (0 : Int) < 1048575)).1]
    apply le_c_round
    have hl : (14 : R) ≤ log2 (1 + (((1048575 : Int) : R) / 64 - ((0 : Int) : R) / 64)) := by
      rw [← H.log2_16384]
      apply H.log2_mono _ _ (by norm_num)
      push_cast
      norm_num
    have : ((14 * EV_RESOLUTION : Int) : R) = 14 * (EV_RESOLUTION : R) := by push_cast; ring
    rw [this]
    exact mul_le_mul_of_nonneg_right hl hevp.le
  have hr : raw2ev log2 0 1048575 = some (raw2ev_entry log2 0 1048575) := by
    unfold raw2ev
    rw [if_pos ⟨by decide, by decide⟩]
  have hnone : ev2raw log2 pow2 0 1048575 (raw2ev_entry log2 0 1048575) = none := by
    unfold ev2raw
    rw [if_neg (by omega)]
  refine ⟨hge, hr, hnone, ?_⟩
  unfold ev2raw_raw2ev
  rw [hr, Option.some_bind, hnone]

/-! ### The claims about the tables, for the exact real `log2` and `pow` -/

/-- C5 (counterexample): with black level 0 and white level 2^20−1 the index
`raw2ev[W]` is at least `14*EV_RESOLUTION`, past the end of `ev2raw`, so
`ev2raw[raw2ev[W]]` is not an entry of the table and there is no value `≥ W`. -/
theorem ev2raw_raw2ev_white_fails :
    (0 : Int) < 1048575 ∧ (1048575 : Int) ≤ 2 ^ 20 - 1 ∧
    14 * EV_RESOLUTION ≤ raw2ev_entry (Real.logb 2) 0 1048575 ∧
    ev2raw_raw2ev (Real.logb 2) (fun x : ℝ => (2 : ℝ) ^ x) 0 1048575 1048575 = none ∧
    ¬ ∃ v : Int, ev2raw_raw2ev (Real.logb 2) (fun x : ℝ => (2 : ℝ) ^ x) 0 1048575 1048575
      = some v ∧ 1048575 ≤ v := by
  obtain ⟨h1, -, -, h4⟩ := ev2raw_raw2ev_white_top exactLog2Pow_real
  refine ⟨by decide, by decide, h1, h4, ?_⟩
  rintro ⟨v, hv, -⟩
  rw [h4] at hv
  exact Option.noConfusion hv

/-- C5 (as amended): for every 20-bit black level `B` and white level `W` with
`B < W ≤ 2^20−1` whose index `raw2ev[W]` lies inside the table `ev2raw`
(`raw2ev[W] < 14*EV_RESOLUTION`, which holds whenever `W − B ≤ 1032320`),
`ev2raw[raw2ev[W]] ≥ W`, with `log2`, `pow` and `round` exact. -/
theorem ev2raw_raw2ev_white_ge (B W : Int) (hB : 0 ≤ B) (hBW : B < W) (hW : W ≤ 2 ^ 20 - 1) :
    (W - B ≤ 1032320 → raw2ev_entry (Real.logb 2) B W < 14 * EV_RESOLUTION) ∧
    (raw2ev_entry (Real.logb 2) B W < 14 * EV_RESOLUTION →
      ∃ v : Int, ev2raw_raw2ev (Real.logb 2) (fun x : ℝ => (2 : ℝ) ^ x) B W W = some v ∧
        W ≤ v) := by
  have hW' : W ≤ 1048575 := by
    have : (2 : Int) ^ 20 - 1 = 1048575 := by norm_num
    omega
  exact ⟨fun hd => raw2ev_entry_lt_top exactLog2Pow_real hBW hd,
    fun hin => ev2raw_raw2ev_white exactLog2Pow_real hB hBW hW' hin⟩

/-- C5, witness: black level 131072 (2048·64), white level 960000 (15000·64). -/
theorem ev2raw_raw2ev_white_ge_witness :
    raw2ev_entry (Real.logb 2) 131072 960000 < 14 * EV_RESOLUTION ∧
    ∃ v : Int, ev2raw_raw2ev (Real.logb 2) (fun x : ℝ => (2 : ℝ) ^ x) 131072 960000 960000
      = some v ∧ 960000 ≤ v :=
  ⟨(ev2raw_raw2ev_white_ge 131072 960000 (by decide) (by decide) (by norm_num)).1 (by decide),
   (ev2raw_raw2ev_white_ge 131072 960000 (by decide) (by decide) (by norm_num)).2
     ((ev2raw_raw2ev_white_ge 131072 960000 (by decide) (by decide) (by norm_num)).1
       (by decide))⟩

/-- C6: for 20-bit black and white levels `B`, `W` (`0 ≤ B, W ≤ 2^20−1`) the
composition `raw2ev ∘ ev2raw` built in `hdr_interpolate` is defined and monotone
non-decreasing on the EV domain: for EV indices
`−10·EV_RESOLUTION ≤ e1 ≤ e2 ≤ 14·EV_RESOLUTION − 1`,
`raw2ev[ev2raw[e1]] ≤ raw2ev[ev2raw[e2]]`; the reserved entry
`ev2raw[raw2ev[0]]` is 0 and lies in that domain (`log2`, `pow`, `round` exact). -/
theorem raw2ev_ev2raw_monotone (B W e1 e2 : Int) (hB0 : 0 ≤ B) (hB1 : B ≤ 2 ^ 20 - 1)
    (_hW0 : 0 ≤ W) (hW1 : W ≤ 2 ^ 20 - 1)
    (h0 : -10 * EV_RESOLUTION ≤ e1) (h : e1 ≤ e2) (h1 : e2 ≤ 14 * EV_RESOLUTION - 1) :
    (∃ v1 v2 : Int,
      raw2ev_ev2raw (Real.logb 2) (fun x : ℝ => (2 : ℝ) ^ x) B W e1 = some v1 ∧
      raw2ev_ev2raw (Real.logb 2) (fun x : ℝ => (2 : ℝ) ^ x) B W e2 = some v2 ∧ v1 ≤ v2) ∧
    (-10 * EV_RESOLUTION ≤ raw2ev_entry (Real.logb 2) B 0 ∧
      raw2ev_entry (Real.logb 2) B 0 ≤ 0 ∧
      ev2raw (Real.logb 2) (fun x : ℝ => (2 : ℝ) ^ x) B W (raw2ev_entry (Real.logb 2) B 0)
        = some 0) := by
  have e20 : (2 : Int) ^ 20 - 1 = 1048575 := by norm_num
  have hz := raw2ev_entry_zero_bounds exactLog2Pow_real hB0
  have hev : EV_RESOLUTION = 65536 := rfl
  refine ⟨raw2ev_ev2raw_mono exactLog2Pow_real hB0 (by omega) (by omega) h0 h h1,
    hz.1, hz.2, ?_⟩
  rw [ev2raw_eq _ _ _ _ hz.1 (by omega), if_pos rfl]

/-- C6, witness: black level 131072, white level 960000, the two ends of the EV
domain. -/
theorem raw2ev_ev2raw_monotone_witness :
    ∃ v1 v2 : Int,
      raw2ev_ev2raw (Real.logb 2) (fun x : ℝ => (2 : ℝ) ^ x) 131072 960000 (-655360)
        = some v1 ∧
      raw2ev_ev2raw (Real.logb 2) (fun x : ℝ => (2 : ℝ) ^ x) 131072 960000 917503
        = some v2 ∧ v1 ≤ v2 :=
  (raw2ev_ev2raw_monotone 131072 960000 (-655360) 917503 (by decide) (by norm_num)
    (by decide) (by norm_num) (by decide) (by decide) (by decide)).1

/-! ### mean2 and mean3 -/

theorem tdiv_three_bounds (a : Int) :
    3 * Int.tdiv a 3 ≤ a + 2 ∧ a - 2 ≤ 3 * Int.tdiv a 3 := by
  rcases le_or_lt 0 a with h0 | h0
  · rw [Int.tdiv_eq_ediv h0 (by decide)]
    omega
  · have e : a = -(-a) := by omega
    rw [e, Int.neg_tdiv, Int.tdiv_eq_ediv (by omega) (by decide)]
    omega

/-- C15 (counterexample): `mean3(100, 100, 100, 50)` returns 100, which is above
the white argument 50. -/
theorem mean3_above_white : mean3 100 100 100 50 = 100 ∧ ¬ (mean3 100 100 100 50 ≤ 50) := by
  decide

/-- C15 (as amended): for all integers, `mean2(a, b, white) ≤ white`; `mean3`
is below `white` when all three inputs are, and when some input is at or above
`white` it returns `max((a+b+c)/3, white)`, which is at least `white` and
exceeds it exactly when the truncated mean does. -/
theorem mean2_mean3_white (a b c white : Int) :
    mean2 a b white ≤ white ∧
    (a < white → b < white → c < white → mean3 a b c white < white) ∧
    ((a ≥ white ∨ b ≥ white ∨ c ≥ white) →
      mean3 a b c white = max (Int.tdiv (a + b + c) 3) white ∧ white ≤ mean3 a b c white ∧
      (mean3 a b c white ≤ white ↔ Int.tdiv (a + b + c) 3 ≤ white)) := by
  refine ⟨?_, ?_, ?_⟩
  · unfold mean2
    split
    · exact le_rfl
    · have := tdiv_two_bounds (a + b)
      omega
  · intro ha hb hc
    unfold mean3
    simp only
    rw [if_neg (by omega)]
    have := tdiv_three_bounds (a + b + c)
    omega
  · intro h
    unfold mean3
    simp only
    rw [if_pos h]
    refine ⟨rfl, le_max_right _ _, ?_⟩
    constructor
    · intro h1
      exact le_trans (le_max_left _ _) h1
    · intro h1
      exact max_le h1 le_rfl

/-- C15, witness: inputs below white, and an input at white. -/
theorem mean2_mean3_white_witness :
    mean2 10 30 25 ≤ 25 ∧ mean3 10 20 24 25 < 25 ∧ mean3 10 20 25 25 = 25 :=
  ⟨(mean2_mean3_white 10 30 0 25).1,
   (mean2_mean3_white 10 20 24 25).2.1 (by decide) (by decide) (by decide),
   ((mean2_mean3_white 10 20 25 25).2.2 (by decide)).1.trans (by decide)⟩

/-! ### The rows read by the interpolation -/

/-- The row arithmetic of the interpolation: for every table satisfying I3 and
every row `y ≥ 2`, with `s = −1` if `is_bright[y%4] = is_bright[(y+1)%4]` and
`s = +1` otherwise, the rows `y−2`, `y+2`, `y+s` and `y−2s` all have a row class
whose `is_bright` value differs from that of row `y`. -/
theorem interp_rows_opposite (is_bright : List Int) (hI3 : I3 is_bright) (y : Nat)
    (hy : 2 ≤ y) :
    row_bright is_bright ((y : Int) - 2) ≠ row_bright is_bright y ∧
    row_bright is_bright ((y : Int) + 2) ≠ row_bright is_bright y ∧
    row_bright is_bright ((y : Int) + interp_s is_bright y) ≠ row_bright is_bright y ∧
    row_bright is_bright ((y : Int) - 2 * interp_s is_bright y) ≠ row_bright is_bright y := by
  obtain ⟨-, h02, h13⟩ := hI3
  obtain ⟨k, r, hr, rfl⟩ : ∃ k r : Nat, r < 4 ∧ y = 4 * k + r := ⟨y / 4, y % 4, by omega, by omega⟩
  have tm : ∀ n : Nat, (Int.tmod (n : Int) 4).toNat = n % 4 := by
    intro n
    rw [Int.tmod_eq_emod (by omega) (by decide)]
    omega
  have e0 : ((4 * k + r : Nat) : Int) - 2 = ((4 * k + r - 2 : Nat) : Int) := by omega
  have e1 : ((4 * k + r : Nat) : Int) + 2 = ((4 * k + r + 2 : Nat) : Int) := by omega
  have e2 : ((4 * k + r : Nat) : Int) + 1 = ((4 * k + r + 1 : Nat) : Int) := by omega
  have e3 : ((4 * k + r : Nat) : Int) + -1 = ((4 * k + r - 1 : Nat) : Int) := by omega
  have e4 : ((4 * k + r : Nat) : Int) - 2 * -1 = ((4 * k + r + 2 : Nat) : Int) := by omega
  have e5 : ((4 * k + r : Nat) : Int) - 2 * 1 = ((4 * k + r - 2 : Nat) : Int) := by omega
  unfold row_bright interp_s
  have hr4 : r = 0 ∨ r = 1 ∨ r = 2 ∨ r = 3 := by omega
  rcases hr4 with rfl | rfl | rfl | rfl
  · have a1 : (4 * k + 0) % 4 = 0 := by omega
    have a2 : (4 * k + 0 + 1) % 4 = 1 := by omega
    have a3 : (4 * k + 0 + 2) % 4 = 2 := by omega
    have a4 : (4 * k + 0 - 2) % 4 = 2 := by omega
    have a5 : (4 * k + 0 - 1) % 4 = 3 := by omega
    rw [e0, e1, tm, tm, tm, a1, a2, a3, a4]
    refine ⟨Ne.symm h02, Ne.symm h02, ?_, ?_⟩
    · split
      · rename_i h
        rw [e3, tm, a5, h]
        exact Ne.symm h13
      · rename_i h
        rw [e2, tm, a2]
        exact Ne.symm h
    · split
      · rw [e4, tm, a3]
        exact Ne.symm h02
      · rw [e5, tm, a4]
        exact Ne.symm h02
  · have a1 : (4 * k + 1) % 4 = 1 := by omega
    have a2 : (4 * k + 1 + 1) % 4 = 2 := by omega
    have a3 : (4 * k + 1 + 2) % 4 = 3 := by omega
    have a4 : (4 * k + 1 - 2) % 4 = 3 := by omega
    have a5 : (4 * k + 1 - 1) % 4 = 0 := by omega
    rw [e0, e1, tm, tm, tm, a1, a2, a3, a4]
    refine ⟨Ne.symm h13, Ne.symm h13, ?_, ?_⟩
    · split
      · rename_i h
        rw [e3, tm, a5, h]
        exact h02
      · rename_i h
        rw [e2, tm, a2]
        exact Ne.symm h
    · split
      · rw [e4, tm, a3]
        exact Ne.symm h13
      · rw [e5, tm, a4]
        exact Ne.symm h13
  · have a1 : (4 * k + 2) % 4 = 2 := by omega
    have a2 : (4 * k + 2 + 1) % 4 = 3 := by omega
    have a3 : (4 * k + 2 + 2) % 4 = 0 := by omega
    have a4 : (4 * k + 2 - 2) % 4 = 0 := by omega
    have a5 : (4 * k + 2 - 1) % 4 = 1 := by omega
    rw [e0, e1, tm, tm, tm, a1, a2, a3, a4]
    refine ⟨h02, h02, ?_, ?_⟩
    · split
      · rename_i h
        rw [e3, tm, a5, h]
        exact h13
      · rename_i h
        rw [e2, tm, a2]
        exact Ne.symm h
    · split
      · rw [e4, tm, a3]
        exact h02
      · rw [e5, tm, a4]
        exact h02
  · have a1 : (4 * k + 3) % 4 = 3 := by omega
    have a2 : (4 * k + 3 + 1) % 4 = 0 := by omega
    have a3 : (4 * k + 3 + 2) % 4 = 1 := by omega
    have a4 : (4 * k + 3 - 2) % 4 = 1 := by omega
    have a5 : (4 * k + 3 - 1) % 4 = 2 := by omega
    rw [e0, e1, tm, tm, tm, a1, a2, a3, a4]
    refine ⟨h13, h13, ?_, ?_⟩
    · split
      · rename_i h
        rw [e3, tm, a5, h]
        exact Ne.symm h02
      · rename_i h
        rw [e2, tm, a2]
        exact Ne.symm h
    · split
      · rw [e4, tm, a3]
        exact h13
      · rw [e5, tm, a4]
        exact h13

/-- The table `[1, 1, 0, 0]` and row 6 (dark; `s = −1`, so the rows are 4, 8, 5
and 8, all bright). -/
theorem interp_rows_opposite_witness :
    I3 [1, 1, 0, 0] ∧ interp_s [1, 1, 0, 0] 6 = -1 ∧
    row_bright [1, 1, 0, 0] ((6 : Nat) : Int) = 0 ∧
    row_bright [1, 1, 0, 0] (((6 : Nat) : Int) + interp_s [1, 1, 0, 0] 6)
      ≠ row_bright [1, 1, 0, 0] ((6 : Nat) : Int) :=
  ⟨by decide, by decide, by decide,
   (interp_rows_opposite [1, 1, 0, 0] (by decide) 6 (by decide)).2.2.1⟩

/-! ### Full-resolution reconstruction -/

theorem cell_div_mod {w x : Nat} (y : Nat) (hx : x < w) :
    (x + y * w) / w = y ∧ (x + y * w) % w = x := by
  have hw : 0 < w := by omega
  constructor
  · rw [Nat.add_mul_div_right _ _ hw, Nat.div_eq_of_lt hx, Nat.zero_add]
  · rw [Nat.add_mul_mod_self_right, Nat.mod_eq_of_lt hx]

theorem to_uint32_to_int32 {n : Nat} (h : n < 2147483648) :
    to_int32 n = (n : Int) ∧ to_uint32 (to_int32 n) = n := by
  unfold to_uint32 to_int32
  rw [if_pos h]
  refine ⟨rfl, ?_⟩
  omega

/-- C12: with `use_fullres` on, for every pixel `(x, y)` of the frame whose
`bright[]` cell holds a value below 2^31 (the buffers hold 20-bit values): on a
dark row `fullres[x,y] = dark[x,y]`; on a bright row `fullres[x,y] = bright[x,y]`
if `bright[x,y] < Wb'` and `max(bright[x,y], dark[x,y])` otherwise; hence on
bright rows `fullres[x,y] ≥ bright[x,y]`. -/
theorem fullres_build_spec (use_fullres : Int) (is_bright : List Int) (dark bright : Nat → Nat)
    (w h : Nat) (white_darkened : Int) (x y : Nat) (hu : use_fullres ≠ 0) (hx : x < w)
    (hy : y < h) (hb : bright (x + y * w) < 2147483648) :
    (BRIGHT_ROW is_bright y = false →
      fullres_build use_fullres is_bright dark bright w h white_darkened (x + y * w)
        = dark (x + y * w)) ∧
    (BRIGHT_ROW is_bright y = true →
      ((bright (x + y * w) : Int) < white_darkened →
        fullres_build use_fullres is_bright dark bright w h white_darkened (x + y * w)
          = bright (x + y * w)) ∧
      (¬ (bright (x + y * w) : Int) < white_darkened →
        fullres_build use_fullres is_bright dark bright w h white_darkened (x + y * w)
          = max (bright (x + y * w)) (dark (x + y * w))) ∧
      bright (x + y * w) ≤
        fullres_build use_fullres is_bright dark bright w h white_darkened (x + y * w)) := by
  obtain ⟨e1, -⟩ := cell_div_mod y hx
  obtain ⟨c1, c2⟩ := to_uint32_to_int32 hb
  have hw : w ≠ 0 := by omega
  have hg : use_fullres ≠ 0 ∧ w ≠ 0 ∧ y < h := ⟨hu, hw, hy⟩
  unfold fullres_build
  simp only [e1, if_pos hg]
  constructor
  · intro hd
    simp [hd]
  · intro hbr
    simp only [hbr, if_true, c2]
    rw [c1]
    refine ⟨fun hlt => by rw [if_pos hlt], fun hge => by rw [if_neg hge], ?_⟩
    split
    · exact le_rfl
    · exact le_max_left _ _

/-- C12, witness: a 2×2 frame with row 0 bright and row 1 dark, `Wb' = 500000`;
the clipped bright pixel `(1, 0)` takes the larger dark value. -/
theorem fullres_build_spec_witness :
    fullres_build 1 [1, 0, 0, 1] (fun i => 700000 + i) (fun i => 400000 + 200000 * i) 2 2
      500000 (0 + 0 * 2) = 400000 ∧
    fullres_build 1 [1, 0, 0, 1] (fun i => 700000 + i) (fun i => 400000 + 200000 * i) 2 2
      500000 (1 + 0 * 2) = max 600000 700001 ∧
    fullres_build 1 [1, 0, 0, 1] (fun i => 700000 + i) (fun i => 400000 + 200000 * i) 2 2
      500000 (1 + 1 * 2) = 700003 :=
  ⟨((fullres_build_spec 1 [1, 0, 0, 1] (fun i => 700000 + i) (fun i => 400000 + 200000 * i)
      2 2 500000 0 0 (by decide) (by decide) (by decide) (by decide)).2 (by decide)).1
      (by decide),
   ((fullres_build_spec 1 [1, 0, 0, 1] (fun i => 700000 + i) (fun i => 400000 + 200000 * i)
      2 2 500000 1 0 (by decide) (by decide) (by decide) (by decide)).2 (by decide)).2.1
      (by decide),
   (fullres_build_spec 1 [1, 0, 0, 1] (fun i => 700000 + i) (fun i => 400000 + 200000 * i)
      2 2 500000 1 1 (by decide) (by decide) (by decide) (by decide)).1 (by decide)⟩

/-! ### The matcher on the 76×13 frame -/

set_option maxRecDepth 1000000 in
theorem avg_bright_frameA13 :
    avg_bright frameA 76 13 [1, 1, 0, 0] 8192 10627 = some ((22 : Int) : ℚ) := by
  have hs : (avg_bright_samples frameA 76 13 [1, 1, 0, 0] 8192 10627).sum = 6688 := by
    decide
  have hl : (avg_bright_samples frameA 76 13 [1, 1, 0, 0] 8192 10627).length = 304 := by
    decide
  unfold avg_bright
  simp only [hs, hl]
  norm_num

set_option maxRecDepth 1000000 in
theorem match_bufs_frameA13 :
    match_bufs (quick_interp frameA 76 13 [1, 1, 0, 0] 8192 10627) (some ((22 : Int) : ℚ))
      10627 76 13 0 4550 = (List.replicate 78 0, List.replicate 26 0) := by
  unfold match_bufs
  simp only [lt_avg_int]
  decide

set_option maxRecDepth 1000000 in
/-- The matcher on the first 13 rows of `frameA` with black level 131072 and
white levels whose minimum is 320000: `gain = 4550`, `off = 0`, `a = 100/4550`,
and the darkened bright white level is 135224. -/
theorem match_exposures_frameA13 (Wd Wb : Int) (hmin : min Wd Wb = 320000) :
    (match_exposures median_int_wirth frameA 76 13 0 [1, 1, 0, 0] 131072 Wd Wb).ret = 1 ∧
    (match_exposures median_int_wirth frameA 76 13 0 [1, 1, 0, 0] 131072 Wd Wb).gain = 4550 ∧
    (match_exposures median_int_wirth frameA 76 13 0 [1, 1, 0, 0] 131072 Wd Wb).off = 0 ∧
    (match_exposures median_int_wirth frameA 76 13 0 [1, 1, 0, 0] 131072 Wd Wb).a
      = 100 / 4550 ∧
    (match_exposures median_int_wirth frameA 76 13 0 [1, 1, 0, 0] 131072 Wd Wb).white_darkened
      = 135224 := by
  have hb : match_black 131072 = 8192 := by decide
  have hm : Int.tdiv (100 + 9000) 2 = 4550 := by decide
  have hc : match_test median_int_wirth (quick_interp frameA 76 13 [1, 1, 0, 0] 8192 10627)
      (some ((22 : Int) : ℚ)) 10627 76 13 0 4550 = 0 := by
    unfold match_test
    rw [match_bufs_frameA13]
    decide
  have hd : match_test_avg_delta median_int_wirth
      (quick_interp frameA 76 13 [1, 1, 0, 0] 8192 10627)
      (some ((22 : Int) : ℚ)) 10627 76 13 0 4550 = 0 := by
    unfold match_test_avg_delta
    rw [match_bufs_frameA13]
    decide
  have hg : bin_search 100 9000 (match_test median_int_wirth
      (quick_interp frameA 76 13 [1, 1, 0, 0] 8192 10627)
      (some ((22 : Int) : ℚ)) 10627 76 13 0) = 4550 := by
    rw [bin_search]
    simp only [hm, hc]
    decide
  have hp : bin_search_probe 100 9000 (match_test median_int_wirth
      (quick_interp frameA 76 13 [1, 1, 0, 0] 8192 10627)
      (some ((22 : Int) : ℚ)) 10627 76 13 0) none = some 4550 := by
    rw [bin_search_probe]
    simp only [hm, hc]
    decide
  unfold match_exposures
  simp only [hmin, hb, match_clip_frameA, avg_bright_frameA13, hg, hp, hd]
  refine ⟨?_, trivial, ?_, ?_, ?_⟩
  · norm_num
  · norm_num
  · norm_num
  · unfold c_trunc
    norm_num [Int.floor_eq_iff]

/-! ### The darkened bright white level -/

theorem match_exposures_frame_last_row (median_int_wirth : List Int → Int) (buf : Nat → Nat)
    (w h y1 : Nat) (is_bright : List Int) (B Wd Wb : Int) (x y : Nat) (hx : x < w)
    (hy : h ≤ y + 1) :
    match_exposures_frame median_int_wirth buf w h y1 is_bright B Wd Wb (x + y * w)
      = buf (x + y * w) := by
  obtain ⟨e1, -⟩ := cell_div_mod y hx
  unfold match_exposures_frame
  simp only [e1]
  rw [if_neg (by omega)]

theorem match_exposures_frame_row (median_int_wirth : List Int → Int) (buf : Nat → Nat)
    (w h y1 : Nat) (is_bright : List Int) (B Wd Wb : Int) (x y : Nat) (hx : x < w)
    (hy : y + 1 < h) :
    match_exposures_frame median_int_wirth buf w h y1 is_bright B Wd Wb (x + y * w)
      = (match_apply B (match_exposures median_int_wirth buf w h y1 is_bright B Wd Wb).a
          (((match_exposures median_int_wirth buf w h y1 is_bright B Wd Wb).off : ℚ) * 16)
          (BRIGHT_ROW is_bright y) (buf (x + y * w))).toNat := by
  obtain ⟨e1, e2⟩ := cell_div_mod y hx
  unfold match_exposures_frame raw_get_pixel32
  simp only [e1, e2]
  rw [if_pos ⟨by omega, hy⟩]

theorem match_apply_frameA_bright :
    match_apply 131072 (100 / 4550) (((0 : Int) : ℚ) * 16) true 131584 = 131083 := by
  unfold match_apply c_trunc
  norm_num [Int.floor_eq_iff]

/-- C17 (the code at the failing input): on the first 13 rows of `frameA`
(`a = 100/4550`, `b = 0`, black level 131072) the bright pixel `(0, 4)` with
value 131584 becomes `(p − B)·a + B + (b·16)·a = 131083` (truncated), but the
pixel `(0, 12)` of the last row, also bright and 131584, keeps its value: the
correction loop stops at `y < h-1`, and this holds for the last row of every
frame. -/
theorem match_exposures_skips_last_row :
    (BRIGHT_ROW [1, 1, 0, 0] 4 = true ∧ frameA (0 + 4 * 76) = 131584 ∧
      match_exposures_frame median_int_wirth frameA 76 13 0 [1, 1, 0, 0] 131072 320000 320000
        (0 + 4 * 76) = 131083) ∧
    (BRIGHT_ROW [1, 1, 0, 0] 12 = true ∧ frameA (0 + 12 * 76) = 131584 ∧
      match_exposures_frame median_int_wirth frameA 76 13 0 [1, 1, 0, 0] 131072 320000 320000
        (0 + 12 * 76) = 131584) ∧
    (∀ (median : List Int → Int) (buf : Nat → Nat) (w h y1 : Nat) (is_bright : List Int)
      (B Wd Wb : Int) (x : Nat), x < w →
      match_exposures_frame median buf w h y1 is_bright B Wd Wb (x + (h - 1) * w)
        = buf (x + (h - 1) * w)) := by
  obtain ⟨-, -, h3, h4, -⟩ := match_exposures_frameA13 320000 320000 (by decide)
  refine ⟨⟨by decide, by decide, ?_⟩, ⟨by decide, by decide, ?_⟩, ?_⟩
  · rw [match_exposures_frame_row _ _ _ _ _ _ _ _ _ _ _ (by decide) (by decide), h3, h4]
    have e : BRIGHT_ROW [1, 1, 0, 0] 4 = true := by decide
    have e2 : ((frameA (0 + 4 * 76) : Nat) : Int) = 131584 := by decide
    rw [e, e2, match_apply_frameA_bright]
    decide
  · rw [match_exposures_frame_last_row _ _ _ _ _ _ _ _ _ _ _ (by decide) (by decide)]
    decide
  · intro median buf w h y1 is_bright B Wd Wb x hx
    exact match_exposures_frame_last_row _ _ _ _ _ _ _ _ _ _ _ hx (by omega)

/-! ### black_subtract -/

set_option maxRecDepth 1000000 in
theorem avg_black_frameD : avg_black frameD 24 24 12 0 = 4099 / 2 := by
  have hs : (List.map (fun y : Nat => vblack frameD 24 24 12 0 y)
      (List.filter (fun y : Nat => decide ((0 : Int) ≤ (y : Int))) (List.range 24))).sum
      = 49188 := by decide
  unfold avg_black
  simp only [hs]
  norm_num

set_option maxRecDepth 1000000 in
/-- With usable borders (`left_margin = top_margin = 12`) `black_subtract` does
change `frameD`: the new black level is 2050 and the sample at `(0, 0)` goes
from 2048 to 2049. -/
theorem black_subtract_frameD :
    ∃ r : BlackSubtract, black_subtract 12 12 frameD 24 24 2048 = some r ∧ r.ret = 1 ∧
      r.black_level = 2050 ∧ frameD 0 = 2048 ∧ r.buf 0 = 2049 := by
  have hy : black_ymin 12 = 0 := by decide
  have hbf : blackframe frameD 24 24 12 0 (0 % 24) (0 / 24) = 2048 := by decide
  have hp : (raw_get_pixel16 frameD 24 (0 % 24) (0 / 24) : Int) = 2048 := by decide
  have hr : c_round ((4099 : ℚ) / 2) = 2050 := by
    unfold c_round
    norm_num [Int.floor_eq_iff]
  have ht : c_trunc ((4099 : ℚ) / 2 - ((2048 : Int) : ℚ)) = 1 := by
    unfold c_trunc
    norm_num [Int.floor_eq_iff]
  unfold black_subtract
  rw [if_neg (by decide)]
  simp only [hy]
  rw [if_neg (by decide)]
  refine ⟨_, rfl, rfl, ?_, by decide, ?_⟩
  · simp only [avg_black_frameD, hr]
  · simp only [avg_black_frameD, hbf, hp, ht]
    decide

/-- C18: whenever `left_margin < 10` or `top_margin < 10`, `black_subtract`
returns 1 and leaves every sample of the mosaic and `raw_info.black_level`
unchanged. -/
theorem black_subtract_noop (left_margin top_margin : Int) (buf : Nat → Nat) (w h : Nat)
    (black_level : Int) (hm : left_margin < 10 ∨ top_margin < 10) :
    ∃ r : BlackSubtract, black_subtract left_margin top_margin buf w h black_level = some r ∧
      r.ret = 1 ∧ r.buf = buf ∧ r.black_level = black_level := by
  refine ⟨{ ret := 1, buf := buf, black_level := black_level }, ?_, rfl, rfl, rfl⟩
  unfold black_subtract
  rw [if_pos hm]

/-- C18, witness: `frameD` with `left_margin = 9`, `top_margin = 12`. -/
theorem black_subtract_noop_witness :
    ∃ r : BlackSubtract, black_subtract 9 12 frameD 24 24 2048 = some r ∧
      r.ret = 1 ∧ r.buf = frameD ∧ r.black_level = 2048 :=
  black_subtract_noop 9 12 frameD 24 24 2048 (Or.inl (by decide))

theorem run_writes_append (l1 l2 : List (Bool × Nat × Nat)) (s : (Nat → Nat) × (Nat → Nat)) :
    run_writes (l1 ++ l2) s = run_writes l2 (run_writes l1 s) := by
  unfold run_writes
  rw [List.foldl_append]

/-- A cell holds `v` after a sequence of writes when every write to the cell
stores `v`, and either there is such a write or the cell held `v` before. -/
theorem buf_get_run_writes (ws : List (Bool × Nat × Nat)) (b : Bool) (i v : Nat) :
    ∀ s : (Nat → Nat) × (Nat → Nat),
    (∀ wr ∈ ws, wr.1 = b → wr.2.1 = i → wr.2.2 = v) →
    ((∃ wr ∈ ws, wr.1 = b ∧ wr.2.1 = i) ∨ buf_get s b i = v) →
    buf_get (run_writes ws s) b i = v := by
  induction ws with
  | nil =>
    intro s _ hex
    rcases hex with ⟨wr, hwr, _⟩ | h
    · simp at hwr
    · exact h
  | cons wr ws ih =>
    intro s hall hex
    have hstep : run_writes (wr :: ws) s = run_writes ws
        (if wr.1 then (s.1, Function.update s.2 wr.2.1 wr.2.2)
          else (Function.update s.1 wr.2.1 wr.2.2, s.2)) := rfl
    rw [hstep]
    apply ih
    · intro wr2 h2
      exact hall wr2 (List.mem_cons_of_mem _ h2)
    · by_cases hm : wr.1 = b ∧ wr.2.1 = i
      · right
        have hv := hall wr (List.mem_cons_self _ _) hm.1 hm.2
        obtain ⟨h1, h2⟩ := hm
        subst h1 h2
        cases hb : wr.1 <;> simp [buf_get, hb, hv]
      · have hsame : buf_get (if wr.1 then (s.1, Function.update s.2 wr.2.1 wr.2.2)
            else (Function.update s.1 wr.2.1 wr.2.2, s.2)) b i = buf_get s b i := by
          cases hb : wr.1 <;> cases hb2 : b <;> simp [buf_get]
          · have hne : i ≠ wr.2.1 := fun h => hm ⟨by rw [hb, hb2], h.symm⟩
            exact Function.update_noteq hne _ _
          · have hne : i ≠ wr.2.1 := fun h => hm ⟨by rw [hb, hb2], h.symm⟩
            exact Function.update_noteq hne _ _
        rcases hex with ⟨wr2, hwr2, h2⟩ | h
        · rcases List.mem_cons.mp hwr2 with rfl | h3
          · exact absurd h2 hm
          · exact Or.inl ⟨wr2, h3, h2⟩
        · right
          rw [hsame]
          exact h
theorem mem_mean23_writes {raw2ev ev2raw : Int → Int} {buf : Nat → Nat} {w h : Nat}
    {is_bright : List Int} {white_darkened white_level : Int} {wr : Bool × Nat × Nat}
    (hwr : wr ∈ mean23_writes raw2ev ev2raw buf w h is_bright white_darkened white_level) :
    ∃ x y, x < w ∧ (wr = native_write is_bright w x y (raw_get_pixel32 buf w x y) ∨
      ∃ v, wr = interp_write is_bright w x y v) := by
  unfold mean23_writes at hwr
  simp only [List.mem_flatMap, List.mem_filter, List.mem_range, Bool.and_eq_true,
    decide_eq_true_eq] at hwr
  obtain ⟨y, _, x, ⟨hx, ⟨_, hx3⟩, _⟩, hc⟩ := hwr
  unfold mean23_cell at hc
  by_cases hy : y % 2 = 0
  · simp only [hy, if_true, List.mem_cons, List.mem_singleton, List.mem_nil_iff, or_false] at hc
    rcases hc with h | h | h | h
    · exact ⟨x, y, hx, Or.inr ⟨_, h⟩⟩
    · exact ⟨x + 1, y, by omega, Or.inr ⟨_, h⟩⟩
    · exact ⟨x, y, hx, Or.inl h⟩
    · exact ⟨x + 1, y, by omega, Or.inl h⟩
  · simp only [hy, if_false, List.mem_cons, List.mem_singleton, List.mem_nil_iff, or_false] at hc
    rcases hc with h | h | h | h
    · exact ⟨x, y, hx, Or.inr ⟨_, h⟩⟩
    · exact ⟨x + 1, y, by omega, Or.inr ⟨_, h⟩⟩
    · exact ⟨x, y, hx, Or.inl h⟩
    · exact ⟨x + 1, y, by omega, Or.inl h⟩

theorem mem_border_rows_writes {buf : Nat → Nat} {w h : Nat} {is_bright : List Int}
    {wr : Bool × Nat × Nat} (hwr : wr ∈ border_rows_writes buf w h is_bright) :
    ∃ x y, x < w ∧ (wr = native_write is_bright w x y (raw_get_pixel32 buf w x y) ∨
      ∃ v, wr = interp_write is_bright w x y v) := by
  unfold border_rows_writes at hwr
  simp only [List.mem_append, List.mem_flatMap, List.mem_filter, List.mem_range,
    decide_eq_true_eq, List.mem_cons, List.mem_singleton, List.mem_nil_iff, or_false] at hwr
  rcases hwr with ⟨y, _, x, hx, h | h⟩ | ⟨y, _, x, hx, h | h⟩
  · exact ⟨x, y, hx, Or.inr ⟨_, h⟩⟩
  · exact ⟨x, y, hx, Or.inl h⟩
  · exact ⟨x, y, hx, Or.inr ⟨_, h⟩⟩
  · exact ⟨x, y, hx, Or.inl h⟩

theorem mem_border_cols_writes {buf : Nat → Nat} {w h : Nat} {is_bright : List Int}
    {wr : Bool × Nat × Nat} (hw : 2 ≤ w) (hwr : wr ∈ border_cols_writes buf w h is_bright) :
    ∃ x y, x < w ∧
      ((x < 2 ∧ wr = native_write is_bright w x y (raw_get_pixel32 buf w x y)) ∨
       (2 ≤ y ∧ w ≤ x + 3 ∧
          wr = native_write is_bright w x y (raw_get_pixel32 buf w (x - 2) y)) ∨
       ∃ v, wr = interp_write is_bright w x y v) := by
  unfold border_cols_writes at hwr
  simp only [List.mem_append, List.mem_flatMap, List.mem_filter, List.mem_range,
    decide_eq_true_eq, List.mem_cons, List.mem_singleton, List.mem_nil_iff, or_false] at hwr
  obtain ⟨y, ⟨_, hy⟩, ⟨x, hx, h | h⟩ | ⟨x, ⟨hx, hx3⟩, h | h⟩⟩ := hwr
  · exact ⟨x, y, by omega, Or.inr (Or.inr ⟨_, h⟩)⟩
  · exact ⟨x, y, by omega, Or.inl ⟨hx, h⟩⟩
  · exact ⟨x, y, hx, Or.inr (Or.inr ⟨_, h⟩)⟩
  · exact ⟨x, y, hx, Or.inr (Or.inl ⟨hy, hx3, h⟩)⟩

theorem native_mem_mean23_writes (raw2ev ev2raw : Int → Int) (buf : Nat → Nat) {w h : Nat}
    (is_bright : List Int) (white_darkened white_level : Int) {x y : Nat}
    (hy : 2 ≤ y) (hy2 : y + 2 < h) (hx : 2 ≤ x) (hx3 : x + 3 < w) :
    native_write is_bright w x y (raw_get_pixel32 buf w x y) ∈
      mean23_writes raw2ev ev2raw buf w h is_bright white_darkened white_level := by
  unfold mean23_writes
  simp only [List.mem_flatMap, List.mem_filter, List.mem_range, Bool.and_eq_true,
    decide_eq_true_eq]
  refine ⟨y, ⟨by omega, hy, hy2⟩, ?_⟩
  rcases Nat.mod_two_eq_zero_or_one x with he | ho
  · refine ⟨x, ⟨by omega, ⟨hx, hx3⟩, he⟩, ?_⟩
    unfold mean23_cell
    by_cases hp : y % 2 = 0 <;> simp [hp]
  · refine ⟨x - 1, ⟨by omega, ⟨by omega, by omega⟩, by omega⟩, ?_⟩
    have e : x - 1 + 1 = x := by omega
    unfold mean23_cell
    by_cases hp : y % 2 = 0 <;> simp [hp, e]

theorem native_mem_border_rows_writes (buf : Nat → Nat) {w h : Nat} (is_bright : List Int)
    {x y : Nat} (hx : x < w) (hy : y < 3 ∨ (h ≤ y + 2 ∧ y < h)) :
    native_write is_bright w x y (raw_get_pixel32 buf w x y) ∈
      border_rows_writes buf w h is_bright := by
  unfold border_rows_writes
  simp only [List.mem_append, List.mem_flatMap, List.mem_filter, List.mem_range,
    decide_eq_true_eq, List.mem_cons, List.mem_singleton, List.mem_nil_iff, or_false]
  rcases hy with hy | ⟨hy, hy2⟩
  · exact Or.inl ⟨y, hy, x, hx, Or.inr rfl⟩
  · exact Or.inr ⟨y, ⟨hy2, hy⟩, x, hx, Or.inr rfl⟩

theorem native_mem_border_cols_writes (buf : Nat → Nat) {w h : Nat} (is_bright : List Int)
    {x y : Nat} (hx : x < w) (hy : 2 ≤ y) (hy2 : y < h) :
    (x < 2 → native_write is_bright w x y (raw_get_pixel32 buf w x y) ∈
      border_cols_writes buf w h is_bright) ∧
    (w ≤ x + 3 → native_write is_bright w x y (raw_get_pixel32 buf w (x - 2) y) ∈
      border_cols_writes buf w h is_bright) := by
  unfold border_cols_writes
  simp only [List.mem_append, List.mem_flatMap, List.mem_filter, List.mem_range,
    decide_eq_true_eq, List.mem_cons, List.mem_singleton, List.mem_nil_iff, or_false]
  constructor
  · intro h2
    exact ⟨y, ⟨hy2, hy⟩, Or.inl ⟨x, h2, Or.inr rfl⟩⟩
  · intro h3
    exact ⟨y, ⟨hy2, hy⟩, Or.inr ⟨x, ⟨hx, h3⟩, Or.inr rfl⟩⟩
theorem cell_inj {w x1 y1 x y : Nat} (h1 : x1 < w) (h2 : x < w)
    (h : x1 + y1 * w = x + y * w) : x1 = x ∧ y1 = y := by
  have a := cell_div_mod y1 h1
  have b := cell_div_mod y h2
  rw [h] at a
  exact ⟨a.2.symm.trans b.2, a.1.symm.trans b.1⟩

theorem interp_write_other {is_bright : List Int} {w x1 y1 x y : Nat} {v : Int}
    (h1 : x1 < w) (h2 : x < w)
    (hb : (interp_write is_bright w x1 y1 v).1 = BRIGHT_ROW is_bright y)
    (hi : (interp_write is_bright w x1 y1 v).2.1 = x + y * w) : False := by
  obtain ⟨_, rfl⟩ := cell_inj h1 h2 hi
  simp [interp_write] at hb

/-- The native buffer after the mean23 interpolation and the border
interpolation: the sample of the mosaic at `(x, y)`, except in the last three
columns of the rows `y ≥ 2`, where it is the sample at `(x-2, y)`. -/
theorem native_after_mean23 (raw2ev ev2raw : Int → Int) (buf : Nat → Nat) (w h : Nat)
    (is_bright : List Int) (white_darkened white_level : Int) (x y : Nat)
    (hw : 5 ≤ w) (hx : x < w) (hy : y < h) :
    buf_get (mean23_interpolate raw2ev ev2raw buf w h is_bright white_darkened white_level)
      (BRIGHT_ROW is_bright y) (x + y * w) =
    to_uint32 (raw_get_pixel32 buf w (if 2 ≤ y ∧ w ≤ x + 3 then x - 2 else x) y) := by
  unfold mean23_interpolate
  by_cases hr : 2 ≤ y ∧ w ≤ x + 3
  · rw [if_pos hr]
    apply buf_get_run_writes
    · intro wr hwr hb hi
      obtain ⟨x1, y1, hx1, ⟨h2, rfl⟩ | ⟨_, _, rfl⟩ | ⟨v, rfl⟩⟩ := mem_border_cols_writes (show 2 ≤ w by omega) hwr
      · obtain ⟨rfl, rfl⟩ := cell_inj hx1 hx hi
        omega
      · obtain ⟨rfl, rfl⟩ := cell_inj hx1 hx hi
        rfl
      · exact (interp_write_other hx1 hx hb hi).elim
    · left
      exact ⟨_, (native_mem_border_cols_writes buf is_bright hx hr.1 hy).2 hr.2, rfl, rfl⟩
  · rw [if_neg hr, ← run_writes_append, ← run_writes_append]
    apply buf_get_run_writes
    · intro wr hwr hb hi
      have hc : ∃ x1 y1, x1 < w ∧
          (wr = native_write is_bright w x1 y1 (raw_get_pixel32 buf w x1 y1) ∨
            (2 ≤ y1 ∧ w ≤ x1 + 3 ∧
              wr = native_write is_bright w x1 y1 (raw_get_pixel32 buf w (x1 - 2) y1)) ∨
            ∃ v, wr = interp_write is_bright w x1 y1 v) := by
        rcases List.mem_append.mp hwr with hwr | hwr
        · obtain ⟨x1, y1, hx1, h1 | h1⟩ := mem_mean23_writes hwr
          · exact ⟨x1, y1, hx1, Or.inl h1⟩
          · exact ⟨x1, y1, hx1, Or.inr (Or.inr h1)⟩
        · rcases List.mem_append.mp hwr with hwr | hwr
          · obtain ⟨x1, y1, hx1, h1 | h1⟩ := mem_border_rows_writes hwr
            · exact ⟨x1, y1, hx1, Or.inl h1⟩
            · exact ⟨x1, y1, hx1, Or.inr (Or.inr h1)⟩
          · obtain ⟨x1, y1, hx1, ⟨_, h1⟩ | h1 | h1⟩ :=
              mem_border_cols_writes (show 2 ≤ w by omega) hwr
            · exact ⟨x1, y1, hx1, Or.inl h1⟩
            · exact ⟨x1, y1, hx1, Or.inr (Or.inl h1)⟩
            · exact ⟨x1, y1, hx1, Or.inr (Or.inr h1)⟩
      obtain ⟨x1, y1, hx1, rfl | ⟨h3, h4, rfl⟩ | ⟨v, rfl⟩⟩ := hc
      · obtain ⟨rfl, rfl⟩ := cell_inj hx1 hx hi
        rfl
      · obtain ⟨rfl, rfl⟩ := cell_inj hx1 hx hi
        exact absurd ⟨h3, h4⟩ hr
      · exact (interp_write_other hx1 hx hb hi).elim
    · left
      refine ⟨native_write is_bright w x y (raw_get_pixel32 buf w x y), ?_, rfl, rfl⟩
      by_cases hy3 : y < 3 ∨ (h ≤ y + 2 ∧ y < h)
      · exact List.mem_append_right _ (List.mem_append_left _
          (native_mem_border_rows_writes buf is_bright hx hy3))
      · by_cases hx2 : x < 2
        · exact List.mem_append_right _ (List.mem_append_right _
            ((native_mem_border_cols_writes buf is_bright hx (show 2 ≤ y by omega) hy).1 hx2))
        · exact List.mem_append_left _
            (native_mem_mean23_writes raw2ev ev2raw buf is_bright white_darkened white_level
              (show 2 ≤ y by omega) (show y + 2 < h by omega) (show 2 ≤ x by omega)
              (show x + 3 < w by omega))

/-- C13: after the mean23 interpolation and the border interpolation on a frame
of at least 5×5, the native buffer of the row of `(x, y)` (`bright[]` on a bright
row, `dark[]` on a dark row) holds the mosaic sample at `(x, y)` when `x < w-3` or
`y < 2`, but in the last three columns of the rows `y ≥ 2` it holds the sample
at `(x-2, y)`: the claim fails there. -/
theorem mean23_native_right_border (raw2ev ev2raw : Int → Int) (buf : Nat → Nat) (w h : Nat)
    (is_bright : List Int) (white_darkened white_level : Int) (x y : Nat)
    (hw : 5 ≤ w) (_hh : 5 ≤ h) (hx : x < w) (hy : y < h)
    (hc : buf (x + y * w) < 1048576) (hc2 : buf (x - 2 + y * w) < 1048576) :
    (x + 3 < w ∨ y < 2 →
      buf_get (mean23_interpolate raw2ev ev2raw buf w h is_bright white_darkened white_level)
        (BRIGHT_ROW is_bright y) (x + y * w) = buf (x + y * w)) ∧
    (2 ≤ y ∧ w ≤ x + 3 →
      buf_get (mean23_interpolate raw2ev ev2raw buf w h is_bright white_darkened white_level)
        (BRIGHT_ROW is_bright y) (x + y * w) = buf (x - 2 + y * w)) := by
  have key := native_after_mean23 raw2ev ev2raw buf w h is_bright white_darkened white_level
    x y hw hx hy
  constructor
  · intro hin
    rw [key, if_neg (by omega)]
    unfold to_uint32 raw_get_pixel32
    omega
  · intro hin
    rw [key, if_pos hin]
    unfold to_uint32 raw_get_pixel32
    omega

theorem mean23_native_right_border_witness :
    BRIGHT_ROW [1, 1, 0, 0] 4 = true ∧ frameE (7 + 4 * 8) = 204007 ∧
    ∀ raw2ev ev2raw : Int → Int,
      (mean23_interpolate raw2ev ev2raw frameE 8 8 [1, 1, 0, 0] 900000 960000).2 (3 + 4 * 8)
        = 204003 ∧
      (mean23_interpolate raw2ev ev2raw frameE 8 8 [1, 1, 0, 0] 900000 960000).2 (7 + 4 * 8)
        = 204005 := by
  refine ⟨by decide, by decide, fun raw2ev ev2raw => ⟨?_, ?_⟩⟩
  · exact (mean23_native_right_border raw2ev ev2raw frameE 8 8 [1, 1, 0, 0] 900000 960000 3 4
      (by decide) (by decide) (by decide) (by decide) (by decide) (by decide)).1
      (Or.inl (by decide))
  · exact (mean23_native_right_border raw2ev ev2raw frameE 8 8 [1, 1, 0, 0] 900000 960000 7 4
      (by decide) (by decide) (by decide) (by decide) (by decide) (by decide)).2
      ⟨by decide, by decide⟩

theorem median_int_wirth_sub (l : List Int) (m : Int) (hl : l ≠ []) :
    median_int_wirth (l.map (fun v => v - m)) = median_int_wirth l - m := by
  unfold median_int_wirth
  have hs : (l.map (fun v => v - m)).insertionSort (fun a b => a ≤ b) =
      (l.insertionSort (fun a b => a ≤ b)).map (fun v => v - m) := by
    symm
    apply List.map_insertionSort
    intro a _ b _
    constructor <;> intro h <;> omega
  have hlen : 0 < l.length := List.length_pos.mpr hl
  have hk : (l.length - 1) / 2 < (l.insertionSort (fun a b => a ≤ b)).length := by
    rw [List.length_insertionSort]
    omega
  rw [hs, List.length_map, List.getD_eq_getElem _ _ (by rw [List.length_map]; exact hk),
    List.getD_eq_getElem _ _ hk, List.getElem_map]

theorem stripe_deltas_congr {dark1 dark2 : Nat → Nat} (bright : Nat → Nat) (w : Nat)
    (white_darkened white : Int) (y : Nat) (h : ∀ x, x < w → dark1 (x + y * w) = dark2 (x + y * w)) :
    stripe_deltas dark1 bright w white_darkened white y =
      stripe_deltas dark2 bright w white_darkened white y := by
  unfold stripe_deltas
  have hf : (List.range w).filter (fun x =>
        decide (to_int32 (bright (x + y * w)) < white_darkened) &&
        decide (to_int32 (dark1 (x + y * w)) < white)) =
      (List.range w).filter (fun x =>
        decide (to_int32 (bright (x + y * w)) < white_darkened) &&
        decide (to_int32 (dark2 (x + y * w)) < white)) := by
    apply List.filter_congr
    intro x hx
    rw [h x (List.mem_range.mp hx)]
  rw [hf]
  apply List.map_congr_left
  intro x hx
  rw [h x (List.mem_range.mp (List.mem_filter.mp hx).1)]

theorem stripe_fix_row_other (med : List Int → Int) (bright : Nat → Nat) (w : Nat)
    (white_darkened white : Int) (dark : Nat → Nat) (y i : Nat) (h : i / w ≠ y ∨ w = 0) :
    stripe_fix_row med bright w white_darkened white dark y i = dark i := by
  simp only [stripe_fix_row]
  split_ifs with h1
  · rfl
  · have hn : ¬(i / w = y ∧ w ≠ 0) := by
      rintro ⟨a, b⟩
      rcases h with h | h
      · exact h a
      · exact b h
    simp only [if_neg hn]

theorem stripe_fix_row_congr (med : List Int → Int) (bright : Nat → Nat) (w : Nat)
    (white_darkened white : Int) {dark1 dark2 : Nat → Nat} (y i : Nat)
    (h : ∀ j, j / w = y → dark1 j = dark2 j) (hi : i / w = y) :
    stripe_fix_row med bright w white_darkened white dark1 y i =
      stripe_fix_row med bright w white_darkened white dark2 y i := by
  by_cases hw : w = 0
  · rw [stripe_fix_row_other _ _ _ _ _ _ _ _ (Or.inr hw),
      stripe_fix_row_other _ _ _ _ _ _ _ _ (Or.inr hw)]
    exact h i hi
  · have hd : stripe_deltas dark1 bright w white_darkened white y =
        stripe_deltas dark2 bright w white_darkened white y := by
      apply stripe_deltas_congr
      intro x hx
      exact h _ (cell_div_mod y hx).1
    simp only [stripe_fix_row, hd]
    split_ifs with h1
    · exact h i hi
    · simp only [if_pos (show i / w = y ∧ w ≠ 0 from ⟨hi, hw⟩), h i hi]

/-- The rows of the stripe fix are independent: the cell `i` of the result is
the cell `i` after the fix of its own row alone. -/
theorem stripe_fix_cell (med : List Int → Int) (bright : Nat → Nat) (w : Nat)
    (white_darkened white : Int) (dark : Nat → Nat) (h i : Nat) :
    stripe_fix med bright w h white_darkened white dark i =
      if i / w < h then stripe_fix_row med bright w white_darkened white dark (i / w) i
      else dark i := by
  induction h generalizing i with
  | zero => simp [stripe_fix]
  | succ h ih =>
    have hstep : stripe_fix med bright w (h + 1) white_darkened white dark =
        stripe_fix_row med bright w white_darkened white
          (stripe_fix med bright w h white_darkened white dark) h := by
      unfold stripe_fix
      rw [List.range_succ, List.foldl_append]
      rfl
    rw [hstep]
    by_cases hc : i / w = h ∧ w ≠ 0
    · rw [if_pos (by omega)]
      rw [stripe_fix_row_congr med bright w white_darkened white h i ?_ hc.1, hc.1]
      intro j hj
      rw [ih j, if_neg (by omega)]
    · have ho : i / w ≠ h ∨ w = 0 := by
        by_cases hw : w = 0
        · exact Or.inr hw
        · exact Or.inl (fun e => hc ⟨e, hw⟩)
      rw [stripe_fix_row_other _ _ _ _ _ _ _ _ ho, ih i]
      rcases ho with ho | ho
      · by_cases h1 : i / w < h
        · rw [if_pos h1, if_pos (by omega)]
        · rw [if_neg h1, if_neg (by omega)]
      · subst ho
        simp only [Nat.div_zero]
        rw [if_pos (Nat.succ_pos h), stripe_fix_row_other _ _ _ _ _ _ _ _ (Or.inr rfl)]
        split_ifs <;> rfl
/-- C11, counterexample: on the row `darkF`, `brightF` (white level 960000,
darkened white level 500000) the pre-fix median is 50; the fix pushes the two
hot pixels over the white level, and the median over the pixels unclipped after
the fix is 50, not 0. -/
theorem stripe_fix_median_not_zero :
    stripe_deltas darkF brightF 5 500000 960000 0 = [-759990, -759990, 50, 100, 200] ∧
    median_int_wirth (stripe_deltas darkF brightF 5 500000 960000 0) = 50 ∧
    (List.range 5).map (stripe_fix median_int_wirth brightF 5 1 500000 960000 darkF) =
      [960040, 960040, 200050, 200050, 200050] ∧
    stripe_deltas (stripe_fix median_int_wirth brightF 5 1 500000 960000 darkF) brightF 5
      500000 960000 0 = [0, 50, 150] ∧
    median_int_wirth (stripe_deltas (stripe_fix median_int_wirth brightF 5 1 500000 960000 darkF)
      brightF 5 500000 960000 0) = 50 := by
  decide

/-- C11, amended: after the stripe fix, for every row `y < h` with at least one
unclipped pixel whose pre-fix median `m` of `bright - dark` over the unclipped
pixels satisfies `|m| ≤ 200·16`, if no sample `dark + m` of the row leaves
`0..0xFFFFF` and the shift changes no pixel of the row between clipped and
unclipped (`dark < Wd` iff `dark + m < Wd`), then the median of `bright - dark`
over the pixels of the row that are unclipped after the fix is 0. -/
theorem stripe_fix_median_zero (bright dark : Nat → Nat) (w h : Nat)
    (white_darkened white : Int) (y : Nat) (m : Int) (hy : y < h)
    (hm : m = median_int_wirth (stripe_deltas dark bright w white_darkened white y))
    (hne : stripe_deltas dark bright w white_darkened white y ≠ [])
    (habs : |m| ≤ 200 * 16)
    (hcells : ∀ x, x < w →
      0 ≤ (dark (x + y * w) : Int) + m ∧ (dark (x + y * w) : Int) + m ≤ 0xFFFFF ∧
      ((dark (x + y * w) : Int) < white ↔ (dark (x + y * w) : Int) + m < white)) :
    median_int_wirth (stripe_deltas
      (stripe_fix median_int_wirth bright w h white_darkened white dark)
      bright w white_darkened white y) = 0 := by
  have hb := abs_le.mp habs
  have hcell : ∀ x, x < w →
      stripe_fix median_int_wirth bright w h white_darkened white dark (x + y * w) =
        ((dark (x + y * w) : Int) + m).toNat := by
    intro x hx
    obtain ⟨h0, h1, _⟩ := hcells x hx
    have hdm := cell_div_mod y hx
    rw [stripe_fix_cell, hdm.1, if_pos hy]
    simp only [stripe_fix_row, ← hm]
    rw [if_neg (not_lt.mpr habs)]
    simp only [hdm.1]
    rw [if_pos ⟨trivial, by omega⟩]
    unfold stripe_shift to_uint32
    omega
  have hint : ∀ x, x < w →
      to_int32 (dark (x + y * w)) = (dark (x + y * w) : Int) ∧
      to_int32 (stripe_fix median_int_wirth bright w h white_darkened white dark (x + y * w)) =
        (dark (x + y * w) : Int) + m := by
    intro x hx
    obtain ⟨h0, h1, _⟩ := hcells x hx
    rw [hcell x hx]
    unfold to_int32
    rw [if_pos (by omega), if_pos (by omega)]
    exact ⟨rfl, by omega⟩
  have hpost : stripe_deltas (stripe_fix median_int_wirth bright w h white_darkened white dark)
      bright w white_darkened white y =
      (stripe_deltas dark bright w white_darkened white y).map (fun v => v - m) := by
    unfold stripe_deltas
    rw [List.map_map]
    have hf : (List.range w).filter (fun x =>
          decide (to_int32 (bright (x + y * w)) < white_darkened) &&
          decide (to_int32 (stripe_fix median_int_wirth bright w h white_darkened white dark
            (x + y * w)) < white)) =
        (List.range w).filter (fun x =>
          decide (to_int32 (bright (x + y * w)) < white_darkened) &&
          decide (to_int32 (dark (x + y * w)) < white)) := by
      apply List.filter_congr
      intro x hx
      have hx := List.mem_range.mp hx
      obtain ⟨_, _, h2⟩ := hcells x hx
      rw [(hint x hx).1, (hint x hx).2]
      congr 1
      exact decide_eq_decide.mpr h2.symm
    rw [hf]
    apply List.map_congr_left
    intro x hx
    have hx := List.mem_range.mp (List.mem_filter.mp hx).1
    simp only [Function.comp]
    rw [(hint x hx).1, (hint x hx).2]
    omega
  rw [hpost, median_int_wirth_sub _ _ hne, ← hm]
  omega

theorem stripe_fix_median_zero_witness :
    median_int_wirth (stripe_deltas darkG brightG 3 500000 960000 0) = 100 ∧
    median_int_wirth (stripe_deltas
      (stripe_fix median_int_wirth brightG 3 1 500000 960000 darkG)
      brightG 3 500000 960000 0) = 0 :=
  ⟨by decide, stripe_fix_median_zero brightG darkG 3 1 500000 960000 0 100 (by decide)
    (by decide) (by decide) (by decide) (by decide)⟩

/-- C20: the hand-unrolled blur is not the 7×7 stencil of its code-generation
comment. On the 13×13 buffer `auxH`, whose only non-zero cell is the 2-step
axial tap `(6+4, 6)` of the pixel `(6, 6)`, the stencil gives `1024·421/1024 = 421`
and the code gives 0, the same as on the all-zero buffer: no cell at an offset
of ±4 is read, and the weights 421, 337, 173 go to cells at offsets of ±2. -/
theorem alias_blur_misses_step4_taps :
    alias_at auxH 13 6 6 4 0 = 1024 ∧
    alias_blur_stencil auxH 13 6 6 = 421 ∧
    alias_blur_c auxH 13 6 6 = 0 ∧
    alias_blur_c (fun _ => 0) 13 6 6 = 0 ∧
    alias_blur (fun _ => false) auxH (fun _ => 0) 13 13 (6 + 6 * 13) = 0 := by
  decide

/-- C19: the dilation followed by the blur is not monotone. On a 13×13 frame
with no skipped pixel, the first-pass map `aliasLo` (4000 everywhere) is pointwise
below `aliasHi` (5000 everywhere, within the bound 65530), yet at `(6, 6)` the
filtered map is 54309 for `aliasLo` and 2350 for `aliasHi`: the sum `c = 67886`
of the blur does not fit the `uint16_t` cell and is stored modulo 65536. -/
theorem alias_filter_not_monotone :
    (∀ i, aliasLo i ≤ aliasHi i) ∧ (∀ i, aliasHi i ≤ 65530) ∧
    alias_dilate kth_smallest_int (fun _ => false) aliasLo 13 13 (6 + 6 * 13) = 4000 ∧
    alias_dilate kth_smallest_int (fun _ => false) aliasHi 13 13 (6 + 6 * 13) = 5000 ∧
    alias_blur_c (alias_dilate kth_smallest_int (fun _ => false) aliasLo 13 13) 13 6 6 = 54309 ∧
    alias_blur_c (alias_dilate kth_smallest_int (fun _ => false) aliasHi 13 13) 13 6 6 = 67886 ∧
    alias_filter kth_smallest_int (fun _ => false) aliasLo 13 13 (6 + 6 * 13) = 54309 ∧
    alias_filter kth_smallest_int (fun _ => false) aliasHi 13 13 (6 + 6 * 13) = 2350 := by
  refine ⟨fun _ => show (4000 : Nat) ≤ 5000 by decide,
    fun _ => show (5000 : Nat) ≤ 65530 by decide, ?_, ?_, ?_, ?_, ?_, ?_⟩ <;> decide

/-! ### The classification of the four row classes -/

theorem sort_step_four (a b c d : Int) :
    sort_step 0 1 [a, b, c, d] = [min a b, max a b, c, d] ∧
    sort_step 0 2 [a, b, c, d] = [min a c, b, max a c, d] ∧
    sort_step 0 3 [a, b, c, d] = [min a d, b, c, max a d] ∧
    sort_step 1 2 [a, b, c, d] = [a, min b c, max b c, d] ∧
    sort_step 1 3 [a, b, c, d] = [a, min b d, c, max b d] ∧
    sort_step 2 3 [a, b, c, d] = [a, b, min c d, max c d] := by
  unfold sort_step
  simp only [List.getD_cons_zero, List.getD_cons_succ, List.set_cons_zero, List.set_cons_succ]
  refine ⟨?_, ?_, ?_, ?_, ?_, ?_⟩ <;> split_ifs with h <;> simp <;> omega

theorem perm_min_max (a b c d : Int) :
    List.Perm [min a b, max a b, c, d] [a, b, c, d] ∧
    List.Perm [min a c, b, max a c, d] [a, b, c, d] ∧
    List.Perm [min a d, b, c, max a d] [a, b, c, d] ∧
    List.Perm [a, min b c, max b c, d] [a, b, c, d] ∧
    List.Perm [a, min b d, c, max b d] [a, b, c, d] ∧
    List.Perm [a, b, min c d, max c d] [a, b, c, d] := by
  have key : ∀ x y : Int, (min x y = x ∧ max x y = y) ∨ (min x y = y ∧ max x y = x) := by
    intro x y
    rcases le_total x y with h | h
    · exact Or.inl ⟨min_eq_left h, max_eq_right h⟩
    · exact Or.inr ⟨min_eq_right h, max_eq_left h⟩
  refine ⟨?_, ?_, ?_, ?_, ?_, ?_⟩
  · rcases key a b with ⟨e1, e2⟩ | ⟨e1, e2⟩ <;> rw [e1, e2]
    exact List.Perm.swap _ _ _
  · rcases key a c with ⟨e1, e2⟩ | ⟨e1, e2⟩ <;> rw [e1, e2]
    rw [List.perm_iff_count]
    intro x
    simp only [List.count_cons, List.count_nil]
    omega
  · rcases key a d with ⟨e1, e2⟩ | ⟨e1, e2⟩ <;> rw [e1, e2]
    rw [List.perm_iff_count]
    intro x
    simp only [List.count_cons, List.count_nil]
    omega
  · rcases key b c with ⟨e1, e2⟩ | ⟨e1, e2⟩ <;> rw [e1, e2]
    exact List.Perm.cons _ (List.Perm.swap _ _ _)
  · rcases key b d with ⟨e1, e2⟩ | ⟨e1, e2⟩ <;> rw [e1, e2]
    rw [List.perm_iff_count]
    intro x
    simp only [List.count_cons, List.count_nil]
    omega
  · rcases key c d with ⟨e1, e2⟩ | ⟨e1, e2⟩ <;> rw [e1, e2]
    exact List.Perm.cons _ (List.Perm.cons _ (List.Perm.swap _ _ _))

/-- The crude sort of `identify_bright_and_dark_fields` sorts its four values. -/
theorem sorted_bright_sorted (a b c d : Int) :
    ∃ s1 s2 s3 s4 : Int, sorted_bright [a, b, c, d] = [s1, s2, s3, s4] ∧
      List.Perm [s1, s2, s3, s4] [a, b, c, d] ∧ s1 ≤ s2 ∧ s2 ≤ s3 ∧ s3 ≤ s4 := by
  have e : sorted_bright [a, b, c, d] =
      [min (min (min a b) c) d,
       min (min (max a b) (max (min a b) c)) (max (min (min a b) c) d),
       min (max (max a b) (max (min a b) c))
         (max (min (max a b) (max (min a b) c)) (max (min (min a b) c) d)),
       max (max (max a b) (max (min a b) c))
         (max (min (max a b) (max (min a b) c)) (max (min (min a b) c) d))] := by
    unfold sorted_bright
    rw [(sort_step_four _ _ _ _).1, (sort_step_four _ _ _ _).2.1, (sort_step_four _ _ _ _).2.2.1,
      (sort_step_four _ _ _ _).2.2.2.1, (sort_step_four _ _ _ _).2.2.2.2.1,
      (sort_step_four _ _ _ _).2.2.2.2.2]
  refine ⟨_, _, _, _, e, ?_, ?_, ?_, ?_⟩
  · have h1 := (perm_min_max a b c d).1
    have h2 := (perm_min_max (min a b) (max a b) c d).2.1
    have h3 := (perm_min_max (min (min a b) c) (max a b) (max (min a b) c) d).2.2.1
    have h4 := (perm_min_max (min (min (min a b) c) d) (max a b) (max (min a b) c)
      (max (min (min a b) c) d)).2.2.2.1
    have h5 := (perm_min_max (min (min (min a b) c) d) (min (max a b) (max (min a b) c))
      (max (max a b) (max (min a b) c)) (max (min (min a b) c) d)).2.2.2.2.1
    have h6 := (perm_min_max (min (min (min a b) c) d)
      (min (min (max a b) (max (min a b) c)) (max (min (min a b) c) d))
      (max (max a b) (max (min a b) c))
      (max (min (max a b) (max (min a b) c)) (max (min (min a b) c) d))).2.2.2.2.2
    exact h6.trans (h5.trans (h4.trans (h3.trans (h2.trans h1))))
  · omega
  · omega
  · omega
theorem count_true_is_bright_of_raw (a b c d : Int) :
    count_true (is_bright_of_raw [a, b, c, d]) =
      List.countP (fun r => decide (r > median_bright [a, b, c, d])) [a, b, c, d] := by
  have e : List.range 4 = [0, 1, 2, 3] := by decide
  unfold count_true is_bright_of_raw
  rw [e]
  simp only [List.map, List.getD_cons_zero, List.getD_cons_succ]
  by_cases ha : a > median_bright [a, b, c, d] <;>
    by_cases hb : b > median_bright [a, b, c, d] <;>
    by_cases hc : c > median_bright [a, b, c, d] <;>
    by_cases hd : d > median_bright [a, b, c, d] <;>
    simp [ha, hb, hc, hd, List.countP_cons, List.filter]

theorem is_bright_at_of_raw (a b c d : Int) (i : Nat) (hi : i < 4) :
    (is_bright_at (is_bright_of_raw [a, b, c, d]) i = 1 ↔
      [a, b, c, d].getD i 0 > median_bright [a, b, c, d]) ∧
    (is_bright_at (is_bright_of_raw [a, b, c, d]) i = 0 ↔
      ¬ [a, b, c, d].getD i 0 > median_bright [a, b, c, d]) := by
  have e : List.range 4 = [0, 1, 2, 3] := by decide
  unfold is_bright_at is_bright_of_raw
  rw [e]
  simp only [List.map, List.getD_cons_zero, List.getD_cons_succ]
  have h4 : i = 0 ∨ i = 1 ∨ i = 2 ∨ i = 3 := by omega
  rcases h4 with rfl | rfl | rfl | rfl <;>
    simp only [List.getD_cons_zero, List.getD_cons_succ] <;>
    split_ifs with h <;> simp [h]

/-- C22: for four non-negative rank values `r0..r3`, the crude sort yields their
sorted values `s1 ≤ s2 ≤ s3 ≤ s4`; class `i` is marked bright iff
`r_i > (s2+s3)/2` (integer division); at most two classes are marked bright,
exactly two iff `s2 < s3`, and then the bright classes are exactly the classes
whose value is at least `s3`, the two largest values. -/
theorem is_bright_two_largest (r0 r1 r2 r3 : Int) (h0 : 0 ≤ r0) (h1 : 0 ≤ r1) (h2 : 0 ≤ r2)
    (h3 : 0 ≤ r3) :
    ∃ s1 s2 s3 s4 : Int, sorted_bright [r0, r1, r2, r3] = [s1, s2, s3, s4] ∧
      List.Perm [s1, s2, s3, s4] [r0, r1, r2, r3] ∧ s1 ≤ s2 ∧ s2 ≤ s3 ∧ s3 ≤ s4 ∧
      (∀ i, i < 4 →
        (is_bright_at (is_bright_of_raw [r0, r1, r2, r3]) i = 1 ↔
          [r0, r1, r2, r3].getD i 0 > (s2 + s3) / 2) ∧
        (is_bright_at (is_bright_of_raw [r0, r1, r2, r3]) i = 0 ↔
          ¬ [r0, r1, r2, r3].getD i 0 > (s2 + s3) / 2)) ∧
      count_true (is_bright_of_raw [r0, r1, r2, r3]) ≤ 2 ∧
      (count_true (is_bright_of_raw [r0, r1, r2, r3]) = 2 ↔ s2 < s3) ∧
      (s2 < s3 → ∀ i, i < 4 →
        (is_bright_at (is_bright_of_raw [r0, r1, r2, r3]) i = 1 ↔
          s3 ≤ [r0, r1, r2, r3].getD i 0)) := by
  obtain ⟨s1, s2, s3, s4, e, hp, h12, h23, h34⟩ := sorted_bright_sorted r0 r1 r2 r3
  have hmem : ∀ v, v ∈ [r0, r1, r2, r3] → v = s1 ∨ v = s2 ∨ v = s3 ∨ v = s4 := by
    intro v hv
    have := hp.mem_iff.mpr hv
    simpa using this
  have hs1 : 0 ≤ s1 := by
    have : s1 ∈ [r0, r1, r2, r3] := hp.mem_iff.mp (by simp)
    simp only [List.mem_cons, List.mem_singleton, List.mem_nil_iff, or_false] at this
    omega
  have hmed : median_bright [r0, r1, r2, r3] = (s2 + s3) / 2 := by
    unfold median_bright
    rw [e]
    simp only [List.getD_cons_zero, List.getD_cons_succ]
    exact Int.tdiv_eq_ediv (by omega) (by decide)
  have hcount : count_true (is_bright_of_raw [r0, r1, r2, r3]) =
      (if s3 > (s2 + s3) / 2 then 1 else 0) + (if s4 > (s2 + s3) / 2 then 1 else 0) := by
    rw [count_true_is_bright_of_raw, hmed, ← hp.countP_eq]
    have f1 : ¬ s1 > (s2 + s3) / 2 := by omega
    have f2 : ¬ s2 > (s2 + s3) / 2 := by omega
    simp only [List.countP_cons, List.countP_nil, f1, f2, decide_False, decide_eq_true_eq]
    simp
    exact Nat.add_comm _ _
  have hget : ∀ i, i < 4 → [r0, r1, r2, r3].getD i 0 ∈ [r0, r1, r2, r3] := by
    intro i hi
    have h4 : i = 0 ∨ i = 1 ∨ i = 2 ∨ i = 3 := by omega
    rcases h4 with rfl | rfl | rfl | rfl <;> simp
  refine ⟨s1, s2, s3, s4, e, hp, h12, h23, h34, ?_, ?_, ?_, ?_⟩
  · intro i hi
    rw [← hmed]
    exact is_bright_at_of_raw r0 r1 r2 r3 i hi
  · rw [hcount]
    split_ifs <;> omega
  · rw [hcount]
    constructor
    · intro h
      split_ifs at h <;> omega
    · intro h
      rw [if_pos (by omega), if_pos (by omega)]
  · intro hlt i hi
    rw [(is_bright_at_of_raw r0 r1 r2 r3 i hi).1, hmed]
    rcases hmem _ (hget i hi) with h | h | h | h <;> rw [h] <;> constructor <;> intro _ <;> omega

/-- C22, witness: the rank values 3000, 500, 480, 2900 (classes 0 and 3 bright). -/
theorem is_bright_two_largest_witness :
    is_bright_of_raw [3000, 500, 480, 2900] = [1, 0, 0, 1] ∧
    ∃ s1 s2 s3 s4 : Int, sorted_bright [3000, 500, 480, 2900] = [s1, s2, s3, s4] ∧
      List.Perm [s1, s2, s3, s4] [3000, 500, 480, 2900] ∧ s1 ≤ s2 ∧ s2 ≤ s3 ∧ s3 ≤ s4 ∧
      (∀ i, i < 4 →
        (is_bright_at (is_bright_of_raw [3000, 500, 480, 2900]) i = 1 ↔
          [3000, 500, 480, 2900].getD i 0 > (s2 + s3) / 2) ∧
        (is_bright_at (is_bright_of_raw [3000, 500, 480, 2900]) i = 0 ↔
          ¬ [3000, 500, 480, 2900].getD i 0 > (s2 + s3) / 2)) ∧
      count_true (is_bright_of_raw [3000, 500, 480, 2900]) ≤ 2 ∧
      (count_true (is_bright_of_raw [3000, 500, 480, 2900]) = 2 ↔ s2 < s3) ∧
      (s2 < s3 → ∀ i, i < 4 →
        (is_bright_at (is_bright_of_raw [3000, 500, 480, 2900]) i = 1 ↔
          s3 ≤ [3000, 500, 480, 2900].getD i 0)) :=
  ⟨by decide, is_bright_two_largest 3000 500 480 2900 (by decide) (by decide) (by decide)
    (by decide)⟩

/-! ### The overexposed map -/

/-- C21, counterexample: in the 16×16 clipped patch of the test frame
(`Wb' = 500000`, `Wd = 960000`) the pixel `(10, 10)`, whose 3×3 neighbourhood is
clipped, holds 100 before the blur and 676 after it. -/
theorem overexposed_patch_not_100 :
    overexposed_map darkP brightP 24 24 500000 960000 (10 + 10 * 24) = 100 ∧
    (∀ dx dy : Nat, dx < 3 → dy < 3 →
      overexposed_map darkP brightP 24 24 500000 960000 (9 + dx + (9 + dy) * 24) = 100) ∧
    overexposed darkP brightP 24 24 500000 960000 (10 + 10 * 24) = 676 := by
  refine ⟨by decide, ?_, by decide⟩
  intro dx dy hx hy
  have h1 : dx = 0 ∨ dx = 1 ∨ dx = 2 := by omega
  have h2 : dy = 0 ∨ dy = 1 ∨ dy = 2 := by omega
  rcases h1 with rfl | rfl | rfl <;> rcases h2 with rfl | rfl | rfl <;> decide

/-- C21, amended: for every pixel `(x, y)` with `3 ≤ x < w-3` and `3 ≤ y < h-3`
whose whole 3×3 neighbourhood consists of clipped pixels (`bright >= Wb'` or
`dark >= Wd`, compared as unsigned values), the value of `overexposed[x, y]`
after the blur is `100 + 400·820/1024 + 400·657/1024 = 676`. -/
theorem overexposed_patch (dark bright : Nat → Nat) (w h : Nat) (white_darkened white : Int)
    (x y : Nat) (hx : 3 ≤ x) (hx2 : x + 3 < w) (hy : 3 ≤ y) (hy2 : y + 3 < h)
    (hclip : ∀ dx dy : Nat, dx < 3 → dy < 3 →
      to_uint32 white_darkened ≤ bright (x - 1 + dx + (y - 1 + dy) * w) ∨
      to_uint32 white ≤ dark (x - 1 + dx + (y - 1 + dy) * w)) :
    overexposed dark bright w h white_darkened white (x + y * w) = 676 := by
  have hw : w ≠ 0 := by omega
  have hm : ∀ dx dy : Nat, dx < 3 → dy < 3 →
      overexposed_map dark bright w h white_darkened white (x - 1 + dx + (y - 1 + dy) * w)
        = 100 := by
    intro dx dy hdx hdy
    have hd := cell_div_mod (y - 1 + dy) (show x - 1 + dx < w by omega)
    unfold overexposed_map
    rw [if_pos ⟨hw, by rw [hd.1]; omega, hclip dx dy hdx hdy⟩]
  have hat : ∀ dx dy : Int, -1 ≤ dx → dx ≤ 1 → -1 ≤ dy → dy ≤ 1 →
      alias_at (overexposed_map dark bright w h white_darkened white) w x y dx dy = 100 := by
    intro dx dy h1 h2 h3 h4
    unfold alias_at
    have e1 : ((x : Int) + dx).toNat = x - 1 + (dx + 1).toNat := by omega
    have e2 : ((y : Int) + dy).toNat = y - 1 + (dy + 1).toNat := by omega
    rw [e1, e2, hm _ _ (by omega) (by omega)]
    rfl
  have hd := cell_div_mod y (show x < w by omega)
  unfold overexposed overexposed_blur
  rw [if_pos ⟨hw, by rw [hd.2]; exact hx, by rw [hd.2]; exact hx2, by rw [hd.1]; exact hy,
    by rw [hd.1]; exact hy2⟩, hd.1, hd.2]
  unfold overexposed_blur_c
  simp only [hat 0 0 (by decide) (by decide) (by decide) (by decide),
    hat 0 (-1) (by decide) (by decide) (by decide) (by decide),
    hat (-1) 0 (by decide) (by decide) (by decide) (by decide),
    hat 1 0 (by decide) (by decide) (by decide) (by decide),
    hat 0 1 (by decide) (by decide) (by decide) (by decide),
    hat (-1) (-1) (by decide) (by decide) (by decide) (by decide),
    hat 1 (-1) (by decide) (by decide) (by decide) (by decide),
    hat (-1) 1 (by decide) (by decide) (by decide) (by decide),
    hat 1 1 (by decide) (by decide) (by decide) (by decide)]
  decide

/-- C21, witness: the pixel `(10, 10)` of the test frame. -/
theorem overexposed_patch_witness :
    overexposed darkP brightP 24 24 500000 960000 (10 + 10 * 24) = 676 := by
  refine overexposed_patch darkP brightP 24 24 500000 960000 10 10 (by decide) (by decide)
    (by decide) (by decide) ?_
  intro dx dy hx hy
  have h1 : dx = 0 ∨ dx = 1 ∨ dx = 2 := by omega
  have h2 : dy = 0 ∨ dy = 1 ∨ dy = 2 := by omega
  rcases h1 with rfl | rfl | rfl <;> rcases h2 with rfl | rfl | rfl <;> decide

/-! ### bin_search -/

theorem int_wrap_eq {v : Int} (h1 : -2147483648 ≤ v) (h2 : v < 2147483648) : int_wrap v = v := by
  unfold int_wrap
  omega

/-- Inside `[-2^30, 2^30]` the sum `lo+hi` fits an `int`, and `k+1` nested calls
are enough for a range of at most `2^k` values. -/
theorem bin_search_fuel_eq (crit : Int → Int) :
    ∀ (k n : Nat) (lo hi : Int), k < n → -1073741824 ≤ lo → hi ≤ 1073741824 →
      hi - lo ≤ 2 ^ k → bin_search_fuel n lo hi crit = some (bin_search lo hi crit) := by
  intro k
  induction k with
  | zero =>
    intro n lo hi hn _ _ hr
    obtain ⟨n, rfl⟩ : ∃ n', n = n' + 1 := ⟨n - 1, by omega⟩
    have hb : lo ≥ hi - 1 := by
      simp only [pow_zero] at hr
      omega
    rw [bin_search, bin_search_fuel]
    simp only [hb, if_true]
  | succ k ih =>
    intro n lo hi hn hlo hhi hr
    obtain ⟨n, rfl⟩ : ∃ n', n = n' + 1 := ⟨n - 1, by omega⟩
    rw [bin_search, bin_search_fuel]
    by_cases hb : lo ≥ hi - 1
    · simp only [hb, if_true]
    · have hm := tdiv_two_bounds (lo + hi)
      have hp : (2 : Int) ^ (k + 1) = 2 * 2 ^ k := by rw [pow_succ]; ring
      rw [int_wrap_eq (by omega) (by omega)]
      simp only [hb, if_false]
      by_cases hc0 : crit (Int.tdiv (lo + hi) 2) = 0
      · simp only [hc0, if_true]
      · simp only [hc0, if_false]
        by_cases hc1 : crit (Int.tdiv (lo + hi) 2) > 0
        · simp only [hc1, if_true]
          exact ih n _ _ (by omega) (by omega) hhi (by omega)
        · simp only [hc1, if_false]
          exact ih n _ _ (by omega) hlo (by omega) (by omega)

/-- With a sign change at `t` (`crit > 0` below `t`, `crit < 0` above, and
`crit t ≥ 0`), `bin_search` returns `t`. -/
theorem bin_search_crossing (crit : Int → Int) (t : Int) (ht : 0 ≤ crit t) :
    ∀ (n : Nat) (lo hi : Int), (hi - lo).toNat ≤ n → lo ≤ t → t < hi →
      (∀ g, lo ≤ g → g < t → crit g > 0) → (∀ g, t < g → g < hi → crit g < 0) →
      bin_search lo hi crit = t := by
  intro n
  induction n with
  | zero =>
    intro lo hi h h1 h2 _ _
    omega
  | succ n ih =>
    intro lo hi h h1 h2 hpos hneg
    rw [bin_search]
    by_cases hb : lo ≥ hi - 1
    · simp only [hb, if_true]
      omega
    · have hm := tdiv_two_bounds (lo + hi)
      simp only [hb, if_false]
      have hlt : Int.tdiv (lo + hi) 2 < t → crit (Int.tdiv (lo + hi) 2) > 0 :=
        fun h => hpos _ (by omega) h
      have hgt : t < Int.tdiv (lo + hi) 2 → crit (Int.tdiv (lo + hi) 2) < 0 :=
        fun h => hneg _ h (by omega)
      by_cases hc0 : crit (Int.tdiv (lo + hi) 2) = 0
      · simp only [hc0, if_true]
        by_contra hne
        rcases lt_or_gt_of_ne hne with h3 | h3
        · have := hlt h3
          omega
        · have := hgt h3
          omega
      · simp only [hc0, if_false]
        by_cases hc1 : crit (Int.tdiv (lo + hi) 2) > 0
        · simp only [hc1, if_true]
          have hle : Int.tdiv (lo + hi) 2 ≤ t := by
            by_contra h3
            have := hgt (by omega)
            omega
          exact ih _ _ (by omega) hle h2 (fun g h4 h5 => hpos g (by omega) h5) hneg
        · simp only [hc1, if_false]
          have hlt2 : t < Int.tdiv (lo + hi) 2 := by
            by_contra h3
            rcases eq_or_lt_of_le (not_lt.mp h3) with h4 | h4
            · rw [h4] at hc0 hc1
              omega
            · have := hlt h4
              omega
          exact ih _ _ (by omega) h1 hlt2 hpos (fun g h4 h5 => hneg g h4 (by omega))

theorem bin_search_fuel_cycle :
    ∀ (n : Nat) (lo : Int), -1073741825 ≤ lo → lo < 1073741824 →
      bin_search_fuel n lo 2147483647 (crit_sign 1073741824) = none := by
  intro n
  induction n with
  | zero =>
    intro lo _ _
    rfl
  | succ n ih =>
    intro lo h1 h2
    rw [bin_search_fuel]
    have hb : ¬ lo ≥ 2147483647 - 1 := by omega
    simp only [hb, if_false]
    have hm := tdiv_two_bounds (int_wrap (lo + 2147483647))
    have hw : (1 ≤ lo → int_wrap (lo + 2147483647) = lo - 2147483649) ∧
        (lo ≤ 0 → int_wrap (lo + 2147483647) = lo + 2147483647) := by
      unfold int_wrap
      constructor <;> intro _ <;> omega
    have hlt : Int.tdiv (int_wrap (lo + 2147483647)) 2 < 1073741824 ∧
        -1073741825 ≤ Int.tdiv (int_wrap (lo + 2147483647)) 2 := by
      rcases le_or_lt 1 lo with h | h
      · rw [hw.1 h] at hm ⊢
        omega
      · rw [hw.2 (by omega)] at hm ⊢
        omega
    have hc : crit_sign 1073741824 (Int.tdiv (int_wrap (lo + 2147483647)) 2) = 1 := by
      unfold crit_sign
      rw [if_pos hlt.1]
    simp only [hc]
    exact ih _ hlt.2 hlt.1

/-- C23, counterexample: with `lo = 2^30` and `hi = 2^31 - 1` the sum `lo+hi`
does not fit an `int`; computed modulo 2^32 the first midpoint is -536870912.
A criterion that is 0 there makes `bin_search` return -536870912, below `lo`;
with the criterion that changes sign at `2^30` no bound on the number of nested
calls is enough. -/
theorem bin_search_int_overflow :
    int_wrap (1073741824 + 2147483647) = -1073741825 ∧
    bin_search_fuel 1 1073741824 2147483647 (fun _ => 0) = some (-536870912) ∧
    ¬ ((1073741824 : Int) ≤ -536870912) ∧
    ∀ n, bin_search_fuel n 1073741824 2147483647 (crit_sign 1073741824) = none := by
  refine ⟨by decide, by decide, by decide, ?_⟩
  intro n
  cases n with
  | zero => rfl
  | succ n =>
    rw [bin_search_fuel]
    have h1 : ¬ (1073741824 : Int) ≥ 2147483647 - 1 := by decide
    have h2 : Int.tdiv (int_wrap (1073741824 + 2147483647)) 2 = -536870912 := by decide
    have h3 : crit_sign 1073741824 (-536870912) = 1 := by decide
    simp only [h1, if_false, h2, h3]
    exact bin_search_fuel_cycle n _ (by decide) (by decide)

/-- C23, amended: for every criterion and all `int` values `lo < hi` with
`-2^30 ≤ lo` and `hi ≤ 2^30` (so that `lo+hi` fits an `int`), `bin_search`
returns after at most `k+1` nested calls when `hi - lo ≤ 2^k`, and its result
`r` satisfies `lo ≤ r < hi`; the gain found by `match_exposures` comes from
`bin_search(100, 9000, match_test)`, within 15 nested calls, and satisfies
`100 ≤ G < 9000`. -/
theorem bin_search_terminates (crit : Int → Int) (lo hi : Int) (h : lo < hi)
    (hlo : -1073741824 ≤ lo) (hhi : hi ≤ 1073741824) :
    (∃ r, lo ≤ r ∧ r < hi ∧ r = bin_search lo hi crit ∧
      ∀ k n : Nat, hi - lo ≤ 2 ^ k → k < n → bin_search_fuel n lo hi crit = some r) ∧
    (∀ (median_int_wirth : List Int → Int) (buf : Nat → Nat) (w h y1 : Nat)
      (is_bright : List Int) (B Wd Wb : Int),
      ∃ c : Int → Int,
        bin_search_fuel 15 100 9000 c =
          some (match_exposures median_int_wirth buf w h y1 is_bright B Wd Wb).gain ∧
        100 ≤ (match_exposures median_int_wirth buf w h y1 is_bright B Wd Wb).gain ∧
        (match_exposures median_int_wirth buf w h y1 is_bright B Wd Wb).gain < 9000) := by
  constructor
  · obtain ⟨h1, h2⟩ := bin_search_bounds crit _ lo hi le_rfl
    refine ⟨_, h1, ?_, rfl, ?_⟩
    · rw [le_max_iff] at h2
      omega
    · intro k n hk hn
      exact bin_search_fuel_eq crit k n lo hi hn hlo hhi hk
  · intro med buf w h y1 is_bright B Wd Wb
    refine ⟨match_test med
      (quick_interp buf w h is_bright (match_black B) (match_clip B (min Wd Wb)))
      (avg_bright buf w h is_bright (match_black B) (match_clip B (min Wd Wb)))
      (match_clip B (min Wd Wb)) w h y1, ?_, ?_⟩
    · exact bin_search_fuel_eq _ 14 15 100 9000 (by decide) (by decide) (by decide) (by decide)
    · obtain ⟨h1, h2⟩ := bin_search_bounds (match_test med
        (quick_interp buf w h is_bright (match_black B) (match_clip B (min Wd Wb)))
        (avg_bright buf w h is_bright (match_black B) (match_clip B (min Wd Wb)))
        (match_clip B (min Wd Wb)) w h y1) _ 100 9000 le_rfl
      refine ⟨h1, ?_⟩
      rw [le_max_iff] at h2
      show bin_search 100 9000 _ < 9000
      omega

/-- C23, witness: the call `bin_search(100, 9000, crit)` with a criterion that is
always negative returns 100 at the 14th nested call. -/
theorem bin_search_terminates_witness :
    bin_search_fuel 14 100 9000 (fun _ => -1) = some 100 ∧
    ∃ r, (100 : Int) ≤ r ∧ r < 9000 ∧ r = bin_search 100 9000 (fun _ => -1) ∧
      ∀ k n : Nat, (9000 : Int) - 100 ≤ 2 ^ k → k < n →
        bin_search_fuel n 100 9000 (fun _ => -1) = some r :=
  ⟨by decide, (bin_search_terminates (fun _ => -1) 100 9000 (by decide) (by decide)
    (by decide)).1⟩

/-- C24, counterexample: `lo = 2^30`, `hi = 2^31 - 1`, and a criterion with its
zero at `t = 2^30 + 100`, positive below `t` and negative above `t` inside
`[lo, hi)` (and 0 for negative arguments): the sum `lo+hi` computed in `int` gives
the first midpoint -536870912, which `bin_search` returns instead of `t`. -/
theorem bin_search_overflow_misses_zero :
    (∀ g : Int, 1073741824 ≤ g → g < 1073741924 →
      (if g < 0 then 0 else crit_sign 1073741924 g) > 0) ∧
    (if (1073741924 : Int) < 0 then 0 else crit_sign 1073741924 1073741924) = 0 ∧
    (∀ g : Int, 1073741924 < g → g < 2147483647 →
      (if g < 0 then 0 else crit_sign 1073741924 g) < 0) ∧
    ∀ n, bin_search_fuel (n + 1) 1073741824 2147483647
      (fun g => if g < 0 then 0 else crit_sign 1073741924 g) = some (-536870912) := by
  refine ⟨?_, by decide, ?_, ?_⟩
  · intro g h1 h2
    rw [if_neg (by omega)]
    unfold crit_sign
    rw [if_pos h2]
    decide
  · intro g h1 h2
    rw [if_neg (by omega)]
    unfold crit_sign
    rw [if_neg (by omega), if_neg (by omega)]
    decide
  · intro n
    rw [bin_search_fuel]
    have h1 : ¬ (1073741824 : Int) ≥ 2147483647 - 1 := by decide
    have h2 : Int.tdiv (int_wrap (1073741824 + 2147483647)) 2 = -536870912 := by decide
    have h3 : (if (-536870912 : Int) < 0 then (0 : Int)
        else crit_sign 1073741924 (-536870912)) = 0 := by decide
    simp only [h1, if_false, h2, h3, if_true]

/-- C24, amended: for all `int` values `lo < hi` with `-2^30 ≤ lo` and
`hi ≤ 2^30` and every criterion for which there is `t` with `lo ≤ t < hi`,
`crit(g) > 0` for `lo ≤ g < t` and `crit(g) < 0` for `t < g < hi`:
if `crit(t) = 0`, or if `crit(t) > 0` (no zero, `t` the largest gain judged too
low), then `bin_search(lo, hi, crit)` returns `t`. -/
theorem bin_search_zero_crossing (crit : Int → Int) (lo hi t : Int)
    (hlo : -1073741824 ≤ lo) (hhi : hi ≤ 1073741824) (h1 : lo ≤ t) (h2 : t < hi)
    (hpos : ∀ g, lo ≤ g → g < t → crit g > 0) (hneg : ∀ g, t < g → g < hi → crit g < 0)
    (ht : crit t = 0 ∨ crit t > 0) :
    bin_search lo hi crit = t ∧
    ∀ k n : Nat, hi - lo ≤ 2 ^ k → k < n → bin_search_fuel n lo hi crit = some t := by
  have key : bin_search lo hi crit = t :=
    bin_search_crossing crit t (by omega) _ lo hi le_rfl h1 h2 hpos hneg
  refine ⟨key, ?_⟩
  intro k n hk hn
  rw [bin_search_fuel_eq crit k n lo hi hn hlo hhi hk, key]

/-- C24, witness: the call `bin_search(100, 9000, crit)` with the sign change at
1600. -/
theorem bin_search_zero_crossing_witness :
    bin_search_fuel 15 100 9000 (crit_sign 1600) = some 1600 :=
  (bin_search_zero_crossing (crit_sign 1600) 100 9000 1600 (by decide) (by decide) (by decide)
    (by decide)
    (fun g _ h => by unfold crit_sign; rw [if_pos h]; decide)
    (fun g h _ => by unfold crit_sign; rw [if_neg (by omega), if_neg (by omega)]; decide)
    (Or.inl (by decide))).2 14 15 (by decide) (by decide)

/-! ### The offset and the last probe of the search -/

theorem bin_search_step (crit : Int → Int) (lo hi m : Int) (prev : Option Int)
    (hb : ¬ lo ≥ hi - 1) (hm : Int.tdiv (lo + hi) 2 = m) :
    (crit m > 0 → bin_search lo hi crit = bin_search m hi crit ∧
      bin_search_probe lo hi crit prev = bin_search_probe m hi crit (some m)) ∧
    (crit m < 0 → bin_search lo hi crit = bin_search lo m crit ∧
      bin_search_probe lo hi crit prev = bin_search_probe lo m crit (some m)) := by
  constructor
  · intro hc
    have h0 : ¬ crit m = 0 := by omega
    constructor
    · rw [bin_search]
      simp only [hb, if_false, hm, h0, hc, if_true]
    · rw [bin_search_probe]
      simp only [hb, if_false, hm, h0, hc, if_true]
  · intro hc
    have h0 : ¬ crit m = 0 := by omega
    have h1 : ¬ crit m > 0 := by omega
    constructor
    · rw [bin_search]
      simp only [hb, if_false, hm, h0, h1]
    · rw [bin_search_probe]
      simp only [hb, if_false, hm, h0, h1]

theorem bin_search_base (crit : Int → Int) (lo hi : Int) (prev : Option Int)
    (hb : lo ≥ hi - 1) :
    bin_search lo hi crit = lo ∧ bin_search_probe lo hi crit prev = prev := by
  constructor
  · rw [bin_search]
    simp only [hb, if_true]
  · rw [bin_search_probe]
    simp only [hb, if_true]

theorem match_clip_frameM : match_clip 131072 960000 = 46627 := by
  have h1 : Int.tdiv 131072 16 = 8192 := by decide
  have h2 : Int.tdiv 960000 16 = 60000 := by decide
  unfold match_clip c_trunc
  rw [h1, h2]
  norm_num [Int.floor_eq_iff]

theorem avg_bright_frameM :
    avg_bright frameM 6 14 [1, 1, 0, 0] 8192 46627 = some ((16800 : Int) : ℚ) := by
  have hs : (avg_bright_samples frameM 6 14 [1, 1, 0, 0] 8192 46627).sum = 403200 := by
    decide
  have hl : (avg_bright_samples frameM 6 14 [1, 1, 0, 0] 8192 46627).length = 24 := by
    decide
  unfold avg_bright
  simp only [hs, hl]
  norm_num

/-- The two groups of residuals of `match_test(gain)` on `frameM`: the group
below the average holds the two samples of row 0 and the three samples of
column 0, the other group holds the three samples of column 3. -/
theorem match_bufs_frameM (g : Int) :
    match_bufs (quick_interp frameM 6 14 [1, 1, 0, 0] 8192 46627) (some ((16800 : Int) : ℚ))
      46627 6 14 0 g =
      ([Int.tdiv (0 * 100) g - 0, Int.tdiv (0 * 100) g - 0, Int.tdiv (1600 * 100) g - 100,
        Int.tdiv (1600 * 100) g - 100, Int.tdiv (1600 * 100) g - 100],
       [Int.tdiv (32000 * 100) g - 1995, Int.tdiv (32000 * 100) g - 1995,
        Int.tdiv (32000 * 100) g - 1995]) := by
  have hu : (match_samples 6 14 0).filter (fun p =>
      decide ((quick_interp frameM 6 14 [1, 1, 0, 0] 8192 46627 p.1 p.2).2 < 46627)) =
      [(0, 0), (3, 0), (0, 3), (3, 3), (0, 6), (3, 6), (0, 9), (3, 9)] := by decide
  have hl : ([(0, 0), (3, 0), (0, 3), (3, 3), (0, 6), (3, 6), (0, 9), (3, 9)] :
      List (Nat × Nat)).filter (fun p =>
      decide ((quick_interp frameM 6 14 [1, 1, 0, 0] 8192 46627 p.1 p.2).2 < (16800 : Int))) =
      [(0, 0), (3, 0), (0, 3), (0, 6), (0, 9)] := by decide
  have hr : ([(0, 0), (3, 0), (0, 3), (3, 3), (0, 6), (3, 6), (0, 9), (3, 9)] :
      List (Nat × Nat)).filter (fun p =>
      !decide ((quick_interp frameM 6 14 [1, 1, 0, 0] 8192 46627 p.1 p.2).2 < (16800 : Int))) =
      [(3, 3), (3, 6), (3, 9)] := by decide
  have q00 : quick_interp frameM 6 14 [1, 1, 0, 0] 8192 46627 0 0 = (0, 0) := by decide
  have q30 : quick_interp frameM 6 14 [1, 1, 0, 0] 8192 46627 3 0 = (0, 0) := by decide
  have q03 : quick_interp frameM 6 14 [1, 1, 0, 0] 8192 46627 0 3 = (100, 1600) := by decide
  have q06 : quick_interp frameM 6 14 [1, 1, 0, 0] 8192 46627 0 6 = (100, 1600) := by decide
  have q09 : quick_interp frameM 6 14 [1, 1, 0, 0] 8192 46627 0 9 = (100, 1600) := by decide
  have q33 : quick_interp frameM 6 14 [1, 1, 0, 0] 8192 46627 3 3 = (1995, 32000) := by decide
  have q36 : quick_interp frameM 6 14 [1, 1, 0, 0] 8192 46627 3 6 = (1995, 32000) := by decide
  have q39 : quick_interp frameM 6 14 [1, 1, 0, 0] 8192 46627 3 9 = (1995, 32000) := by decide
  unfold match_bufs
  simp only [lt_avg_int, hu, hl, hr, List.map, q00, q30, q03, q06, q09, q33, q36, q39]
theorem match_test_frameM (g : Int) :
    match_test median_int_wirth (quick_interp frameM 6 14 [1, 1, 0, 0] 8192 46627)
      (some ((16800 : Int) : ℚ)) 46627 6 14 0 g =
      median_int_wirth [Int.tdiv (32000 * 100) g - 1995, Int.tdiv (32000 * 100) g - 1995,
        Int.tdiv (32000 * 100) g - 1995] -
      median_int_wirth [Int.tdiv (0 * 100) g - 0, Int.tdiv (0 * 100) g - 0,
        Int.tdiv (1600 * 100) g - 100, Int.tdiv (1600 * 100) g - 100,
        Int.tdiv (1600 * 100) g - 100] ∧
    match_test_avg_delta median_int_wirth (quick_interp frameM 6 14 [1, 1, 0, 0] 8192 46627)
      (some ((16800 : Int) : ℚ)) 46627 6 14 0 g =
      Int.tdiv (median_int_wirth [Int.tdiv (32000 * 100) g - 1995,
        Int.tdiv (32000 * 100) g - 1995, Int.tdiv (32000 * 100) g - 1995] +
      median_int_wirth [Int.tdiv (0 * 100) g - 0, Int.tdiv (0 * 100) g - 0,
        Int.tdiv (1600 * 100) g - 100, Int.tdiv (1600 * 100) g - 100,
        Int.tdiv (1600 * 100) g - 100]) 2 := by
  unfold match_test match_test_avg_delta
  rw [match_bufs_frameM]
  exact ⟨rfl, rfl⟩

/-- The search of `match_exposures` on `frameM`: thirteen probes, the last one
at 1605 (criterion -1), and the result 1604 (criterion +1). -/
theorem bin_search_frameM :
    bin_search 100 9000 (match_test median_int_wirth (quick_interp frameM 6 14 [1, 1, 0, 0] 8192 46627)
      (some ((16800 : Int) : ℚ)) 46627 6 14 0) = 1604 ∧
    bin_search_probe 100 9000 (match_test median_int_wirth (quick_interp frameM 6 14 [1, 1, 0, 0] 8192 46627)
      (some ((16800 : Int) : ℚ)) 46627 6 14 0) none = some 1605 := by
  have c4550 : (match_test median_int_wirth (quick_interp frameM 6 14 [1, 1, 0, 0] 8192 46627) (some ((16800 : Int) : ℚ)) 46627 6 14 0) 4550 = -1227 := by
    rw [(match_test_frameM 4550).1]
    decide
  have c2325 : (match_test median_int_wirth (quick_interp frameM 6 14 [1, 1, 0, 0] 8192 46627) (some ((16800 : Int) : ℚ)) 46627 6 14 0) 2325 = -587 := by
    rw [(match_test_frameM 2325).1]
    decide
  have c1212 : (match_test median_int_wirth (quick_interp frameM 6 14 [1, 1, 0, 0] 8192 46627) (some ((16800 : Int) : ℚ)) 46627 6 14 0) 1212 = 613 := by
    rw [(match_test_frameM 1212).1]
    decide
  have c1768 : (match_test median_int_wirth (quick_interp frameM 6 14 [1, 1, 0, 0] 8192 46627) (some ((16800 : Int) : ℚ)) 46627 6 14 0) 1768 = -176 := by
    rw [(match_test_frameM 1768).1]
    decide
  have c1490 : (match_test median_int_wirth (quick_interp frameM 6 14 [1, 1, 0, 0] 8192 46627) (some ((16800 : Int) : ℚ)) 46627 6 14 0) 1490 = 145 := by
    rw [(match_test_frameM 1490).1]
    decide
  have c1629 : (match_test median_int_wirth (quick_interp frameM 6 14 [1, 1, 0, 0] 8192 46627) (some ((16800 : Int) : ℚ)) 46627 6 14 0) 1629 = -29 := by
    rw [(match_test_frameM 1629).1]
    decide
  have c1559 : (match_test median_int_wirth (quick_interp frameM 6 14 [1, 1, 0, 0] 8192 46627) (some ((16800 : Int) : ℚ)) 46627 6 14 0) 1559 = 55 := by
    rw [(match_test_frameM 1559).1]
    decide
  have c1594 : (match_test median_int_wirth (quick_interp frameM 6 14 [1, 1, 0, 0] 8192 46627) (some ((16800 : Int) : ℚ)) 46627 6 14 0) 1594 = 12 := by
    rw [(match_test_frameM 1594).1]
    decide
  have c1611 : (match_test median_int_wirth (quick_interp frameM 6 14 [1, 1, 0, 0] 8192 46627) (some ((16800 : Int) : ℚ)) 46627 6 14 0) 1611 = -8 := by
    rw [(match_test_frameM 1611).1]
    decide
  have c1602 : (match_test median_int_wirth (quick_interp frameM 6 14 [1, 1, 0, 0] 8192 46627) (some ((16800 : Int) : ℚ)) 46627 6 14 0) 1602 = 3 := by
    rw [(match_test_frameM 1602).1]
    decide
  have c1606 : (match_test median_int_wirth (quick_interp frameM 6 14 [1, 1, 0, 0] 8192 46627) (some ((16800 : Int) : ℚ)) 46627 6 14 0) 1606 = -2 := by
    rw [(match_test_frameM 1606).1]
    decide
  have c1604 : (match_test median_int_wirth (quick_interp frameM 6 14 [1, 1, 0, 0] 8192 46627) (some ((16800 : Int) : ℚ)) 46627 6 14 0) 1604 = 1 := by
    rw [(match_test_frameM 1604).1]
    decide
  have c1605 : (match_test median_int_wirth (quick_interp frameM 6 14 [1, 1, 0, 0] 8192 46627) (some ((16800 : Int) : ℚ)) 46627 6 14 0) 1605 = -1 := by
    rw [(match_test_frameM 1605).1]
    decide
  have s0 := (bin_search_step
    (match_test median_int_wirth (quick_interp frameM 6 14 [1, 1, 0, 0] 8192 46627) (some ((16800 : Int) : ℚ)) 46627 6 14 0)
    100 9000 4550 none (by decide) (by decide)).2 (by rw [c4550]; decide)
  have s1 := (bin_search_step
    (match_test median_int_wirth (quick_interp frameM 6 14 [1, 1, 0, 0] 8192 46627) (some ((16800 : Int) : ℚ)) 46627 6 14 0)
    100 4550 2325 (some 4550) (by decide) (by decide)).2 (by rw [c2325]; decide)
  have s2 := (bin_search_step
    (match_test median_int_wirth (quick_interp frameM 6 14 [1, 1, 0, 0] 8192 46627) (some ((16800 : Int) : ℚ)) 46627 6 14 0)
    100 2325 1212 (some 2325) (by decide) (by decide)).1 (by rw [c1212]; decide)
  have s3 := (bin_search_step
    (match_test median_int_wirth (quick_interp frameM 6 14 [1, 1, 0, 0] 8192 46627) (some ((16800 : Int) : ℚ)) 46627 6 14 0)
    1212 2325 1768 (some 1212) (by decide) (by decide)).2 (by rw [c1768]; decide)
  have s4 := (bin_search_step
    (match_test median_int_wirth (quick_interp frameM 6 14 [1, 1, 0, 0] 8192 46627) (some ((16800 : Int) : ℚ)) 46627 6 14 0)
    1212 1768 1490 (some 1768) (by decide) (by decide)).1 (by rw [c1490]; decide)
  have s5 := (bin_search_step
    (match_test median_int_wirth (quick_interp frameM 6 14 [1, 1, 0, 0] 8192 46627) (some ((16800 : Int) : ℚ)) 46627 6 14 0)
    1490 1768 1629 (some 1490) (by decide) (by decide)).2 (by rw [c1629]; decide)
  have s6 := (bin_search_step
    (match_test median_int_wirth (quick_interp frameM 6 14 [1, 1, 0, 0] 8192 46627) (some ((16800 : Int) : ℚ)) 46627 6 14 0)
    1490 1629 1559 (some 1629) (by decide) (by decide)).1 (by rw [c1559]; decide)
  have s7 := (bin_search_step
    (match_test median_int_wirth (quick_interp frameM 6 14 [1, 1, 0, 0] 8192 46627) (some ((16800 : Int) : ℚ)) 46627 6 14 0)
    1559 1629 1594 (some 1559) (by decide) (by decide)).1 (by rw [c1594]; decide)
  have s8 := (bin_search_step
    (match_test median_int_wirth (quick_interp frameM 6 14 [1, 1, 0, 0] 8192 46627) (some ((16800 : Int) : ℚ)) 46627 6 14 0)
    1594 1629 1611 (some 1594) (by decide) (by decide)).2 (by rw [c1611]; decide)
  have s9 := (bin_search_step
    (match_test median_int_wirth (quick_interp frameM 6 14 [1, 1, 0, 0] 8192 46627) (some ((16800 : Int) : ℚ)) 46627 6 14 0)
    1594 1611 1602 (some 1611) (by decide) (by decide)).1 (by rw [c1602]; decide)
  have s10 := (bin_search_step
    (match_test median_int_wirth (quick_interp frameM 6 14 [1, 1, 0, 0] 8192 46627) (some ((16800 : Int) : ℚ)) 46627 6 14 0)
    1602 1611 1606 (some 1602) (by decide) (by decide)).2 (by rw [c1606]; decide)
  have s11 := (bin_search_step
    (match_test median_int_wirth (quick_interp frameM 6 14 [1, 1, 0, 0] 8192 46627) (some ((16800 : Int) : ℚ)) 46627 6 14 0)
    1602 1606 1604 (some 1606) (by decide) (by decide)).1 (by rw [c1604]; decide)
  have s12 := (bin_search_step
    (match_test median_int_wirth (quick_interp frameM 6 14 [1, 1, 0, 0] 8192 46627) (some ((16800 : Int) : ℚ)) 46627 6 14 0)
    1604 1606 1605 (some 1604) (by decide) (by decide)).2 (by rw [c1605]; decide)
  have sb := bin_search_base (match_test median_int_wirth (quick_interp frameM 6 14 [1, 1, 0, 0] 8192 46627) (some ((16800 : Int) : ℚ)) 46627 6 14 0) 1604 1605 (some 1605) (by decide)
  exact ⟨by rw [s0.1, s1.1, s2.1, s3.1, s4.1, s5.1, s6.1, s7.1, s8.1, s9.1, s10.1, s11.1, s12.1, sb.1], by rw [s0.2, s1.2, s2.2, s3.2, s4.2, s5.2, s6.2, s7.2, s8.2, s9.2, s10.2, s11.2, s12.2, sb.2]⟩
/-- C25 (the code at the failing input): on `frameM` (black level 131072, white
levels 960000) the search probes 13 gains and ends with `match_test(1605) = -1`,
then returns `G = 1604` from the range `[1604, 1605)` without a further call.
`avg_delta` still holds the value -1 computed at 1605, so `off = 1`, whereas the
mean of the two group medians at the returned gain 1604 is 0. -/
theorem match_exposures_offset_last_probe :
    (match_exposures median_int_wirth frameM 6 14 0 [1, 1, 0, 0] 131072 960000 960000).ret
      = 1 ∧
    (match_exposures median_int_wirth frameM 6 14 0 [1, 1, 0, 0] 131072 960000 960000).gain
      = 1604 ∧
    bin_search_probe 100 9000
      (match_test median_int_wirth (quick_interp frameM 6 14 [1, 1, 0, 0] 8192 46627)
        (some ((16800 : Int) : ℚ)) 46627 6 14 0) none = some 1605 ∧
    (match_exposures median_int_wirth frameM 6 14 0 [1, 1, 0, 0] 131072 960000 960000).off
      = 1 ∧
    match_test_avg_delta median_int_wirth (quick_interp frameM 6 14 [1, 1, 0, 0] 8192 46627)
      (some ((16800 : Int) : ℚ)) 46627 6 14 0 1605 = -1 ∧
    match_test_avg_delta median_int_wirth (quick_interp frameM 6 14 [1, 1, 0, 0] 8192 46627)
      (some ((16800 : Int) : ℚ)) 46627 6 14 0 1604 = 0 := by
  have hb : match_black 131072 = 8192 := by decide
  have hmin : min (960000 : Int) 960000 = 960000 := by decide
  have d5 : match_test_avg_delta median_int_wirth
      (quick_interp frameM 6 14 [1, 1, 0, 0] 8192 46627)
      (some ((16800 : Int) : ℚ)) 46627 6 14 0 1605 = -1 := by
    rw [(match_test_frameM 1605).2]
    decide
  have d4 : match_test_avg_delta median_int_wirth
      (quick_interp frameM 6 14 [1, 1, 0, 0] 8192 46627)
      (some ((16800 : Int) : ℚ)) 46627 6 14 0 1604 = 0 := by
    rw [(match_test_frameM 1604).2]
    decide
  refine ⟨?_, ?_, bin_search_frameM.2, ?_, d5, d4⟩
  · unfold match_exposures
    simp only [hmin, hb, match_clip_frameM, avg_bright_frameM, bin_search_frameM.1]
    norm_num
  · unfold match_exposures
    simp only [hmin, hb, match_clip_frameM, avg_bright_frameM, bin_search_frameM.1]
  · unfold match_exposures
    simp only [hmin, hb, match_clip_frameM, avg_bright_frameM, bin_search_frameM.2, d5]
    decide

/-! ### The guards of black_subtract and black_subtract_simple -/

/-- C26: the guard `left_margin < 10 || top_margin < 10` of `black_subtract`
lets the margins 10 through, where the function is not well defined: with
`top_margin = 10` the first analysed row is `ymin = (10-8-3) & ~3 = -4`, and with
`left_margin = 10` the strip `x ∈ [2, left_margin - 8)` is empty, so
`vblack[y] = avg / num` divides by 0. From 11 on both margins are usable:
`0 ≤ ymin`, `ymin + 8 ≤ top_margin`, the strip has `left_margin - 10 > 0`
samples, and `black_subtract` returns on every frame with `top_margin ≤ h`. -/
theorem black_subtract_margin_ten :
    black_ymin 10 = -4 ∧
    (List.range ((10 : Int) - 10).toNat).length = 0 ∧
    (∀ (top_margin : Int) (buf : Nat → Nat) (w h : Nat) (black_level : Int),
      10 ≤ top_margin →
      black_subtract 10 top_margin buf w h black_level = none) ∧
    (∀ (left_margin : Int) (buf : Nat → Nat) (w h : Nat) (black_level : Int),
      10 ≤ left_margin →
      black_subtract left_margin 10 buf w h black_level = none) ∧
    (∀ (left_margin top_margin : Int) (buf : Nat → Nat) (w h : Nat) (black_level : Int),
      11 ≤ left_margin → 11 ≤ top_margin → top_margin ≤ h →
      0 ≤ black_ymin top_margin ∧ black_ymin top_margin + 8 ≤ top_margin ∧
      0 < (List.range (left_margin - 10).toNat).length ∧
      ∃ r, black_subtract left_margin top_margin buf w h black_level = some r ∧ r.ret = 1) := by
  refine ⟨by decide, by decide, ?_, ?_, ?_⟩
  · intro tm buf w h bl htm
    unfold black_subtract
    rw [if_neg (by omega)]
    simp only []
    rw [if_pos (Or.inl (by decide))]
  · intro lm buf w h bl hlm
    unfold black_subtract
    rw [if_neg (by omega)]
    simp only []
    rw [if_pos (Or.inr (Or.inl (by decide)))]
  · intro lm tm buf w h bl hlm htm hh
    have hy : 0 ≤ black_ymin tm ∧ black_ymin tm + 8 ≤ tm := by
      unfold black_ymin
      omega
    refine ⟨hy.1, hy.2, ?_, ?_⟩
    · rw [List.length_range]
      omega
    · unfold black_subtract
      rw [if_neg (by omega)]
      simp only []
      rw [if_neg (by omega)]
      exact ⟨_, rfl, rfl⟩

theorem black_strip_empty (buf : Nat → Nat) (w h : Nat) (left_margin top_margin : Int)
    (hl : left_margin ≤ 32) : black_strip buf w h left_margin top_margin = [] := by
  unfold black_strip
  have hc : (List.range left_margin.toNat).filter (fun x : Nat => decide (16 ≤ (x : Int)) &&
      decide ((x : Int) < left_margin - 16)) = [] := by
    rw [List.filter_eq_nil_iff]
    intro x _
    simp only [Bool.and_eq_true, decide_eq_true_eq]
    omega
  simp only [hc, List.map_nil]
  rw [List.filter_eq_nil_iff]
  intro p hp
  simp only [List.mem_flatMap, List.not_mem_nil, and_false, exists_false] at hp

/-- C27: the guard of `black_subtract_simple` lets every margin from 10 on
through, but the strip it averages has the columns `16 ≤ x < left_margin - 16`:
for `10 ≤ left_margin ≤ 32` (and any `top_margin ≥ 10`) the strip is empty and
`avg / num` divides by 0. With a margin below 10 the function returns 0 and
changes nothing; whenever the strip holds a positive sample it returns 1, sets
`black_level` to the mean, keeps `white_level - black_level` and the pixels. -/
theorem black_subtract_simple_small_margin (buf : Nat → Nat) (w h : Nat) (lv : Levels) :
    black_subtract_simple_frame 20 20 buf w h lv = none ∧
    (∀ left_margin top_margin : Int, 10 ≤ left_margin → left_margin ≤ 32 → 10 ≤ top_margin →
      black_strip buf w h left_margin top_margin = [] ∧
      black_subtract_simple_frame left_margin top_margin buf w h lv = none) ∧
    (∀ left_margin top_margin : Int, left_margin < 10 ∨ top_margin < 10 →
      ∃ r, black_subtract_simple_frame left_margin top_margin buf w h lv = some r ∧
        r.ret = 0 ∧ r.levels = lv ∧ r.buf = buf) ∧
    (∀ left_margin top_margin : Int, 10 ≤ left_margin → 10 ≤ top_margin →
      black_strip buf w h left_margin top_margin ≠ [] →
      ∃ r, black_subtract_simple_frame left_margin top_margin buf w h lv = some r ∧
        r.ret = 1 ∧
        r.levels.black_level = Int.tdiv (black_strip buf w h left_margin top_margin).sum
          (black_strip buf w h left_margin top_margin).length ∧
        r.levels.white_level - r.levels.black_level = lv.white_level - lv.black_level ∧
        r.buf = buf) := by
  have key : ∀ left_margin top_margin : Int, 10 ≤ left_margin → left_margin ≤ 32 →
      10 ≤ top_margin →
      black_strip buf w h left_margin top_margin = [] ∧
      black_subtract_simple_frame left_margin top_margin buf w h lv = none := by
    intro lm tm h1 h2 h3
    have he := black_strip_empty buf w h lm tm h2
    refine ⟨he, ?_⟩
    unfold black_subtract_simple_frame
    rw [if_neg (by omega), if_neg (by omega)]
    simp only [he, List.length_nil, if_true]
  refine ⟨(key 20 20 (by decide) (by decide) (by decide)).2, key, ?_, ?_⟩
  · intro lm tm hm
    unfold black_subtract_simple_frame
    by_cases h1 : lm < 10
    · rw [if_pos h1]
      exact ⟨_, rfl, rfl, rfl, rfl⟩
    · rw [if_neg h1, if_pos (by omega)]
      exact ⟨_, rfl, rfl, rfl, rfl⟩
  · intro lm tm h1 h2 hne
    have hlen : ¬ (black_strip buf w h lm tm).length = 0 := by
      rw [List.length_eq_zero]
      exact hne
    unfold black_subtract_simple_frame
    rw [if_neg (by omega), if_neg (by omega)]
    simp only [hlen, if_false]
    refine ⟨_, rfl, rfl, ?_, ?_, rfl⟩
    · show lv.black_level - (lv.black_level - _) = _
      omega
    · show lv.white_level - (lv.black_level - _) - (lv.black_level - (lv.black_level - _)) = _
      omega

set_option maxRecDepth 1000000 in
/-- A run of `black_subtract_simple` with a usable strip: on `frameS` with
`left_margin = 40`, `top_margin = 10` the strip holds 240 samples of 131000. -/
theorem black_subtract_simple_frameS :
    (black_strip frameS 60 80 40 10).length = 240 ∧
    (black_subtract_simple_frame 40 10 frameS 60 80 ⟨131072, 960000⟩).map
      (fun r => (r.ret, r.levels)) = some (1, ⟨131000, 959928⟩) := by
  have hl : (black_strip frameS 60 80 40 10).length = 240 := by decide
  have hs : (black_strip frameS 60 80 40 10).sum = 31440000 := by decide
  refine ⟨hl, ?_⟩
  unfold black_subtract_simple_frame
  rw [if_neg (by decide), if_neg (by decide)]
  simp only [hl, hs]
  decide

/-! ### The squeeze map -/

/-- C28: the squeeze map is not a packing without collisions. For `h = 8` and
the table `[1, 1, 0, 0]` (which satisfies I3) the dark rows 2, 3, 6, 7 go to the
squeezed rows 2, 3, 4, 5 and the bright rows 0, 1, 4, 5 to `h/4*2 + 0 = 4`, 5, 6,
7: the dark row 6 and the bright row 0 both get the squeezed row 4. The other
three tables collide as well at `h = 8`, and for `[0, 0, 1, 1]` the bright loop
leaves by its `break` before the rows 6 and 7 are assigned, so `squeezed[7]`
keeps the 0 of `memset`, of the other parity. The same happens at `h = 12`. -/
theorem squeezed_collision :
    I3 [1, 1, 0, 0] ∧ I3 [0, 1, 1, 0] ∧ I3 [0, 0, 1, 1] ∧ I3 [1, 0, 0, 1] ∧
    (List.range 8).map (squeezed [1, 1, 0, 0] 8) = [4, 5, 2, 3, 6, 7, 4, 5] ∧
    BRIGHT_ROW [1, 1, 0, 0] 0 = true ∧ BRIGHT_ROW [1, 1, 0, 0] 6 = false ∧
    squeezed [1, 1, 0, 0] 8 0 = squeezed [1, 1, 0, 0] 8 6 ∧
    (List.range 8).map (squeezed [0, 1, 1, 0] 8) = [0, 5, 6, 1, 2, 7, 0, 3] ∧
    (List.range 8).map (squeezed [0, 0, 1, 1] 8) = [0, 1, 6, 7, 2, 3, 0, 0] ∧
    (List.range 8).map (squeezed [1, 0, 0, 1] 8) = [4, 1, 2, 5, 6, 3, 4, 7] ∧
    (List.range 12).map (squeezed [1, 1, 0, 0] 12) = [6, 7, 2, 3, 8, 9, 4, 5, 10, 11, 6, 7] ∧
    (List.range 12).map (squeezed [0, 1, 1, 0] 12) = [0, 7, 8, 1, 2, 9, 10, 3, 4, 11, 0, 5] ∧
    (List.range 12).map (squeezed [0, 0, 1, 1] 12) = [0, 1, 8, 9, 2, 3, 10, 11, 4, 5, 0, 0] ∧
    (List.range 12).map (squeezed [1, 0, 0, 1] 12) = [6, 1, 2, 7, 8, 3, 4, 9, 10, 5, 6, 11] := by
  refine ⟨by decide, by decide, by decide, by decide, by decide, by decide, by decide,
    by decide, by decide, by decide, by decide, by decide, by decide, by decide, by decide⟩

/-! ### The pools of white_detect -/

set_option maxRecDepth 1000000 in
/-- C29: on a 64×64 frame whose active area is the whole frame, with the table
`[1, 1, 0, 0]` (which satisfies I3), `white_detect` visits 22×22 pixels, 242 for
each pool, while `max_pix = 64·64/2/9 = 227`. From the 228th sample of a pool on the
write goes to the last slot 226 again, and `kth_smallest_int` is then called with
`counts[i] = 242` entries on a pool of 227. -/
theorem white_detect_pool_overflow :
    I3 [1, 1, 0, 0] ∧ max_pix 64 64 = 227 ∧
    (white_detect_samples 0 64 0 64).length = 484 ∧
    white_detect_counts [1, 1, 0, 0] 0 64 0 64 0 = 242 ∧
    white_detect_counts [1, 1, 0, 0] 0 64 0 64 1 = 242 ∧
    ¬ ((white_detect_counts [1, 1, 0, 0] 0 64 0 64 0 : Int) ≤ max_pix 64 64) ∧
    white_detect_slot 226 (max_pix 64 64) = 226 ∧
    white_detect_slot 227 (max_pix 64 64) = 226 ∧
    white_detect_slot 241 (max_pix 64 64) = 226 := by
  refine ⟨by decide, by decide, by decide, by decide, by decide, by decide, by decide,
    by decide, by decide⟩

/-! ### The direction search -/

theorem edge_directions_bounds :
    ∀ d ∈ edge_directions, ∀ e ∈ d, -6 ≤ e.1 ∧ e.1 ≤ 6 ∧ -3 ≤ e.2 ∧ e.2 ≤ 3 := by
  decide

/-- C30: the loops `5 ≤ x < w-5`, `5 ≤ y < h-5` keep every row `y + dy·s` of the
direction search inside `[0, h)`, but not every column: the offsets of the
catalogue reach ±6 and the trail adds ±5, so the columns stay inside `[0, w)`
for `11 ≤ x < w-11` only. At `x = 5`, `y = 5` on a frame of width 32, the
direction 0 with `s = 1` and `j = -5` reads `ack` at column `5 - 4 - 5 = -4` of
row 7, which is the cell `(28, 6)` of `gray[]`, a sample of row 6. -/
theorem edge_search_columns :
    (∀ (h x y : Nat) (s j : Int), 5 ≤ y → y + 5 < h → (s = 1 ∨ s = -1) →
      ∀ d ∈ edge_directions, ∀ e ∈ d,
        0 ≤ (edge_sample x y s j e).2 ∧ (edge_sample x y s j e).2 < h) ∧
    (∀ (w x y : Nat) (s j : Int), 11 ≤ x → x + 11 < w → -5 ≤ j → j ≤ 5 →
      ∀ d ∈ edge_directions, ∀ e ∈ d,
        0 ≤ (edge_sample x y s j e).1 ∧ (edge_sample x y s j e).1 < w) ∧
    edge_directions.getD 0 [] = [(-4, 2), (-2, 1), (4, -2), (6, -3)] ∧
    edge_sample 5 5 1 (-5) (-4, 2) = (-4, 7) ∧
    edge_sample_index 32 5 5 1 (-5) (-4, 2) = 28 + 6 * 32 ∧
    edge_sample 26 5 1 5 (6, -3) = (37, 2) ∧
    edge_sample_index 32 26 5 1 5 (6, -3) = 5 + 3 * 32 := by
  refine ⟨?_, ?_, by decide, by decide, by decide, by decide, by decide⟩
  · intro h x y s j hy hy2 hs d hd e he
    obtain ⟨-, -, h3, h4⟩ := edge_directions_bounds d hd e he
    unfold edge_sample
    simp only
    rcases hs with rfl | rfl <;> omega
  · intro w x y s j hx hx2 hj hj2 d hd e he
    obtain ⟨h1, h2, -, -⟩ := edge_directions_bounds d hd e he
    unfold edge_sample
    simp only
    omega

/-! ### The pixels read by the mean23 interpolation -/

/-- The two interpolated values of `mean23_cell` depend on the buffer only
through the rows `y-2`, `y+2`, `y+s` and `y-2s`. -/
theorem mean23_cell_interp_congr (raw2ev ev2raw : Int → Int) (buf1 buf2 : Nat → Nat) (w : Nat)
    (is_bright : List Int) (white_darkened white_level : Int) (x y : Nat)
    (hagree : ∀ x2 r : Nat, x2 < w →
      (r = y - 2 ∨ r = y + 2 ∨ r = ((y : Int) + interp_s is_bright y).toNat ∨
        r = ((y : Int) - 2 * interp_s is_bright y).toNat) →
      buf1 (x2 + r * w) = buf2 (x2 + r * w))
    (hx : 1 ≤ x) (hx3 : x + 3 < w) :
    (mean23_cell raw2ev ev2raw buf1 w is_bright white_darkened white_level x y).take 2 =
      (mean23_cell raw2ev ev2raw buf2 w is_bright white_darkened white_level x y).take 2 := by
  have hr : ∀ x2 r : Nat, x2 < w →
      (r = y - 2 ∨ r = y + 2 ∨ r = ((y : Int) + interp_s is_bright y).toNat ∨
        r = ((y : Int) - 2 * interp_s is_bright y).toNat) →
      raw_get_pixel32 buf1 w x2 r = raw_get_pixel32 buf2 w x2 r := by
    intro x2 r h1 h2
    unfold raw_get_pixel32
    rw [hagree x2 r h1 h2]
  have e1 := hr x (y - 2) (by omega) (Or.inl rfl)
  have e2 := hr x (y + 2) (by omega) (Or.inr (Or.inl rfl))
  have e3 := hr (x + 1) (y - 2) (by omega) (Or.inl rfl)
  have e4 := hr (x + 1) (y + 2) (by omega) (Or.inr (Or.inl rfl))
  have e5 := hr (x + 1 + 1) ((y : Int) + interp_s is_bright y).toNat (by omega)
    (Or.inr (Or.inr (Or.inl rfl)))
  have e6 := hr (x + 1 - 1) ((y : Int) + interp_s is_bright y).toNat (by omega)
    (Or.inr (Or.inr (Or.inl rfl)))
  have e7 := hr (x + 1) ((y : Int) + interp_s is_bright y).toNat (by omega)
    (Or.inr (Or.inr (Or.inl rfl)))
  have e8 := hr (x - 1) ((y : Int) + interp_s is_bright y).toNat (by omega)
    (Or.inr (Or.inr (Or.inl rfl)))
  have e9 := hr (x + 1) ((y : Int) - 2 * interp_s is_bright y).toNat (by omega)
    (Or.inr (Or.inr (Or.inr rfl)))
  have e10 := hr x ((y : Int) - 2 * interp_s is_bright y).toNat (by omega)
    (Or.inr (Or.inr (Or.inr rfl)))
  unfold mean23_cell
  by_cases hp : y % 2 = 0
  · simp only [hp, if_true, List.take, e1, e2, e5, e6, e9]
  · simp only [hp, if_false, List.take, e3, e4, e7, e8, e10]
theorem tmod_four_toNat (n : Nat) : (Int.tmod (n : Int) 4).toNat = n % 4 := by
  rw [Int.tmod_eq_emod (by omega) (by decide)]
  omega

/-- C14: the mean23 interpolation reads only pixels of the opposite exposure.
For every table satisfying I3 and every pixel pair of the loop (`y ≥ 2`,
`2 ≤ x < w-3`), with `s = −1` if `is_bright[y%4] = is_bright[(y+1)%4]` and `s = +1`
otherwise: the rows `y−2`, `y+2`, `y+s` and `y−2s` all have a row class whose
`is_bright` value differs from that of row `y`; the two interpolated values that
`mean23_cell` writes at `(x, y)` and `(x+1, y)` go to the buffer of the other
exposure and depend on the mosaic only through these four rows; hence they do
not change when the mosaic is changed on the rows of the exposure of row `y`. -/
theorem mean23_reads_opposite (is_bright : List Int) (hI3 : I3 is_bright) (w x y : Nat)
    (hy : 2 ≤ y) (hx : 2 ≤ x) (hx3 : x + 3 < w) :
    (row_bright is_bright ((y : Int) - 2) ≠ row_bright is_bright y ∧
      row_bright is_bright ((y : Int) + 2) ≠ row_bright is_bright y ∧
      row_bright is_bright ((y : Int) + interp_s is_bright y) ≠ row_bright is_bright y ∧
      row_bright is_bright ((y : Int) - 2 * interp_s is_bright y) ≠ row_bright is_bright y) ∧
    (∀ (raw2ev ev2raw : Int → Int) (buf : Nat → Nat) (white_darkened white_level : Int),
      ∀ wr ∈ (mean23_cell raw2ev ev2raw buf w is_bright white_darkened white_level x y).take 2,
        wr.1 = !(BRIGHT_ROW is_bright y) ∧ (wr.2.1 = x + y * w ∨ wr.2.1 = x + 1 + y * w)) ∧
    (∀ (raw2ev ev2raw : Int → Int) (buf1 buf2 : Nat → Nat) (white_darkened white_level : Int),
      (∀ x2 r : Nat, x2 < w →
        (r = y - 2 ∨ r = y + 2 ∨ (r : Int) = (y : Int) + interp_s is_bright y ∨
          (r : Int) = (y : Int) - 2 * interp_s is_bright y) →
        buf1 (x2 + r * w) = buf2 (x2 + r * w)) →
      (mean23_cell raw2ev ev2raw buf1 w is_bright white_darkened white_level x y).take 2 =
        (mean23_cell raw2ev ev2raw buf2 w is_bright white_darkened white_level x y).take 2) ∧
    (∀ (raw2ev ev2raw : Int → Int) (buf1 buf2 : Nat → Nat) (white_darkened white_level : Int),
      (∀ x2 r : Nat, x2 < w → row_bright is_bright (r : Int) ≠ row_bright is_bright (y : Int) →
        buf1 (x2 + r * w) = buf2 (x2 + r * w)) →
      (mean23_cell raw2ev ev2raw buf1 w is_bright white_darkened white_level x y).take 2 =
        (mean23_cell raw2ev ev2raw buf2 w is_bright white_darkened white_level x y).take 2) := by
  have hrows := interp_rows_opposite is_bright hI3 y hy
  have hs : interp_s is_bright y = -1 ∨ interp_s is_bright y = 1 := by
    unfold interp_s
    split
    · exact Or.inl rfl
    · exact Or.inr rfl
  have key : ∀ (raw2ev ev2raw : Int → Int) (buf1 buf2 : Nat → Nat)
      (white_darkened white_level : Int),
      (∀ x2 r : Nat, x2 < w →
        (r = y - 2 ∨ r = y + 2 ∨ (r : Int) = (y : Int) + interp_s is_bright y ∨
          (r : Int) = (y : Int) - 2 * interp_s is_bright y) →
        buf1 (x2 + r * w) = buf2 (x2 + r * w)) →
      (mean23_cell raw2ev ev2raw buf1 w is_bright white_darkened white_level x y).take 2 =
        (mean23_cell raw2ev ev2raw buf2 w is_bright white_darkened white_level x y).take 2 := by
    intro raw2ev ev2raw buf1 buf2 wd wl hagree
    apply mean23_cell_interp_congr raw2ev ev2raw buf1 buf2 w is_bright wd wl x y ?_
      (by omega) hx3
    intro x2 r h1 h2
    apply hagree x2 r h1
    rcases h2 with h | h | h | h
    · exact Or.inl h
    · exact Or.inr (Or.inl h)
    · refine Or.inr (Or.inr (Or.inl ?_))
      rw [h]
      rcases hs with e | e <;> rw [e] <;> omega
    · refine Or.inr (Or.inr (Or.inr ?_))
      rw [h]
      rcases hs with e | e <;> rw [e] <;> omega
  refine ⟨hrows, ?_, key, ?_⟩
  · intro raw2ev ev2raw buf wd wl wr hwr
    unfold mean23_cell at hwr
    by_cases hp : y % 2 = 0
    · simp only [hp, if_true, List.take, List.mem_cons, List.mem_singleton, List.mem_nil_iff,
        or_false] at hwr
      rcases hwr with rfl | rfl
      · exact ⟨rfl, Or.inl rfl⟩
      · exact ⟨rfl, Or.inr rfl⟩
    · simp only [hp, if_false, List.take, List.mem_cons, List.mem_singleton, List.mem_nil_iff,
        or_false] at hwr
      rcases hwr with rfl | rfl
      · exact ⟨rfl, Or.inl rfl⟩
      · exact ⟨rfl, Or.inr rfl⟩
  · intro raw2ev ev2raw buf1 buf2 wd wl hagree
    apply key raw2ev ev2raw buf1 buf2 wd wl
    intro x2 r h1 h2
    apply hagree x2 r h1
    obtain ⟨r1, r2, r3, r4⟩ := hrows
    rcases h2 with h | h | h | h
    · have e : ((r : Nat) : Int) = (y : Int) - 2 := by omega
      rw [e]
      exact r1
    · have e : ((r : Nat) : Int) = (y : Int) + 2 := by omega
      rw [e]
      exact r2
    · rw [h]
      exact r3
    · rw [h]
      exact r4

/-- C14, witness: the table `[1, 1, 0, 0]`, the pixel pair at `(2, 6)` of an
8×8 frame (row 6 is dark; `s = −1`, so the rows read are 4, 8, 5 and 8, all
bright): zeroing every dark row of `frameE` leaves the interpolated values as
they were. -/
theorem mean23_reads_opposite_witness :
    I3 [1, 1, 0, 0] ∧ interp_s [1, 1, 0, 0] 6 = -1 ∧
    frameE (2 + 6 * 8) = 206002 ∧ frameE_bright_only (2 + 6 * 8) = 0 ∧
    ∀ (raw2ev ev2raw : Int → Int),
      (mean23_cell raw2ev ev2raw frameE 8 [1, 1, 0, 0] 900000 960000 2 6).take 2 =
        (mean23_cell raw2ev ev2raw frameE_bright_only 8 [1, 1, 0, 0] 900000 960000 2 6).take 2 := by
  refine ⟨by decide, by decide, by decide, by decide, ?_⟩
  intro raw2ev ev2raw
  refine (mean23_reads_opposite [1, 1, 0, 0] (by decide) 8 2 6 (by decide) (by decide)
    (by decide)).2.2.2 raw2ev ev2raw frameE frameE_bright_only 900000 960000 ?_
  intro x2 r h1 h2
  have hd := cell_div_mod r h1
  have h6 : row_bright [1, 1, 0, 0] ((6 : Nat) : Int) = 0 := by decide
  rw [h6] at h2
  unfold frameE_bright_only
  rw [hd.1]
  have hr : ¬ 2 ≤ r % 4 := by
    intro hge
    apply h2
    unfold row_bright is_bright_at
    rw [tmod_four_toNat]
    have h4 : r % 4 = 2 ∨ r % 4 = 3 := by omega
    rcases h4 with e | e <;> rw [e] <;> rfl
  rw [if_neg hr]

end Cr2hdr
